import Mathlib

/-!
# KSF chart loader (`NotesLoaderKSF.cpp`)

A shallow embedding of the KSF step-chart loader: the per-chart pass
`LoadFromKSFFile` with its helpers `HandleBunki` and `HandlePipeChars`, the
song-level pass `LoadGlobalData` with `LoadTags`, and `KSFLoader::LoadFromDir`.

Conventions of the embedding.

* C++ `float` values are exact rationals (`ℚ`); division by zero is `0` as in
  Mathlib, where the C++ code yields an infinity. The rounding of `float`
  arithmetic is represented in one place, the beat counter of the row loop
  (`decodeRowsF32`), for the statement on the spacing of the note rows, which
  depends on it.
* A function returning `bool` whose body may also raise a C++ exception returns
  `Except LoadError _`: `.ok` is `return true` together with the state written
  through the reference parameters, `.error returnedFalse` is `return false`.
* Collaborators whose code is not part of `NotesLoaderKSF.cpp` and whose
  behaviour the loader does not fix (record reader, number parsing, case
  folding, path splitting, line splitting, post-processing) are the fields of
  one structure `Ext`; every theorem holds for all such collaborators.
-/

namespace KSF

/-! ## Strings (`RString` is a `std::string`) -/

/-- Substring search on character lists: `pat` occurs contiguously in the list. -/
def findIn : List Char → List Char → Bool
  | [], pat => pat.isEmpty
  | c :: cs, pat => pat.isPrefixOf (c :: cs) || findIn cs pat

/-- The test `s.find(sub) != string::npos`. -/
def find (s sub : String) : Bool := findIn s.data sub.data

/-- The helper `BeginsWith( sTestThis, sBeginning )`. -/
def BeginsWith (sTestThis sBeginning : String) : Bool :=
  sBeginning.data.isPrefixOf sTestThis.data

/-- The helper `EndsWith( sTestThis, sEnding )`. -/
def EndsWith (sTestThis sEnding : String) : Bool :=
  sEnding.data.isSuffixOf sTestThis.data

/-- Outcomes of the loader other than `return true`. -/
inductive LoadError where
  /-- The function executed `return false`. -/
  | returnedFalse
  /-- The exception `std::out_of_range`, raised by `std::string::substr` when `pos > size()`. -/
  | outOfRange
  /-- An assertion failed: `FAIL_M` was reached, or the condition of an `ASSERT` was false. -/
  | failM
  deriving DecidableEq, Repr

/-- Width of `size_t` arithmetic: `size() - 3` wraps around modulo this value. -/
def SIZE_MODULUS : Nat := 2 ^ 64

/-- The call `s.substr(pos, n)`: throws `std::out_of_range` when `pos > s.size()`,
otherwise the at most `n` characters from index `pos`. -/
def substr (s : String) (pos n : Nat) : Except LoadError String :=
  if pos > s.length then .error .outOfRange
  else .ok ⟨(s.data.drop pos).take n⟩

/-- The call `s.erase(0, n)`. -/
def erase0 (s : String) (n : Nat) : String := ⟨s.data.drop n⟩

/-- The access `s[t]`; `s[s.size()]` is the null character, and so is, in this
embedding, every access past the end (undefined behaviour in C++). -/
def charAt (s : String) (t : Nat) : Char := s.data.getD t (Char.ofNat 0)

/-- The conversion `static_cast<int>(f)`: truncation toward zero. -/
def floatToInt (f : ℚ) : Int := Int.tdiv f.num f.den

/-- The macro `clamp(val, low, high)`, that is `max(low, min(val, high))`. -/
def clamp (val low high : Int) : Int := max low (min val high)

/-! ## Rows and beats (`NoteTypes.h`) -/

/-- Modelled from the spec: `NoteTypes.h` is not among the sources. The number
of rows in one beat ("one full beat's worth of subdivisions"). -/
def ROWS_PER_BEAT : Int := 48

/-- Rounding of a rational to the nearest integer, ties to the even integer
(the C function `lrintf` in the default rounding mode). -/
def lrintf (x : ℚ) : Int :=
  let f : Int := x.num / x.den
  let r : Int := 2 * (x.num - f * x.den)
  if r < x.den then f
  else if (x.den : Int) < r then f + 1
  else if f % 2 = 0 then f else f + 1

/-- Modelled from the spec: `NoteTypes.h` is not among the sources. A beat is
converted to a row as `row = beat × rows-per-beat`, rounded to the nearest row. -/
def BeatToNoteRow (fBeatNum : ℚ) : Int := lrintf (fBeatNum * ROWS_PER_BEAT)

/-! ## Timing track (`TimingData`) -/

/-- A tempo segment `(startRow, beatsPerMinute)`. -/
structure BPMSegment where
  m_iStartRow : Int
  m_fBPM : ℚ
  deriving DecidableEq, Repr

/-- A stop segment `(row, durationSeconds, isDelay)`. -/
structure StopSegment where
  m_iStartRow : Int
  m_fStopSeconds : ℚ
  m_bDelay : Bool
  deriving DecidableEq, Repr

/-- A tick segment `(startRow, ticksPerBeat)`. -/
structure TickcountSegment where
  m_iStartRow : Int
  m_iTicks : Int
  deriving DecidableEq, Repr

/-- Modelled from the spec: `TimingData` is not among the sources. A timing
track is an offset and three sequences of segments ordered by start row. -/
structure TimingData where
  m_fBeat0OffsetInSeconds : ℚ
  m_BPMSegments : List BPMSegment
  m_StopSegments : List StopSegment
  m_TickcountSegments : List TickcountSegment
  deriving DecidableEq, Repr

/-- A freshly constructed timing track. -/
def TimingData.empty : TimingData := ⟨0, [], [], []⟩

/-- Insertion into a sequence ordered by `key`, after the entries whose key is
not larger. -/
def insertByRow {α : Type} (key : α → Int) (x : α) : List α → List α
  | [] => [x]
  | y :: ys => if key x < key y then x :: y :: ys else y :: insertByRow key x ys

/-- Replacement of the first entry satisfying `p` by `x`; `none` when there is
no such entry. -/
def replaceFirst {α : Type} (p : α → Bool) (x : α) : List α → Option (List α)
  | [] => none
  | y :: ys => if p y then some (x :: ys) else (replaceFirst p x ys).map (y :: ·)

namespace TimingData

/-- Modelled from the spec: `TimingData::AddBPMSegment` is not among the
sources. The segment is inserted at its place in the row order. -/
def AddBPMSegment (t : TimingData) (seg : BPMSegment) : TimingData :=
  { t with m_BPMSegments := insertByRow BPMSegment.m_iStartRow seg t.m_BPMSegments }

/-- Modelled from the spec: `TimingData::AddTickcountSegment` is not among the
sources. The segment is inserted at its place in the row order. -/
def AddTickcountSegment (t : TimingData) (seg : TickcountSegment) : TimingData :=
  { t with m_TickcountSegments :=
      insertByRow TickcountSegment.m_iStartRow seg t.m_TickcountSegments }

/-- Modelled from the spec: `TimingData::SetTickcountAtBeat` is not among the
sources. "Record as a tick segment at the current beat": the segment of that
row is replaced, or a new one is inserted. -/
def SetTickcountAtBeat (t : TimingData) (fBeat : ℚ) (iTicks : Int) : TimingData :=
  let seg : TickcountSegment := ⟨BeatToNoteRow fBeat, iTicks⟩
  match replaceFirst (fun s => s.m_iStartRow == seg.m_iStartRow) seg t.m_TickcountSegments with
  | some l => { t with m_TickcountSegments := l }
  | none => t.AddTickcountSegment seg

/-- Modelled from the spec: `TimingData::SetBPMAtBeat` is not among the
sources. "Set tempo at current beat to the parsed value": the segment of that
row is replaced, or a new one is inserted. -/
def SetBPMAtBeat (t : TimingData) (fBeat : ℚ) (fBPM : ℚ) : TimingData :=
  let seg : BPMSegment := ⟨BeatToNoteRow fBeat, fBPM⟩
  match replaceFirst (fun s => s.m_iStartRow == seg.m_iStartRow) seg t.m_BPMSegments with
  | some l => { t with m_BPMSegments := l }
  | none => t.AddBPMSegment seg

/-- Modelled from the spec: `TimingData::GetBPMAtBeat` is not among the
sources. The tempo in effect at a beat is that of the last segment starting at
or before its row ("a later insertion at the same or later row shadows prior
effective tempo"); `0` when there is none. -/
def GetBPMAtBeat (t : TimingData) (fBeat : ℚ) : ℚ :=
  match (t.m_BPMSegments.filter (fun s => s.m_iStartRow ≤ BeatToNoteRow fBeat)).getLast? with
  | some s => s.m_fBPM
  | none => 0

/-- Modelled from the spec: `TimingData` is not among the sources. A stop
segment is plain or "delay"-flavoured (the third argument of `SetStopAtBeat`).
The duration of the stop of the given flavour at a row, `0` when there is
none. -/
def GetStopAtRowFlavor (t : TimingData) (iRow : Int) (bDelay : Bool) : ℚ :=
  match t.m_StopSegments.find? (fun s => s.m_bDelay == bDelay && s.m_iStartRow == iRow) with
  | some s => s.m_fStopSeconds
  | none => 0

/-- Modelled from the spec: `TimingData::GetStopAtRow` is not among the
sources. The specification has `|D` "add to the existing stop duration at the
current row": the getter gives the duration of the stop segment that is at the
row, whatever its flavour (the first one in the order of the track), `0` when
there is none. -/
def GetStopAtRow (t : TimingData) (iRow : Int) : ℚ :=
  match t.m_StopSegments.find? (fun s => s.m_iStartRow == iRow) with
  | some s => s.m_fStopSeconds
  | none => 0

/-- Modelled from the spec: `TimingData::GetDelayAtRow` is not among the
sources. The duration of the delay-flavoured stop at a row. -/
def GetDelayAtRow (t : TimingData) (iRow : Int) : ℚ := t.GetStopAtRowFlavor iRow true

/-- Modelled from the spec: `TimingData::SetStopAtBeat` is not among the
sources. The stop of the given flavour at the row of the beat is set to the
given duration: the segment is replaced, or a new one is inserted. -/
def SetStopAtBeat (t : TimingData) (fBeat : ℚ) (fSeconds : ℚ) (bDelay : Bool) : TimingData :=
  let seg : StopSegment := ⟨BeatToNoteRow fBeat, fSeconds, bDelay⟩
  match replaceFirst (fun s => s.m_bDelay == bDelay && s.m_iStartRow == seg.m_iStartRow) seg
      t.m_StopSegments with
  | some l => { t with m_StopSegments := l }
  | none => { t with m_StopSegments := insertByRow StopSegment.m_iStartRow seg t.m_StopSegments }

end TimingData

/-! ## Note grid (`NoteData`) and chart (`Steps`) -/

/-- Kinds of note events. -/
inductive TapNote where
  | TAP_EMPTY
  | TAP_ORIGINAL_TAP
  | TAP_ORIGINAL_HOLD_HEAD
  | TAP_ORIGINAL_MINE
  | TAP_ORIGINAL_FAKE
  | TAP_ORIGINAL_LIFT
  deriving DecidableEq, Repr

/-- One event recorded in a note grid. -/
inductive NoteEvent where
  /-- The call `SetTapNote( track, row, tn )`. -/
  | tap (track : Nat) (row : Int) (tn : TapNote)
  /-- The call `AddHoldNote( track, iStartRow, iEndRow, head )`. -/
  | hold (track : Nat) (iStartRow iEndRow : Int) (head : TapNote)
  deriving DecidableEq, Repr

/-- Modelled from the spec: `NoteData` is not among the sources. A note grid
is a fixed number of columns and the row-indexed events recorded in it, kept
here in the order in which the decoder records them. -/
structure NoteData where
  numTracks : Nat
  events : List NoteEvent
  deriving DecidableEq, Repr

namespace NoteData

/-- A freshly constructed note grid. -/
def empty : NoteData := ⟨0, []⟩

/-- The call `SetNumTracks( n )`. -/
def SetNumTracks (nd : NoteData) (n : Nat) : NoteData := { nd with numTracks := n }

/-- The call `GetNumTracks()`. -/
def GetNumTracks (nd : NoteData) : Nat := nd.numTracks

/-- The call `SetTapNote( track, row, tn )`. -/
def SetTapNote (nd : NoteData) (track : Nat) (row : Int) (tn : TapNote) : NoteData :=
  { nd with events := nd.events ++ [NoteEvent.tap track row tn] }

/-- The call `AddHoldNote( track, iStartRow, iEndRow, head )`. -/
def AddHoldNote (nd : NoteData) (track : Nat) (iStartRow iEndRow : Int) (head : TapNote) :
    NoteData :=
  { nd with events := nd.events ++ [NoteEvent.hold track iStartRow iEndRow head] }

end NoteData

/-- Difficulty tiers; `Difficulty_Invalid` is the value of a chart that has none yet. -/
inductive Difficulty where
  | Difficulty_Beginner
  | Difficulty_Easy
  | Difficulty_Medium
  | Difficulty_Hard
  | Difficulty_Challenge
  | Difficulty_Edit
  | Difficulty_Invalid
  deriving DecidableEq, Repr

/-- Step layouts; `StepsType_Invalid` stands for every layout the loader does not assign. -/
inductive StepsType where
  | StepsType_pump_single
  | StepsType_pump_halfdouble
  | StepsType_pump_double
  | StepsType_pump_couple
  | StepsType_pump_routine
  | StepsType_Invalid
  deriving DecidableEq, Repr

/-- Modelled from the spec: `Steps` is not among the sources. The chart object:
its metadata, its timing track and its note grid. -/
structure Steps where
  m_Timing : TimingData
  m_StepsType : StepsType
  m_iMeter : Int
  m_Difficulty : Difficulty
  m_sDescription : String
  m_NoteData : NoteData
  m_bSavedToDisk : Bool
  deriving DecidableEq, Repr

namespace Steps

/-- The chart made by `Song::CreateSteps()`: nothing set, meter `0`. -/
def fresh : Steps :=
  ⟨TimingData.empty, .StepsType_Invalid, 0, .Difficulty_Invalid, "", NoteData.empty, false⟩

/-- The call `SetMeter( meter )`. -/
def SetMeter (s : Steps) (meter : Int) : Steps := { s with m_iMeter := meter }

/-- The call `GetMeter()`. -/
def GetMeter (s : Steps) : Int := s.m_iMeter

/-- The call `SetDifficulty( dc )`. -/
def SetDifficulty (s : Steps) (dc : Difficulty) : Steps := { s with m_Difficulty := dc }

/-- The call `SetDescription( sDescription )`. -/
def SetDescription (s : Steps) (sDescription : String) : Steps :=
  { s with m_sDescription := sDescription }

/-- The call `SetNoteData( noteDataNew )`. -/
def SetNoteData (s : Steps) (noteDataNew : NoteData) : Steps :=
  { s with m_NoteData := noteDataNew }

/-- The call `SetSavedToDisk( b )`. -/
def SetSavedToDisk (s : Steps) (b : Bool) : Steps := { s with m_bSavedToDisk := b }

end Steps

/-! ## External collaborators -/

/-- The collaborators of the loader whose code is not in `NotesLoaderKSF.cpp`. -/
structure Ext where
  /-- The record reader `MsdFile::ReadFile` followed by `GetValue(0..n-1)`:
  the ordered records of a file, each the list of its parameters, or `none`
  when the file cannot be read. -/
  ReadFile : String → Option (List (List String))
  /-- Number parsing `StringToFloat`. -/
  StringToFloat : String → ℚ
  /-- Number parsing `StringToInt`. -/
  StringToInt : String → Int
  /-- Case folding `RString::MakeUpper`. -/
  MakeUpper : String → String
  /-- Case folding `RString::MakeLower`. -/
  MakeLower : String → String
  /-- Path splitting `splitpath`: directory, base name and extension. -/
  splitpath : String → String × String × String
  /-- Whitespace trimming `TrimLeft`. -/
  TrimLeft : String → String
  /-- Line splitting `split( source, delimiter, addTo, ignoreEmpty )`: the
  vector `addTo` after the call. -/
  split : String → String → List String → Bool → List String
  /-- Line-end stripping `StripCrnl`. -/
  StripCrnl : String → String
  /-- Post-processing `Steps::TidyUpData`. -/
  TidyUpData : Steps → Steps

/-- The access `sParams[i]` of a record; a missing parameter reads as the empty string. -/
def param (sParams : List String) (i : Nat) : String := sParams.getD i ""

/-! ## `HandleBunki` and `HandlePipeChars` -/

/-- The function `HandleBunki` (lines 12-21). -/
def HandleBunki (timing : TimingData) (fEarlyBPM fCurBPM fGap fPos : ℚ) : TimingData :=
  let BeatsPerSecond : ℚ := fEarlyBPM / 60
  let beat : ℚ := (fPos + fGap) * BeatsPerSecond
  timing.AddBPMSegment ⟨BeatToNoteRow beat, fCurBPM⟩

/-- The function `HandlePipeChars` (lines 23-55). The result is the returned
flag, the timing track and the caller's tick count after the call. -/
def HandlePipeChars (E : Ext) (timing : TimingData) (sNoteRow : String) (fCurBeat : ℚ)
    (iTickCount : Int) : Except LoadError (Bool × TimingData × Int) :=
  match substr sNoteRow 2 ((sNoteRow.length + SIZE_MODULUS - 3) % SIZE_MODULUS) with
  | .error e => .error e
  | .ok temp =>
    let numTemp : ℚ := E.StringToFloat temp
    if BeginsWith sNoteRow "|T" then
      let iTickCount' : Int := floatToInt numTemp
      .ok (true, timing.SetTickcountAtBeat fCurBeat (clamp iTickCount' 0 ROWS_PER_BEAT),
        iTickCount')
    else if BeginsWith sNoteRow "|B" then
      .ok (true, timing.SetBPMAtBeat fCurBeat numTemp, iTickCount)
    else if BeginsWith sNoteRow "|E" then
      let fCurDelay : ℚ := 60 / timing.GetBPMAtBeat fCurBeat * numTemp / iTickCount
      let fCurDelay : ℚ := fCurDelay + timing.GetDelayAtRow (BeatToNoteRow fCurBeat)
      .ok (true, timing.SetStopAtBeat fCurBeat fCurDelay true, iTickCount)
    else if BeginsWith sNoteRow "|D" then
      let fCurDelay : ℚ := timing.GetStopAtRow (BeatToNoteRow fCurBeat)
      let fCurDelay : ℚ := fCurDelay + numTemp / 1000
      .ok (true, timing.SetStopAtBeat fCurBeat fCurDelay true, iTickCount)
    else
      .ok (false, timing, iTickCount)

/-! ## `LoadFromKSFFile`: the header records (lines 68-199) -/

/-- The local variables of `LoadFromKSFFile` that the record loop writes,
together with the chart `out` and the flag `bKIUCompliant`. -/
structure KSFHeader where
  out : Steps
  bKIUCompliant : Bool
  iTickCount : Int
  vNoteRows : List String
  bDoublesChart : Bool
  stepsTiming : TimingData
  SMGap1 : ℚ
  SMGap2 : ℚ
  BPM1 : ℚ
  BPMPos2 : ℚ
  BPM2 : ℚ
  BPMPos3 : ℚ
  BPM3 : ℚ
  deriving DecidableEq, Repr

/-- The variables as initialised in lines 68-75. -/
def KSFHeader.init (out : Steps) (bKIUCompliant : Bool) : KSFHeader :=
  { out := out, bKIUCompliant := bKIUCompliant, iTickCount := -1, vNoteRows := [],
    bDoublesChart := false, stepsTiming := TimingData.empty,
    SMGap1 := 0, SMGap2 := 0, BPM1 := -1, BPMPos2 := -1, BPM2 := -1, BPMPos3 := -1,
    BPM3 := -1 }

/-- One iteration of the record loop (lines 79-192). -/
def readValue (E : Ext) (h : KSFHeader) (sParams : List String) :
    Except LoadError KSFHeader :=
  let sValueName : String := E.MakeUpper (param sParams 0)
  if sValueName = "TITLE" || EndsWith sValueName "INTRO" || EndsWith sValueName "FILE" then
    .ok h
  else if sValueName = "BPM" then
    let BPM1 : ℚ := E.StringToFloat (param sParams 1)
    .ok { h with BPM1 := BPM1, stepsTiming := h.stepsTiming.AddBPMSegment ⟨0, BPM1⟩ }
  else if sValueName = "BPM2" then
    if h.bKIUCompliant then .ok { h with BPM2 := E.StringToFloat (param sParams 1) }
    else .ok h
  else if sValueName = "BPM3" then
    if h.bKIUCompliant then .ok { h with BPM3 := E.StringToFloat (param sParams 1) }
    else .ok h
  else if sValueName = "BUNKI" then
    if h.bKIUCompliant then
      .ok { h with BPMPos2 := E.StringToFloat (param sParams 1) / 100 }
    else .ok h
  else if sValueName = "BUNKI2" then
    if h.bKIUCompliant then
      .ok { h with BPMPos3 := E.StringToFloat (param sParams 1) / 100 }
    else .ok h
  else if sValueName = "STARTTIME" then
    let SMGap1 : ℚ := -E.StringToFloat (param sParams 1) / 100
    .ok { h with SMGap1 := SMGap1,
                 stepsTiming := { h.stepsTiming with m_fBeat0OffsetInSeconds := SMGap1 } }
  else if sValueName = "STARTTIME2" then
    if h.bKIUCompliant then
      .ok { h with SMGap2 := -E.StringToFloat (param sParams 1) / 100 }
    else .ok h
  else if sValueName = "STARTTIME3" then
    .ok { h with bKIUCompliant := true }
  else if sValueName = "TICKCOUNT" then
    let iTickCount : Int := E.StringToInt (param sParams 1)
    if iTickCount ≤ 0 then .error .returnedFalse
    else
      .ok { h with iTickCount := iTickCount,
                   out := { h.out with
                     m_Timing := h.out.m_Timing.AddTickcountSegment ⟨0, iTickCount⟩ } }
  else if sValueName = "DIFFICULTY" then
    .ok { h with out := h.out.SetMeter (max (E.StringToInt (param sParams 1)) 0) }
  else if sValueName = "PLAYER" then
    let sPlayer : String := E.MakeLower (param sParams 1)
    if find sPlayer "double" then .ok { h with bDoublesChart := true } else .ok h
  else if sValueName = "STEP" then
    let theSteps : String := E.TrimLeft (param sParams 1)
    .ok { h with vNoteRows := E.split theSteps "\n" h.vNoteRows true }
  else
    .ok h

/-- The record loop (lines 77-193). -/
def readValues (E : Ext) : List (List String) → KSFHeader → Except LoadError KSFHeader
  | [], h => .ok h
  | sParams :: rest, h =>
    match readValue E h sParams with
    | .ok h' => readValues E rest h'
    | .error e => .error e

/-- The tick count after the default of lines 195-199. -/
def defaultTickCount (iTickCount : Int) : Int :=
  if iTickCount = -1 then 4 else iTickCount

/-- The tempo changes of the newer dialect (lines 201-213). -/
def prepareBPM (h : KSFHeader) : TimingData :=
  if h.bKIUCompliant then
    let t1 : TimingData :=
      if h.BPM2 > 0 ∧ h.BPMPos2 > 0 then
        HandleBunki h.stepsTiming h.BPM1 h.BPM2 h.SMGap1 h.BPMPos2
      else h.stepsTiming
    if h.BPM3 > 0 ∧ h.BPMPos3 > 0 then
      HandleBunki t1 h.BPM2 h.BPM3 h.SMGap2 h.BPMPos3
    else t1
  else h.stepsTiming

/-! ## `LoadFromKSFFile`: metadata from the file name (lines 217-283) -/

/-- The statement `if( !out.GetMeter() ) out.SetMeter( meter );`. -/
def setMeterIfUnset (out : Steps) (meter : Int) : Steps :=
  if out.GetMeter = 0 then out.SetMeter meter else out

/-- The difficulty chain on the lower-cased base name (lines 224-259). -/
def classifyDifficulty (sFName : String) (out : Steps) : Steps :=
  if find sFName "another" then
    setMeterIfUnset (out.SetDifficulty .Difficulty_Edit) 25
  else if find sFName "wild" || find sFName "wd" || find sFName "crazy+"
      || find sFName "cz+" || find sFName "hardcore" then
    setMeterIfUnset (out.SetDifficulty .Difficulty_Challenge) 20
  else if find sFName "crazy" || find sFName "cz" || find sFName "nightmare"
      || find sFName "nm" || find sFName "crazydouble" then
    setMeterIfUnset (out.SetDifficulty .Difficulty_Hard) 14
  else if find sFName "hard" || find sFName "hd" || find sFName "freestyle"
      || find sFName "fs" || find sFName "double" then
    setMeterIfUnset (out.SetDifficulty .Difficulty_Medium) 8
  else if find sFName "easy" || find sFName "ez" || find sFName "normal" then
    setMeterIfUnset (out.SetDifficulty .Difficulty_Easy) 4
  else if find sFName "beginner" || find sFName "practice" || find sFName "pr" then
    setMeterIfUnset (out.SetDifficulty .Difficulty_Beginner) 4
  else
    setMeterIfUnset (out.SetDifficulty .Difficulty_Hard) 10

/-- The layout chain on the lower-cased base name (lines 261-272). -/
def classifyStepsType (sFName : String) (bDoublesChart : Bool) (out : Steps) : Steps :=
  let out : Steps := { out with m_StepsType := .StepsType_pump_single }
  if find sFName "halfdouble" || find sFName "half-double" || find sFName "h_double"
      || find sFName "hdb" then
    { out with m_StepsType := .StepsType_pump_halfdouble }
  else if find sFName "double" || find sFName "nightmare" || find sFName "freestyle"
      || find sFName "db" || find sFName "nm" || find sFName "fs" || bDoublesChart then
    { out with m_StepsType := .StepsType_pump_double }
  else if find sFName "_1" then
    { out with m_StepsType := .StepsType_pump_single }
  else if find sFName "_2" then
    { out with m_StepsType := .StepsType_pump_couple }
  else out

/-- The `switch` of lines 275-283: the number of columns of a layout. -/
def numTracksOf : StepsType → Except LoadError Nat
  | .StepsType_pump_single => .ok 5
  | .StepsType_pump_couple => .ok 10
  | .StepsType_pump_double => .ok 10
  | .StepsType_pump_routine => .ok 10
  | .StepsType_pump_halfdouble => .ok 6
  | .StepsType_Invalid => .error .failM

/-! ## `LoadFromKSFFile`: the note rows (lines 285-408) -/

/-- The end-of-chart row. -/
def SENTINEL : String := "2222222222222"

/-- The local variables of `LoadFromKSFFile` that the row loop writes. -/
structure RowState where
  stepsTiming : TimingData
  notedata : NoteData
  iTickCount : Int
  iHoldStartRow : List Int
  bTickChangeNeeded : Bool
  newTick : Int
  fCurBeat : ℚ
  prevBeat : ℚ
  deriving DecidableEq, Repr

/-- The variables as initialised in lines 285-293. -/
def RowState.init (stepsTiming : TimingData) (notedata : NoteData) (iTickCount : Int) :
    RowState :=
  { stepsTiming := stepsTiming, notedata := notedata, iTickCount := iTickCount,
    iHoldStartRow := List.replicate 13 (-1), bTickChangeNeeded := false, newTick := -1,
    fCurBeat := 0, prevBeat := 0 }

/-- The access `iHoldStartRow[t]`. -/
def RowState.holdStart (s : RowState) (t : Nat) : Int := s.iHoldStartRow.getD t (-1)

/-- The body of the sentinel loop for one column (lines 309-315). -/
def finishHold (s : RowState) (t : Nat) : RowState :=
  if s.holdStart t ≠ -1 then
    if s.holdStart t = BeatToNoteRow s.prevBeat then
      { s with notedata := s.notedata.SetTapNote t (s.holdStart t) .TAP_ORIGINAL_TAP }
    else
      { s with notedata := s.notedata.AddHoldNote t (s.holdStart t)
                 (BeatToNoteRow s.prevBeat) .TAP_ORIGINAL_HOLD_HEAD }
  else s

/-- The `switch` of lines 379-402: the note kind of a character. -/
def tapOfChar (c : Char) : TapNote :=
  if c = '0' then .TAP_EMPTY
  else if c = '1' then .TAP_ORIGINAL_TAP
  else if c = 'M' ∨ c = 'm' then .TAP_ORIGINAL_MINE
  else if c = 'F' ∨ c = 'f' then .TAP_ORIGINAL_FAKE
  else if c = 'L' ∨ c = 'l' then .TAP_ORIGINAL_LIFT
  else .TAP_EMPTY

/-- The body of the column loop (lines 357-404). -/
def decodeColumn (sRowString : String) (s : RowState) (t : Nat) : RowState :=
  if charAt sRowString t = '4' then
    if s.holdStart t = -1 then
      { s with iHoldStartRow := s.iHoldStartRow.set t (BeatToNoteRow s.fCurBeat) }
    else s
  else
    let s1 : RowState :=
      if s.holdStart t ≠ -1 then
        let iEndRow : Int := BeatToNoteRow s.prevBeat
        let nd : NoteData :=
          if s.holdStart t = iEndRow then
            s.notedata.SetTapNote t (s.holdStart t) .TAP_ORIGINAL_TAP
          else
            s.notedata.AddHoldNote t (s.holdStart t) iEndRow .TAP_ORIGINAL_HOLD_HEAD
        { s with notedata := nd, iHoldStartRow := s.iHoldStartRow.set t (-1) }
      else s
    { s1 with notedata :=
        s1.notedata.SetTapNote t (BeatToNoteRow s1.fCurBeat) (tapOfChar (charAt sRowString t)) }

/-- The part of the loop body that decodes a note row (lines 344-407). -/
def decodeNoteRow (stepsType : StepsType) (s : RowState) (sRowString : String) : RowState :=
  let sRowString : String :=
    if stepsType = .StepsType_pump_halfdouble then erase0 sRowString 2 else sRowString
  let s : RowState :=
    if s.bTickChangeNeeded then { s with iTickCount := s.newTick, bTickChangeNeeded := false }
    else s
  let s : RowState := (List.range s.notedata.GetNumTracks).foldl (decodeColumn sRowString) s
  { s with prevBeat := s.fCurBeat, fCurBeat := s.fCurBeat + 1 / (s.iTickCount : ℚ) }

/-- One iteration of the row loop (lines 297-407). The flag of the result is
`true` when the iteration ends in `break`. -/
def rowStep (E : Ext) (bKIUCompliant : Bool) (stepsType : StepsType) (s : RowState)
    (sRow : String) : Except LoadError (RowState × Bool) :=
  let sRowString : String := E.StripCrnl sRow
  if sRowString = "" then .ok (s, false)
  else if sRowString = SENTINEL then
    .ok ((List.range s.notedata.GetNumTracks).foldl finishHold s, true)
  else if BeginsWith sRowString "|" then
    if bKIUCompliant then .ok (s, false)
    else
      match HandlePipeChars E s.stepsTiming sRowString s.fCurBeat s.iTickCount with
      | .error e => .error e
      | .ok (_, timing, iTickCount) =>
        .ok ({ s with stepsTiming := timing, iTickCount := iTickCount }, false)
  else .ok (decodeNoteRow stepsType s sRowString, false)

/-- The row loop (lines 295-408). -/
def decodeRows (E : Ext) (bKIUCompliant : Bool) (stepsType : StepsType) :
    List String → RowState → Except LoadError RowState
  | [], s => .ok s
  | sRow :: rest, s =>
    match rowStep E bKIUCompliant stepsType s sRow with
    | .error e => .error e
    | .ok (s', true) => .ok s'
    | .ok (s', false) => decodeRows E bKIUCompliant stepsType rest s'

/-! ## `LoadFromKSFFile`: the whole function -/

/-- Lines 195-411: the chart built from the variables left by the record loop. -/
def buildSteps (E : Ext) (sPath : String) (h : KSFHeader) : Except LoadError Steps :=
  let iTickCount : Int := defaultTickCount h.iTickCount
  let stepsTiming : TimingData := prepareBPM h
  let sFName : String := E.MakeLower (E.splitpath sPath).2.1
  let out : Steps := h.out.SetDescription sFName
  let out : Steps := classifyDifficulty sFName out
  let out : Steps := classifyStepsType sFName h.bDoublesChart out
  match numTracksOf out.m_StepsType with
  | .error e => .error e
  | .ok n =>
    match decodeRows E h.bKIUCompliant out.m_StepsType h.vNoteRows
        (RowState.init stepsTiming (NoteData.empty.SetNumTracks n) iTickCount) with
    | .error e => .error e
    | .ok s => .ok { out.SetNoteData s.notedata with m_Timing := s.stepsTiming }

/-- Lines 57-411 of `LoadFromKSFFile`: the chart as it is just before the call
of `TidyUpData`. -/
def LoadSteps (E : Ext) (sPath : String) (out : Steps) (bKIUCompliant : Bool) :
    Except LoadError Steps :=
  match E.ReadFile sPath with
  | none => .error .returnedFalse
  | some values =>
    match readValues E values (KSFHeader.init out bKIUCompliant) with
    | .error e => .error e
    | .ok h => buildSteps E sPath h

/-- The function `LoadFromKSFFile` (lines 57-418); the parameter `song` is not used. -/
def LoadFromKSFFile (E : Ext) (sPath : String) (out : Steps) (bKIUCompliant : Bool) :
    Except LoadError Steps :=
  match LoadSteps E sPath out bKIUCompliant with
  | .error e => .error e
  | .ok out' => .ok ((E.TidyUpData out').SetSavedToDisk true)

/-! ## Sample collaborators

Concrete collaborators on which the loader can be evaluated: ASCII case
folding, decimal numbers, newline-separated lines, and a file system that is a
finite table. -/

/-- Value of a string of decimal digits; characters that are not digits end it. -/
def digitsValue : List Char → Nat → Nat
  | [], acc => acc
  | c :: cs, acc => if c.isDigit then digitsValue cs (acc * 10 + (c.toNat - 48)) else acc

/-- Integer parsing, an optional minus sign followed by digits. -/
def sampleStringToInt (s : String) : Int :=
  match s.data with
  | '-' :: cs => -(digitsValue cs 0 : Int)
  | cs => (digitsValue cs 0 : Int)

/-- Splitting of a character list at each occurrence of a delimiter. -/
def splitChars (delim : List Char) : List Char → Nat → List Char → List (List Char)
  | [], _, cur => [cur.reverse]
  | _ :: cs, skip + 1, cur => splitChars delim cs skip cur
  | c :: cs, 0, cur =>
    if delim.isPrefixOf (c :: cs) then cur.reverse :: splitChars delim cs (delim.length - 1) []
    else splitChars delim cs 0 (c :: cur)

/-- Line splitting: the pieces are appended to the vector, empty ones left out on request. -/
def sampleSplit (src delim : String) (addTo : List String) (bIgnoreEmpty : Bool) :
    List String :=
  addTo ++ ((splitChars delim.data src.data 0 []).map String.mk).filter
    (fun piece => !(bIgnoreEmpty && piece.data.isEmpty))

/-- Removal of trailing carriage returns and newlines from a reversed character list. -/
def dropCrnl : List Char → List Char
  | [] => []
  | c :: cs => if c = '\r' ∨ c = '\n' then dropCrnl cs else c :: cs

/-- Sample collaborators over a file table. -/
def sampleExt (files : List (String × List (List String))) : Ext where
  ReadFile := fun sPath => (files.find? (fun f => f.1 == sPath)).map (·.2)
  StringToFloat := fun s => (sampleStringToInt s : ℚ)
  StringToInt := sampleStringToInt
  MakeUpper := fun s => ⟨s.data.map Char.toUpper⟩
  MakeLower := fun s => ⟨s.data.map Char.toLower⟩
  splitpath := fun sPath => ("", ⟨sPath.data.takeWhile (· ≠ '.')⟩, ⟨sPath.data.dropWhile (· ≠ '.')⟩)
  TrimLeft := fun s => ⟨s.data.dropWhile (fun c => c = ' ' ∨ c = '\t' ∨ c = '\r' ∨ c = '\n')⟩
  split := sampleSplit
  StripCrnl := fun s => ⟨(dropCrnl s.data.reverse).reverse⟩
  TidyUpData := id

/-! ## The ordered rules of the difficulty chain, as a table -/

/-- The keywords tested by each rule of the difficulty chain, in the order of the code. -/
def difficultyKeywords : List (List String) :=
  [["another"],
   ["wild", "wd", "crazy+", "cz+", "hardcore"],
   ["crazy", "cz", "nightmare", "nm", "crazydouble"],
   ["hard", "hd", "freestyle", "fs", "double"],
   ["easy", "ez", "normal"],
   ["beginner", "practice", "pr"]]

/-- The tier and default meter assigned by each rule of the difficulty chain. -/
def difficultyTiers : List (Difficulty × Int) :=
  [(.Difficulty_Edit, 25), (.Difficulty_Challenge, 20), (.Difficulty_Hard, 14),
   (.Difficulty_Medium, 8), (.Difficulty_Easy, 4), (.Difficulty_Beginner, 4)]

/-- The name contains a keyword of the `k`-th rule. -/
def matchesRule (k : Nat) (sFName : String) : Bool :=
  (difficultyKeywords.getD k []).any (find sFName)

/-- The tier and default meter of the `k`-th rule; past the last rule, the fallback. -/
def tierOfRule (k : Nat) : Difficulty × Int :=
  difficultyTiers.getD k (.Difficulty_Hard, 10)

/-- The keywords listed by the specification for the difficulty rules. -/
def listedKeywords : List String :=
  ["another", "wild", "crazy+", "hardcore", "crazy", "nightmare", "hard", "freestyle",
   "double", "easy", "normal", "beginner", "practice"]

/-- The lower-cased base name of a chart file (lines 218-220). -/
def baseName (E : Ext) (sPath : String) : String := E.MakeLower (E.splitpath sPath).2.1

/-! ## Predicates on file names and records used by the statements -/

/-- The upper-cased name of a record (lines 80-81). -/
def valueName (E : Ext) (sParams : List String) : String := E.MakeUpper (param sParams 0)

/-- The default meter that the difficulty chain derives from a base name: the
meter it assigns to a chart whose meter is unset. -/
def defaultMeter (sFName : String) : Int := (classifyDifficulty sFName Steps.fresh).m_iMeter

/-- The name contains one of the half-double keywords (line 264). -/
def isHalfDoubleName (sFName : String) : Bool :=
  find sFName "halfdouble" || find sFName "half-double" || find sFName "h_double"
    || find sFName "hdb"

/-- The name contains one of the keywords of the double test (line 267). -/
def isDoubleName (sFName : String) : Bool :=
  find sFName "double" || find sFName "nightmare" || find sFName "freestyle"
    || find sFName "db" || find sFName "nm" || find sFName "fs"

/-- Some `PLAYER` record contains `double`, ignoring case (lines 179-185). -/
def hasPlayerDouble (E : Ext) (values : List (List String)) : Bool :=
  values.any (fun v => decide (valueName E v = "PLAYER")
    && find (E.MakeLower (param v 1)) "double")

/-! ## Predicates on note grids used by the statements -/

/-- No hold event of the grid has its head row equal to its tail row. -/
def NoZeroLengthHold (nd : NoteData) : Prop :=
  ∀ t a b hd, NoteEvent.hold t a b hd ∈ nd.events → a ≠ b

/-- The lines examined by the row loop (lines 295-408), each with the values
of the loop variables at the start of its iteration. -/
def decodeTrace (E : Ext) (bKIUCompliant : Bool) (stepsType : StepsType) :
    List String → RowState → List (String × RowState)
  | [], _ => []
  | sRow :: rest, s =>
    (sRow, s) ::
      (match rowStep E bKIUCompliant stepsType s sRow with
       | .ok (s', false) => decodeTrace E bKIUCompliant stepsType rest s'
       | _ => [])

/-- The line is not blank: it is not empty after `StripCrnl` (line 300). -/
def isNonBlank (E : Ext) (sRow : String) : Bool := decide (E.StripCrnl sRow ≠ "")

/-- The event is a hold event of column `t`. -/
def NoteEvent.isHoldOf (t : Nat) : NoteEvent → Bool
  | .hold track _ _ _ => track == t
  | .tap _ _ _ => false

/-- The hold events of column `t` recorded in a grid, in the order of recording. -/
def holdsOf (t : Nat) (nd : NoteData) : List NoteEvent :=
  nd.events.filter (NoteEvent.isHoldOf t)

/-- The character that the column loop reads for column `t` of a line (lines
345-357): for the half-double layout the first two characters are erased first. -/
def columnChar (stepsType : StepsType) (sRowString : String) (t : Nat) : Char :=
  charAt (if stepsType = .StepsType_pump_halfdouble then erase0 sRowString 2 else sRowString) t

/-- The line is decoded as a note row: after `StripCrnl` it is neither empty,
nor the sentinel row, nor a pipe line. -/
def isNoteLine (E : Ext) (sRow : String) : Prop :=
  E.StripCrnl sRow ≠ "" ∧ E.StripCrnl sRow ≠ SENTINEL ∧ BeginsWith (E.StripCrnl sRow) "|" = false

/-- The line is skipped by the row loop: after `StripCrnl` it is empty or a pipe line. -/
def isSkippedLine (E : Ext) (sRow : String) : Prop :=
  E.StripCrnl sRow = "" ∨ BeginsWith (E.StripCrnl sRow) "|" = true

/-! ## Song and the collaborators of the song-level functions -/

/-- Modelled from the spec: `Song` is not among the sources. The song object:
its directory, the metadata that the loader fills in, its own timing track and
the charts added to it. -/
structure Song where
  m_sSongDir : String
  m_sMainTitle : String
  m_sArtist : String
  m_sMusicFile : String
  m_sBackgroundFile : String
  m_sBannerFile : String
  m_fMusicSampleStartSeconds : ℚ
  m_fMusicSampleLengthSeconds : ℚ
  m_SongTiming : TimingData
  m_vpSteps : List Steps
  deriving DecidableEq, Repr

namespace Song

/-- A song of the given directory with nothing loaded yet. -/
def fresh (sSongDir : String) : Song :=
  ⟨sSongDir, "", "", "", "", "", 0, 0, TimingData.empty, []⟩

/-- The call `GetSongDir()`. -/
def GetSongDir (s : Song) : String := s.m_sSongDir

/-- The call `CreateSteps()`: a new chart with nothing set. -/
def CreateSteps (_s : Song) : Steps := Steps.fresh

/-- The call `AddSteps( pSteps )`: the chart is added after the charts already there. -/
def AddSteps (s : Song) (pSteps : Steps) : Song := { s with m_vpSteps := s.m_vpSteps ++ [pSteps] }

end Song

/-- The collaborators of `LoadTags`, `LoadGlobalData` and `KSFLoader::LoadFromDir`
whose code is not in `NotesLoaderKSF.cpp`, in addition to those of the per-chart pass. -/
structure SongExt extends Ext where
  /-- Comparison `RString::EqualsNoCase`. -/
  EqualsNoCase : String → String → Bool
  /-- Encoding conversion `ConvertString( s, encodings )`: the converted string,
  or `none` when the conversion fails. -/
  ConvertString : String → String → Option String
  /-- Directory listing `GetDirListing( sPath, addTo )`: the vector `addTo` after the call. -/
  GetDirListing : String → List String → List String
  /-- Time parsing `HHMMSSToSeconds`. -/
  HHMMSSToSeconds : String → ℚ

/-! ## `LoadTags` (lines 420-460) -/

/-- The test of lines 427-434: three parts, the third a difficulty word. -/
def hasDifficultySuffix (G : SongExt) (asBits : List String) : Bool :=
  decide (asBits.length = 3) && (
    G.EqualsNoCase (asBits.getD 2 "") "double" ||
    G.EqualsNoCase (asBits.getD 2 "") "easy" ||
    G.EqualsNoCase (asBits.getD 2 "") "normal" ||
    G.EqualsNoCase (asBits.getD 2 "") "hard" ||
    G.EqualsNoCase (asBits.getD 2 "") "crazy" ||
    G.EqualsNoCase (asBits.getD 2 "") "nightmare")

/-- The statement `if( !ConvertString( s, "korean" ) ) s = "";`. -/
def convertOrEmpty (G : SongExt) (s : String) : String :=
  match G.ConvertString s "korean" with
  | some s' => s'
  | none => ""

/-- The function `LoadTags` (lines 420-460). -/
def LoadTags (G : SongExt) (str : String) (out : Song) : Song :=
  let asBits : List String := G.split str " - " [] false
  let asBits : List String :=
    if hasDifficultySuffix G asBits then asBits.eraseIdx 2 else asBits
  let artist : String := if asBits.length = 2 then asBits.getD 0 "" else ""
  let title : String :=
    if asBits.length = 2 then asBits.getD 1 ""
    else if asBits.length = 1 then asBits.getD 0 "" else ""
  let title : String := convertOrEmpty G title
  let artist : String := convertOrEmpty G artist
  let out : Song := if out.m_sMainTitle = "" then { out with m_sMainTitle := title } else out
  if out.m_sArtist = "" then { out with m_sArtist := artist } else out

/-! ## `LoadGlobalData` (lines 462-666) -/

/-- The local variables of `LoadGlobalData` that the record loop writes,
together with the song `out` and the flag `bKIUCompliant`. -/
structure GlobalHeader where
  out : Song
  bKIUCompliant : Bool
  iTickCount : Int
  vNoteRows : List String
  SMGap1 : ℚ
  SMGap2 : ℚ
  BPM1 : ℚ
  BPMPos2 : ℚ
  BPM2 : ℚ
  BPMPos3 : ℚ
  BPM3 : ℚ
  deriving DecidableEq, Repr

/-- The variables as initialised in lines 483-486. -/
def GlobalHeader.init (out : Song) : GlobalHeader :=
  { out := out, bKIUCompliant := false, iTickCount := -1, vNoteRows := [],
    SMGap1 := 0, SMGap2 := 0, BPM1 := -1, BPMPos2 := -1, BPM2 := -1, BPMPos3 := -1,
    BPM3 := -1 }

/-- One iteration of the record loop of `LoadGlobalData` (lines 490-593). -/
def readGlobalValue (G : SongExt) (g : GlobalHeader) (sParams : List String) : GlobalHeader :=
  let sValueName : String := G.MakeUpper (param sParams 0)
  if sValueName = "TITLE" then
    { g with out := LoadTags G (param sParams 1) g.out }
  else if sValueName = "BPM" then
    let BPM1 : ℚ := G.StringToFloat (param sParams 1)
    { g with BPM1 := BPM1,
             out := { g.out with m_SongTiming := g.out.m_SongTiming.AddBPMSegment ⟨0, BPM1⟩ } }
  else if sValueName = "BPM2" then
    { g with bKIUCompliant := true, BPM2 := G.StringToFloat (param sParams 1) }
  else if sValueName = "BPM3" then
    { g with bKIUCompliant := true, BPM3 := G.StringToFloat (param sParams 1) }
  else if sValueName = "BUNKI" then
    { g with bKIUCompliant := true, BPMPos2 := G.StringToFloat (param sParams 1) / 100 }
  else if sValueName = "BUNKI2" then
    { g with bKIUCompliant := true, BPMPos3 := G.StringToFloat (param sParams 1) / 100 }
  else if sValueName = "STARTTIME" then
    let SMGap1 : ℚ := -G.StringToFloat (param sParams 1) / 100
    { g with SMGap1 := SMGap1,
             out := { g.out with m_SongTiming :=
               { g.out.m_SongTiming with m_fBeat0OffsetInSeconds := SMGap1 } } }
  else if sValueName = "STARTTIME2" then
    { g with bKIUCompliant := true, SMGap2 := -G.StringToFloat (param sParams 1) / 100 }
  else if sValueName = "STARTTIME3" then
    { g with bKIUCompliant := true }
  else if sValueName = "TICKCOUNT" then
    let iTickCount : Int := G.StringToInt (param sParams 1)
    let iTickCount : Int := if iTickCount > 0 then iTickCount else 2
    let tcs : TickcountSegment :=
      ⟨BeatToNoteRow 0, if iTickCount > ROWS_PER_BEAT then ROWS_PER_BEAT else iTickCount⟩
    { g with iTickCount := iTickCount,
             out := { g.out with m_SongTiming := g.out.m_SongTiming.AddTickcountSegment tcs } }
  else if sValueName = "STEP" then
    let theSteps : String := G.TrimLeft (param sParams 1)
    { g with vNoteRows := G.split theSteps "\n" g.vNoteRows true }
  else if sValueName = "DIFFICULTY" then
    g
  else if sValueName = "MUSICINTRO" || sValueName = "INTRO" then
    { g with out := { g.out with
        m_fMusicSampleStartSeconds := G.HHMMSSToSeconds (param sParams 1) } }
  else if sValueName = "TITLEFILE" then
    { g with out := { g.out with m_sBackgroundFile := param sParams 1 } }
  else if sValueName = "DISCFILE" then
    { g with out := { g.out with m_sBannerFile := param sParams 1 } }
  else if sValueName = "SONGFILE" then
    { g with out := { g.out with m_sMusicFile := param sParams 1 } }
  else
    g

/-- The record loop of `LoadGlobalData` (lines 488-594). -/
def readGlobalValues (G : SongExt) (values : List (List String)) (g : GlobalHeader) :
    GlobalHeader :=
  values.foldl (readGlobalValue G) g

/-- The variables of the scan of the note rows in `LoadGlobalData` (lines 617-653). -/
structure ScanState where
  timing : TimingData
  iTickCount : Int
  fCurBeat : ℚ
  bDMRequired : Bool
  bKIUCompliant : Bool
  deriving DecidableEq, Repr

/-- The test of lines 636-637: the line begins with `|T`, `|B`, `|D` or `|E`. -/
def isDirective (sRowString : String) : Bool :=
  BeginsWith sRowString "|T" || BeginsWith sRowString "|B" || BeginsWith sRowString "|D"
    || BeginsWith sRowString "|E"

/-- One iteration of the scan (lines 622-652). The flag of the result is `true`
when the iteration ends in `break`. -/
def scanStep (G : SongExt) (s : ScanState) (sRow : String) :
    Except LoadError (ScanState × Bool) :=
  let NoteRowString : String := G.StripCrnl sRow
  if NoteRowString = "" then .ok (s, false)
  else if NoteRowString = SENTINEL then
    .ok (if !s.bDMRequired then { s with bKIUCompliant := true } else s, true)
  else if isDirective NoteRowString then
    match HandlePipeChars G.toExt s.timing NoteRowString s.fCurBeat s.iTickCount with
    | .error e => .error e
    | .ok (_, timing, iTickCount) =>
      .ok ({ s with bDMRequired := true, timing := timing, iTickCount := iTickCount }, false)
  else
    .ok ({ s with fCurBeat := s.fCurBeat + 1 / (s.iTickCount : ℚ) }, false)

/-- The scan of the note rows (lines 620-653). -/
def scanRows (G : SongExt) : List String → ScanState → Except LoadError ScanState
  | [], s => .ok s
  | sRow :: rest, s =>
    match scanStep G s sRow with
    | .error e => .error e
    | .ok (s', true) => .ok s'
    | .ok (s', false) => scanRows G rest s'

/-- Lines 599-654 of `LoadGlobalData`: the tempo changes, by the header tags in
the newer dialect and by the scan of the note rows otherwise. The result is the
song timing and the flag `bKIUCompliant`. -/
def globalTiming (G : SongExt) (g : GlobalHeader) : Except LoadError (TimingData × Bool) :=
  if g.bKIUCompliant then
    let t1 : TimingData :=
      if g.BPM2 > 0 ∧ g.BPMPos2 > 0 then
        HandleBunki g.out.m_SongTiming g.BPM1 g.BPM2 g.SMGap1 g.BPMPos2
      else g.out.m_SongTiming
    let t2 : TimingData :=
      if g.BPM3 > 0 ∧ g.BPMPos3 > 0 then
        HandleBunki t1 g.BPM2 g.BPM3 g.SMGap2 g.BPMPos3
      else t1
    .ok (t2, true)
  else
    match scanRows G g.vNoteRows
        { timing := g.out.m_SongTiming, iTickCount := g.iTickCount, fCurBeat := 0,
          bDMRequired := false, bKIUCompliant := false } with
    | .error e => .error e
    | .ok s => .ok (s.timing, s.bKIUCompliant)

/-- The function `LoadGlobalData` (lines 462-666). The result is the song and
the flag `bKIUCompliant` after a `return true`; at `return false` neither has
been written. -/
def LoadGlobalData (G : SongExt) (sPath : String) (out : Song) (_bKIUCompliant : Bool) :
    Except LoadError (Song × Bool) :=
  match G.ReadFile sPath with
  | none => .error .returnedFalse
  | some values =>
    let arrayPossibleMusic : List String := G.GetDirListing (out.GetSongDir ++ "song.mp3") []
    let arrayPossibleMusic := G.GetDirListing (out.GetSongDir ++ "song.oga") arrayPossibleMusic
    let arrayPossibleMusic := G.GetDirListing (out.GetSongDir ++ "song.ogg") arrayPossibleMusic
    let arrayPossibleMusic := G.GetDirListing (out.GetSongDir ++ "song.wav") arrayPossibleMusic
    let out : Song :=
      if arrayPossibleMusic.isEmpty then out
      else { out with m_sMusicFile := arrayPossibleMusic.getD 0 "" }
    let g : GlobalHeader := readGlobalValues G values (GlobalHeader.init out)
    let out : Song := { g.out with m_fMusicSampleLengthSeconds := 7 }
    match globalTiming G { g with out := out } with
    | .error e => .error e
    | .ok (timing, bKIUCompliant) =>
      let out : Song := { out with m_SongTiming := timing }
      let asBits : List String := G.split sPath "/" [] true
      if asBits.length > 1 then
        .ok (LoadTags G (asBits.getD (asBits.length - 2) "") out, bKIUCompliant)
      else .error .failM

/-! ## `KSFLoader::LoadFromDir` (lines 673-705) -/

/-- The loop of lines 692-702: the charts of the files, added to the song. -/
def loadAllSteps (G : SongExt) (bKIUCompliant : Bool) : List String → Song → Except LoadError Song
  | [], out => .ok out
  | sName :: rest, out =>
    match LoadFromKSFFile G.toExt (out.GetSongDir ++ sName) out.CreateSteps bKIUCompliant with
    | .ok pNewNotes => loadAllSteps G bKIUCompliant rest (out.AddSteps pNewNotes)
    | .error .returnedFalse => loadAllSteps G bKIUCompliant rest out
    | .error e => .error e

/-- The function `KSFLoader::LoadFromDir` (lines 673-705). The result is the
returned flag and the song. -/
def LoadFromDir (G : SongExt) (sDir : String) (out : Song) : Except LoadError (Bool × Song) :=
  let arrayKSFFileNames : List String := G.GetDirListing (sDir ++ "*.ksf") []
  if arrayKSFFileNames.length = 0 then .error .failM
  else
    match LoadGlobalData G (out.GetSongDir ++ arrayKSFFileNames.getD 0 "") out false with
    | .error .returnedFalse => .ok (false, out)
    | .error e => .error e
    | .ok (out', bKIUCompliant) =>
      match loadAllSteps G bKIUCompliant arrayKSFFileNames out' with
      | .error e => .error e
      | .ok out'' => .ok (true, out'')

/-- Sample collaborators of the song-level functions: comparison of the
ASCII-lower-cased strings, identity conversion, and a directory table. -/
def sampleSongExt (files : List (String × List (List String)))
    (dirs : List (String × List String)) : SongExt where
  toExt := sampleExt files
  EqualsNoCase := fun a b => a.data.map Char.toLower == b.data.map Char.toLower
  ConvertString := fun s _ => some s
  GetDirListing := fun sPath addTo =>
    addTo ++ ((dirs.find? (fun d => d.1 == sPath)).map (·.2)).getD []
  HHMMSSToSeconds := fun s => (sampleStringToInt s : ℚ)

/-! ## Directive lines -/

/-- The payload of a directive line as the specification describes it: the
characters from index 2 up to the second-to-last character. -/
def payloadOf (sNoteRow : String) : String := ⟨(sNoteRow.data.drop 2).dropLast⟩

/-! ## The dialect, as the specification describes it -/

/-- The header tags that mark the newer dialect. -/
def kiuTags : List String := ["BPM2", "BPM3", "BUNKI", "BUNKI2", "STARTTIME2", "STARTTIME3"]

/-- Some record of the header is named by one of the tags of the newer dialect. -/
def hasKIUTag (G : SongExt) (values : List (List String)) : Bool :=
  values.any (fun v => decide (G.MakeUpper (param v 0) ∈ kiuTags))

/-- The note rows of a file: the lines of its `STEP` records, in order. -/
def noteRowsOf (G : SongExt) (values : List (List String)) : List String :=
  values.foldl (fun rows v =>
    if G.MakeUpper (param v 0) = "STEP" then G.split (G.TrimLeft (param v 1)) "\n" rows true
    else rows) []

/-- The scan of the note rows reaches the sentinel row and no line before it is
a directive `|T`, `|B`, `|D` or `|E`. -/
def reachesSentinelFirst (G : SongExt) (rows : List String) : Prop :=
  ∃ pre l post, rows = pre ++ l :: post ∧ G.StripCrnl l = SENTINEL
    ∧ ∀ q ∈ pre, G.StripCrnl q ≠ SENTINEL ∧ isDirective (G.StripCrnl q) = false

/-! ## Records of the header, as the specification names them -/

/-- The value that the last record named `name` gives: `g` applied to its
payload, and `d` when the header has no record of that name. -/
def lastValue (E : Ext) (name : String) (g : String → ℚ) (d : ℚ)
    (values : List (List String)) : ℚ :=
  values.foldl (fun acc v => if valueName E v = name then g (param v 1) else acc) d

/-- The records whose payload the per-chart pass reads only in the newer dialect. -/
def kiuPayloadTags : List String := ["BPM2", "BPM3", "BUNKI", "BUNKI2", "STARTTIME2"]

/-- The record is not one of those read only in the newer dialect. -/
def isCommonRecord (E : Ext) (v : List String) : Bool :=
  !decide (valueName E v ∈ kiuPayloadTags)

/-! ## The calls of `HandlePipeChars` made by the two passes -/

/-- The calls of `HandlePipeChars` made by the scan of the note rows in
`LoadGlobalData` (line 640): for each call the line, the beat and the tick count
passed, in the order of the calls. -/
def scanCalls (G : SongExt) : List String → ScanState → List (String × ℚ × Int)
  | [], _ => []
  | sRow :: rest, s =>
    (if G.StripCrnl sRow ≠ "" ∧ G.StripCrnl sRow ≠ SENTINEL
        ∧ isDirective (G.StripCrnl sRow) = true
      then [(G.StripCrnl sRow, s.fCurBeat, s.iTickCount)] else [])
    ++ (match scanStep G s sRow with
        | .ok (s', false) => scanCalls G rest s'
        | _ => [])

/-- The calls of `HandlePipeChars` made by the row loop of `LoadFromKSFFile`
(line 327): for each call the line, the beat and the tick count passed, in the
order of the calls. -/
def decodeCalls (E : Ext) (bKIUCompliant : Bool) (stepsType : StepsType) :
    List String → RowState → List (String × ℚ × Int)
  | [], _ => []
  | sRow :: rest, s =>
    (if E.StripCrnl sRow ≠ "" ∧ E.StripCrnl sRow ≠ SENTINEL
        ∧ BeginsWith (E.StripCrnl sRow) "|" = true ∧ bKIUCompliant = false
      then [(E.StripCrnl sRow, s.fCurBeat, s.iTickCount)] else [])
    ++ (match rowStep E bKIUCompliant stepsType s sRow with
        | .ok (s', false) => decodeCalls E bKIUCompliant stepsType rest s'
        | _ => [])

/-! ## The events of one column -/

/-- The column of an event. -/
def NoteEvent.track : NoteEvent → Nat
  | .tap track _ _ => track
  | .hold track _ _ _ => track

/-- The events of column `t` recorded in a grid, in the order of recording. -/
def eventsOf (t : Nat) (nd : NoteData) : List NoteEvent :=
  nd.events.filter (fun e => e.track == t)

/-- The number of characters erased at the start of a note row: 2 for the
half-double layout (line 345), 0 otherwise. -/
def layoutOffset (stepsType : StepsType) : Nat :=
  if stepsType = .StepsType_pump_halfdouble then 2 else 0

/-- The events that the body of the column loop (lines 357-404) records for
column `t`: none for the character `4`, otherwise the end of the open hold, if
there is one, and the note of the character at the current row. -/
def columnEvents (sRowString : String) (s : RowState) (t : Nat) : List NoteEvent :=
  if charAt sRowString t = '4' then []
  else
    (if s.holdStart t ≠ -1 then
      [if s.holdStart t = BeatToNoteRow s.prevBeat then
         NoteEvent.tap t (s.holdStart t) .TAP_ORIGINAL_TAP
       else
         NoteEvent.hold t (s.holdStart t) (BeatToNoteRow s.prevBeat) .TAP_ORIGINAL_HOLD_HEAD]
     else [])
    ++ [NoteEvent.tap t (BeatToNoteRow s.fCurBeat) (tapOfChar (charAt sRowString t))]

/-! ## The beat counter in single precision (lines 292-293, 406-407)

The variables `fCurBeat` and `prevBeat` are C++ `float`s, and so is the argument
of `BeatToNoteRow`. In this section a `float` is the rational that it denotes,
every arithmetic operation on `float`s is rounded to the nearest `float` (ties
to even), and the row loop is the one of the section above with these
roundings. A pipe line is handed to `HandlePipeChars` as above, with the
`float` beat; the statements on this loop are about note blocks without pipe
lines. -/

/-- The quotient `p / q` of two naturals rounded to the nearest natural, ties
to the even one. -/
def roundHalfEven (p q : Nat) : Nat :=
  if 2 * (p % q) < q then p / q
  else if q < 2 * (p % q) then p / q + 1
  else if (p / q) % 2 = 0 then p / q else p / q + 1

/-- The largest `a < 512` with `2 ^ a ≤ n`, found by bisection (`0` for `n = 0`). -/
def floorLog2 (n : Nat) : Nat :=
  let a := if 2 ^ 256 ≤ n then 256 else 0
  let a := if 2 ^ (a + 128) ≤ n then a + 128 else a
  let a := if 2 ^ (a + 64) ≤ n then a + 64 else a
  let a := if 2 ^ (a + 32) ≤ n then a + 32 else a
  let a := if 2 ^ (a + 16) ≤ n then a + 16 else a
  let a := if 2 ^ (a + 8) ≤ n then a + 8 else a
  let a := if 2 ^ (a + 4) ≤ n then a + 4 else a
  let a := if 2 ^ (a + 2) ≤ n then a + 2 else a
  if 2 ^ (a + 1) ≤ n then a + 1 else a

/-- The number of smallest positive `float`s in `1`: every `float` is a whole
multiple of `2 ^ (-149)`. -/
def float32Scale : Nat := 2 ^ 149

/-- The `float` nearest to the quotient `p / q` of two naturals (IEEE 754
binary32, rounding to nearest, ties to even), as a multiple of `2 ^ (-149)`.
With `y` the quotient in these units and `2 ^ a ≤ y < 2 ^ (a + 1)`, it is the
multiple of `2 ^ (a - 23)` nearest to `y`, and the whole number nearest to `y`
for `a ≤ 23` (the subnormal numbers and the smallest normal ones). The overflow
to an infinity (from `2 ^ 128` on) is not represented. -/
def roundFloat32Units (p q : Nat) : Nat :=
  let sh : Nat := floorLog2 (p * float32Scale / q) - 23
  roundHalfEven (p * float32Scale) (q * 2 ^ sh) * 2 ^ sh

/-- The conversion of a real number to `float`, the nearest one. -/
def roundFloat32 (x : ℚ) : ℚ :=
  mkRat (x.num.sign * (roundFloat32Units x.num.natAbs x.den : Int)) float32Scale

theorem foldl_invariant {σ α : Type} (P : σ → Prop) (f : σ → α → σ)
    (hf : ∀ s a, P s → P (f s a)) (l : List α) (s : σ) (hs : P s) : P (l.foldl f s) := by
  induction l generalizing s with
  | nil => exact hs
  | cons a l ih => exact ih (f s a) (hf s a hs)

theorem setMeterIfUnset_difficulty (out : Steps) (m : Int) :
    (setMeterIfUnset out m).m_Difficulty = out.m_Difficulty := by
  unfold setMeterIfUnset Steps.SetMeter
  split <;> rfl

theorem setMeterIfUnset_meter (out : Steps) (m : Int) :
    (setMeterIfUnset out m).m_iMeter = if out.m_iMeter = 0 then m else out.m_iMeter := by
  unfold setMeterIfUnset Steps.SetMeter Steps.GetMeter
  split <;> rfl

theorem classifyStepsType_meter (n : String) (b : Bool) (out : Steps) :
    (classifyStepsType n b out).m_iMeter = out.m_iMeter := by
  unfold classifyStepsType
  simp only []
  split_ifs <;> rfl

theorem classifyStepsType_difficulty (n : String) (b : Bool) (out : Steps) :
    (classifyStepsType n b out).m_Difficulty = out.m_Difficulty := by
  unfold classifyStepsType
  simp only []
  split_ifs <;> rfl

theorem classifyStepsType_type (n : String) (b : Bool) (out out' : Steps) :
    (classifyStepsType n b out).m_StepsType = (classifyStepsType n b out').m_StepsType := by
  unfold classifyStepsType
  simp only []
  split_ifs <;> rfl

theorem finishHold_numTracks (s : RowState) (t : Nat) :
    (finishHold s t).notedata.numTracks = s.notedata.numTracks := by
  unfold finishHold NoteData.SetTapNote NoteData.AddHoldNote
  split_ifs <;> rfl

theorem decodeColumn_numTracks (row : String) (s : RowState) (t : Nat) :
    (decodeColumn row s t).notedata.numTracks = s.notedata.numTracks := by
  unfold decodeColumn NoteData.SetTapNote NoteData.AddHoldNote
  simp only []
  split_ifs <;> rfl

theorem decodeNoteRow_numTracks (st : StepsType) (s : RowState) (row : String) :
    (decodeNoteRow st s row).notedata.numTracks = s.notedata.numTracks := by
  unfold decodeNoteRow
  simp only []
  refine foldl_invariant (fun x : RowState => x.notedata.numTracks = s.notedata.numTracks)
    _ ?_ _ _ ?_
  · intro x a hx
    show (decodeColumn _ x a).notedata.numTracks = _
    rw [decodeColumn_numTracks]; exact hx
  · beta_reduce
    split_ifs <;> rfl

theorem rowStep_numTracks (E : Ext) (b : Bool) (st : StepsType) (s s' : RowState)
    (row : String) (fl : Bool) (h : rowStep E b st s row = .ok (s', fl)) :
    s'.notedata.numTracks = s.notedata.numTracks := by
  unfold rowStep at h
  simp only [] at h
  split_ifs at h with h1 h2 h3 h4
  · cases h; rfl
  · cases h
    exact foldl_invariant (fun x : RowState => x.notedata.numTracks = s.notedata.numTracks)
      finishHold (fun x a hx => by
        show (finishHold x a).notedata.numTracks = _
        rw [finishHold_numTracks]; exact hx) _ _ rfl
  · cases h; rfl
  · split at h
    · cases h
    · cases h; rfl
  · cases h; exact decodeNoteRow_numTracks _ _ _

theorem decodeRows_numTracks (E : Ext) (b : Bool) (st : StepsType) (rows : List String)
    (s s' : RowState) (h : decodeRows E b st rows s = .ok s') :
    s'.notedata.numTracks = s.notedata.numTracks := by
  induction rows generalizing s with
  | nil => unfold decodeRows at h; cases h; rfl
  | cons r rest ih =>
    unfold decodeRows at h
    split at h
    · cases h
    · next s1 hr => cases h; exact rowStep_numTracks E b st s _ r true hr
    · next s1 hr => rw [ih s1 h]; exact rowStep_numTracks E b st s _ r false hr

/-- The metadata of the chart built by `buildSteps`. -/
theorem buildSteps_fields (E : Ext) (sPath : String) (h : KSFHeader) (o : Steps)
    (hb : buildSteps E sPath h = .ok o) :
    o.m_Difficulty
        = (classifyDifficulty (baseName E sPath) (h.out.SetDescription (baseName E sPath))).m_Difficulty
    ∧ o.m_iMeter
        = (classifyDifficulty (baseName E sPath) (h.out.SetDescription (baseName E sPath))).m_iMeter
    ∧ o.m_StepsType = (classifyStepsType (baseName E sPath) h.bDoublesChart h.out).m_StepsType
    ∧ numTracksOf o.m_StepsType = .ok o.m_NoteData.numTracks := by
  unfold buildSteps at hb
  simp only [] at hb
  split at hb
  · cases hb
  · next n hn =>
    split at hb
    · cases hb
    · next s hs =>
      cases hb
      have hnt := decodeRows_numTracks _ _ _ _ _ _ hs
      refine ⟨?_, ?_, ?_, ?_⟩
      · simp only [Steps.SetNoteData, baseName]
        rw [classifyStepsType_difficulty]
      · simp only [Steps.SetNoteData, baseName]
        rw [classifyStepsType_meter]
      · simp only [Steps.SetNoteData, baseName]
        exact classifyStepsType_type _ _ _ _
      · simp only [Steps.SetNoteData]
        rw [hn, hnt]
        rfl

/-! ## Difficulty and layout from the file name -/

theorem classifyDifficulty_table (n : String) (out : Steps) :
    classifyDifficulty n out =
      if matchesRule 0 n then setMeterIfUnset (out.SetDifficulty .Difficulty_Edit) 25
      else if matchesRule 1 n then setMeterIfUnset (out.SetDifficulty .Difficulty_Challenge) 20
      else if matchesRule 2 n then setMeterIfUnset (out.SetDifficulty .Difficulty_Hard) 14
      else if matchesRule 3 n then setMeterIfUnset (out.SetDifficulty .Difficulty_Medium) 8
      else if matchesRule 4 n then setMeterIfUnset (out.SetDifficulty .Difficulty_Easy) 4
      else if matchesRule 5 n then setMeterIfUnset (out.SetDifficulty .Difficulty_Beginner) 4
      else setMeterIfUnset (out.SetDifficulty .Difficulty_Hard) 10 := by
  simp only [classifyDifficulty, matchesRule, difficultyKeywords, List.getD_cons_zero,
    List.getD_cons_succ, List.any_cons, List.any_nil, Bool.or_false, Bool.or_assoc]

theorem classifyDifficulty_rule (n : String) (out : Steps) (k : Nat) (hk : k ≤ 6)
    (hm : k < 6 → matchesRule k n = true) (hearlier : ∀ j, j < k → matchesRule j n = false) :
    (classifyDifficulty n out).m_Difficulty = (tierOfRule k).1
    ∧ (classifyDifficulty n out).m_iMeter
        = if out.m_iMeter = 0 then (tierOfRule k).2 else out.m_iMeter := by
  have h0 := hearlier 0
  have h1 := hearlier 1
  have h2 := hearlier 2
  have h3 := hearlier 3
  have h4 := hearlier 4
  have h5 := hearlier 5
  rw [classifyDifficulty_table]
  interval_cases k
  · simp [hm, tierOfRule, difficultyTiers, setMeterIfUnset_difficulty, setMeterIfUnset_meter,
      Steps.SetDifficulty]
  · simp at hm h0
    simp [hm, h0, tierOfRule, difficultyTiers, setMeterIfUnset_difficulty,
      setMeterIfUnset_meter, Steps.SetDifficulty]
  · simp at hm h0 h1
    simp [hm, h0, h1, tierOfRule, difficultyTiers, setMeterIfUnset_difficulty,
      setMeterIfUnset_meter, Steps.SetDifficulty]
  · simp at hm h0 h1 h2
    simp [hm, h0, h1, h2, tierOfRule, difficultyTiers, setMeterIfUnset_difficulty,
      setMeterIfUnset_meter, Steps.SetDifficulty]
  · simp at hm h0 h1 h2 h3
    simp [hm, h0, h1, h2, h3, tierOfRule, difficultyTiers, setMeterIfUnset_difficulty,
      setMeterIfUnset_meter, Steps.SetDifficulty]
  · simp at hm h0 h1 h2 h3 h4
    simp [hm, h0, h1, h2, h3, h4, tierOfRule, difficultyTiers, setMeterIfUnset_difficulty,
      setMeterIfUnset_meter, Steps.SetDifficulty]
  · simp at h0 h1 h2 h3 h4 h5
    simp [h0, h1, h2, h3, h4, h5, tierOfRule, difficultyTiers, setMeterIfUnset_difficulty,
      setMeterIfUnset_meter, Steps.SetDifficulty]

/-- C6: difficulty classification of the lower-cased base name is first-match-wins
over the ordered rules of the code. For every chart built by the per-chart pass:
a name that contains a keyword of rule `k` (rule 0 `another`, rule 1
`wild`/`crazy+`/`hardcore`, rule 2 `crazy`/`nightmare`, rule 3
`hard`/`freestyle`/`double`, rule 4 `easy`/`normal`, rule 5 `beginner`/`practice`)
and no keyword of an earlier rule gets the tier of rule `k` (Edit, Challenge, Hard,
Medium, Easy, Beginner) and, when the meter is unset (zero), its default meter (25,
20, 14, 8, 4, 4); a name containing `another` gets Edit and meter 25 if unset,
whatever else it contains; the name `crazy` gets Hard and meter 14 if unset; and a
name containing keywords of two rules gets the tier of the earlier one. -/
theorem difficulty_first_match_wins (E : Ext) (sPath : String) (h : KSFHeader) (o : Steps)
    (hb : buildSteps E sPath h = .ok o) :
    (∀ k, k < 6 → matchesRule k (baseName E sPath) = true →
      (∀ j, j < k → matchesRule j (baseName E sPath) = false) →
      o.m_Difficulty = (tierOfRule k).1
      ∧ o.m_iMeter = if h.out.m_iMeter = 0 then (tierOfRule k).2 else h.out.m_iMeter)
    ∧ (find (baseName E sPath) "another" = true →
        o.m_Difficulty = .Difficulty_Edit
        ∧ o.m_iMeter = if h.out.m_iMeter = 0 then 25 else h.out.m_iMeter)
    ∧ (baseName E sPath = "crazy" →
        o.m_Difficulty = .Difficulty_Hard
        ∧ o.m_iMeter = if h.out.m_iMeter = 0 then 14 else h.out.m_iMeter)
    ∧ (∀ i j, i < j → j < 6 → matchesRule i (baseName E sPath) = true →
        matchesRule j (baseName E sPath) = true →
        (∀ k, k < i → matchesRule k (baseName E sPath) = false) →
        o.m_Difficulty = (tierOfRule i).1) := by
  obtain ⟨hd, hm, -, -⟩ := buildSteps_fields E sPath h o hb
  rw [hd, hm]
  have key := fun k hk hmk hearlier =>
    classifyDifficulty_rule (baseName E sPath) (h.out.SetDescription (baseName E sPath)) k hk
      hmk hearlier
  refine ⟨fun k hk hmk he => key k (Nat.le_of_lt hk) (fun _ => hmk) he, ?_, ?_, ?_⟩
  · intro ha
    have := key 0 (by omega) (fun _ => by
      simp [matchesRule, difficultyKeywords, ha]) (fun j hj => absurd hj (Nat.not_lt_zero j))
    simpa [tierOfRule, difficultyTiers, Steps.SetDescription] using this
  · intro hn
    have := key 2 (by omega) (fun _ => by rw [hn]; decide) (fun j hj => by
      rw [hn]; interval_cases j <;> decide)
    simpa [tierOfRule, difficultyTiers, Steps.SetDescription] using this
  · intro i j hij hj hmi _ he
    exact (key i (by omega) (fun _ => hmi) he).1

/-- The name `another_crazy` contains keywords of rule 0 and of rule 2 and is
classified by rule 0: Edit, meter 25. -/
theorem difficulty_first_match_wins_witness :
    ∃ o, buildSteps (sampleExt []) "another_crazy.ksf" (KSFHeader.init Steps.fresh false) = .ok o
      ∧ matchesRule 0 "another_crazy" = true ∧ matchesRule 2 "another_crazy" = true
      ∧ o.m_Difficulty = .Difficulty_Edit ∧ o.m_iMeter = 25 := by
  obtain ⟨o, hb⟩ : ∃ o, buildSteps (sampleExt []) "another_crazy.ksf"
      (KSFHeader.init Steps.fresh false) = .ok o := ⟨_, rfl⟩
  have h := (difficulty_first_match_wins _ _ _ o hb).2.1 (by decide)
  exact ⟨o, hb, by decide, by decide, h.1, h.2⟩

theorem findIn_eq_true_iff (s pat : List Char) : findIn s pat = true ↔ pat <:+: s := by
  induction s with
  | nil => simp [findIn, List.infix_nil, List.isEmpty_iff]
  | cons c cs ih =>
    simp only [findIn, Bool.or_eq_true, ih, List.infix_cons_iff, List.isPrefixOf_iff_prefix]

theorem find_of_find_append (s : String) (p q : List Char) (h : find s ⟨p ++ q⟩ = true) :
    find s ⟨p⟩ = true := by
  unfold find at *
  rw [findIn_eq_true_iff] at *
  exact List.IsInfix.trans (List.prefix_append p q).isInfix h

/-- C7: the code does not give the fallback to the name `ez`, which contains
none of the keywords listed by the specification: the per-chart pass classifies
it as Easy with default meter 4. -/
theorem fallback_not_for_abbreviation :
    listedKeywords.all (fun kw => !find "ez" kw) = true
    ∧ (LoadSteps (sampleExt [("ez.ksf", [["TICKCOUNT", "4"], ["STEP", "10000\n2222222222222\n"]])])
          "ez.ksf" Steps.fresh false).toOption.map (fun o => (o.m_Difficulty, o.m_iMeter))
        = some (.Difficulty_Easy, 4) := by
  decide

/-- C7, as amended: for every base name that contains none of the listed
keywords another, wild, crazy+, hardcore, crazy, nightmare, hard, freestyle,
double, easy, normal, beginner, practice and none of the abbreviations wd, cz,
nm, hd, fs, ez, pr that the code also tests, the per-chart pass assigns the
fallback: tier Hard, and meter 10 when the meter is unset (zero). -/
theorem fallback_without_keyword (E : Ext) (sPath : String) (h : KSFHeader) (o : Steps)
    (hb : buildSteps E sPath h = .ok o)
    (hnone : ∀ kw ∈ listedKeywords ++ ["wd", "cz", "nm", "hd", "fs", "ez", "pr"],
      find (baseName E sPath) kw = false) :
    o.m_Difficulty = .Difficulty_Hard
    ∧ o.m_iMeter = if h.out.m_iMeter = 0 then 10 else h.out.m_iMeter := by
  obtain ⟨hd, hm, -, -⟩ := buildSteps_fields E sPath h o hb
  rw [hd, hm]
  have hcz : find (baseName E sPath) "cz+" = false := by
    have := hnone "cz" (by decide)
    cases hc : find (baseName E sPath) "cz+"
    · rfl
    · rw [find_of_find_append (baseName E sPath) "cz".data "+".data hc] at this
      exact this
  have hcd : find (baseName E sPath) "crazydouble" = false := by
    have := hnone "crazy" (by decide)
    cases hc : find (baseName E sPath) "crazydouble"
    · rfl
    · rw [find_of_find_append (baseName E sPath) "crazy".data "double".data hc] at this
      exact this
  have key := classifyDifficulty_rule (baseName E sPath)
    (h.out.SetDescription (baseName E sPath)) 6 (le_refl 6) (fun hk => absurd hk (by decide))
    (fun j hj => by
      interval_cases j <;>
        simp [matchesRule, difficultyKeywords, hcz, hcd, hnone _ (by decide : "another" ∈ _),
          hnone "wild" (by decide), hnone "crazy+" (by decide), hnone "hardcore" (by decide),
          hnone "crazy" (by decide), hnone "nightmare" (by decide), hnone "hard" (by decide),
          hnone "freestyle" (by decide), hnone "double" (by decide), hnone "easy" (by decide),
          hnone "normal" (by decide), hnone "beginner" (by decide), hnone "practice" (by decide),
          hnone "wd" (by decide), hnone "cz" (by decide), hnone "nm" (by decide),
          hnone "hd" (by decide), hnone "fs" (by decide), hnone "ez" (by decide),
          hnone "pr" (by decide)])
  simpa [tierOfRule, difficultyTiers, Steps.SetDescription] using key

/-- The name `stage3` contains no keyword of the difficulty chain: Hard, meter 10. -/
theorem fallback_without_keyword_witness :
    ∃ o, buildSteps (sampleExt []) "stage3.ksf" (KSFHeader.init Steps.fresh false) = .ok o
      ∧ o.m_Difficulty = .Difficulty_Hard ∧ o.m_iMeter = 10 := by
  obtain ⟨o, hb⟩ : ∃ o, buildSteps (sampleExt []) "stage3.ksf"
      (KSFHeader.init Steps.fresh false) = .ok o := ⟨_, rfl⟩
  have h := fallback_without_keyword _ _ _ o hb (by decide)
  exact ⟨o, hb, h.1, h.2⟩

/-- C9: the layout chain tests the half-double keywords before `double`. For
every chart built by the per-chart pass: a base name containing `halfdouble`,
`half-double`, `h_double` or `hdb` gets the half-double layout and a note grid
of 6 columns; a name containing `double` and none of these gets the double
layout and 10 columns; the single layout has 5 columns, the couple layout 10;
and the number of columns is always 5, 6 or 10. -/
theorem layout_halfdouble_before_double (E : Ext) (sPath : String) (h : KSFHeader)
    (o : Steps) (hb : buildSteps E sPath h = .ok o) :
    ((find (baseName E sPath) "halfdouble" = true ∨ find (baseName E sPath) "half-double" = true
        ∨ find (baseName E sPath) "h_double" = true ∨ find (baseName E sPath) "hdb" = true) →
      o.m_StepsType = .StepsType_pump_halfdouble ∧ o.m_NoteData.numTracks = 6)
    ∧ (find (baseName E sPath) "double" = true →
        ¬ (find (baseName E sPath) "halfdouble" = true
          ∨ find (baseName E sPath) "half-double" = true
          ∨ find (baseName E sPath) "h_double" = true ∨ find (baseName E sPath) "hdb" = true) →
        o.m_StepsType = .StepsType_pump_double ∧ o.m_NoteData.numTracks = 10)
    ∧ (o.m_StepsType = .StepsType_pump_single → o.m_NoteData.numTracks = 5)
    ∧ (o.m_StepsType = .StepsType_pump_couple → o.m_NoteData.numTracks = 10)
    ∧ (o.m_NoteData.numTracks = 5 ∨ o.m_NoteData.numTracks = 6
        ∨ o.m_NoteData.numTracks = 10) := by
  obtain ⟨-, -, ht, hn⟩ := buildSteps_fields E sPath h o hb
  have count : ∀ st k, o.m_StepsType = st → numTracksOf st = .ok k →
      o.m_NoteData.numTracks = k := by
    intro st k hst hk
    rw [hst, hk] at hn
    cases hn
    rfl
  refine ⟨?_, ?_, ?_, ?_, ?_⟩
  · intro hkw
    have hst : o.m_StepsType = .StepsType_pump_halfdouble := by
      rw [ht]
      unfold classifyStepsType
      rcases hkw with hk | hk | hk | hk <;> simp [hk]
    exact ⟨hst, count _ 6 hst rfl⟩
  · intro hd hno
    have hst : o.m_StepsType = .StepsType_pump_double := by
      rw [ht]
      unfold classifyStepsType
      simp only [not_or, Bool.not_eq_true] at hno
      simp [hd, hno.1, hno.2.1, hno.2.2.1, hno.2.2.2]
    exact ⟨hst, count _ 10 hst rfl⟩
  · intro hst
    exact count _ 5 hst rfl
  · intro hst
    exact count _ 10 hst rfl
  · cases hst : o.m_StepsType
    · exact Or.inl (count _ 5 hst rfl)
    · exact Or.inr (Or.inl (count _ 6 hst rfl))
    · exact Or.inr (Or.inr (count _ 10 hst rfl))
    · exact Or.inr (Or.inr (count _ 10 hst rfl))
    · exact Or.inr (Or.inr (count _ 10 hst rfl))
    · rw [hst] at hn; cases hn

/-- The name `crazy_halfdouble` contains `double` and gets the half-double layout
with 6 columns. -/
theorem layout_halfdouble_before_double_witness :
    ∃ o, buildSteps (sampleExt []) "crazy_halfdouble.ksf" (KSFHeader.init Steps.fresh false)
        = .ok o
      ∧ find "crazy_halfdouble" "double" = true
      ∧ o.m_StepsType = .StepsType_pump_halfdouble ∧ o.m_NoteData.numTracks = 6 := by
  obtain ⟨o, hb⟩ : ∃ o, buildSteps (sampleExt []) "crazy_halfdouble.ksf"
      (KSFHeader.init Steps.fresh false) = .ok o := ⟨_, rfl⟩
  have h := (layout_halfdouble_before_double _ _ _ o hb).1 (Or.inl (by decide))
  exact ⟨o, hb, by decide, h.1, h.2⟩

/-! ## The record loop -/

theorem readValue_TICKCOUNT (E : Ext) (h : KSFHeader) (v : List String)
    (hname : E.MakeUpper (param v 0) = "TICKCOUNT") :
    readValue E h v =
      if E.StringToInt (param v 1) ≤ 0 then .error .returnedFalse
      else .ok { h with iTickCount := E.StringToInt (param v 1),
                        out := { h.out with m_Timing :=
                          h.out.m_Timing.AddTickcountSegment ⟨0, E.StringToInt (param v 1)⟩ } } := by
  unfold readValue
  simp only []
  rw [hname]
  rfl

theorem readValue_DIFFICULTY (E : Ext) (h : KSFHeader) (v : List String)
    (hname : E.MakeUpper (param v 0) = "DIFFICULTY") :
    readValue E h v = .ok { h with out := h.out.SetMeter (max (E.StringToInt (param v 1)) 0) } := by
  unfold readValue
  simp only []
  rw [hname]
  rfl

theorem readValue_PLAYER (E : Ext) (h : KSFHeader) (v : List String)
    (hname : E.MakeUpper (param v 0) = "PLAYER") :
    readValue E h v =
      if find (E.MakeLower (param v 1)) "double" then .ok { h with bDoublesChart := true }
      else .ok h := by
  unfold readValue
  simp only []
  rw [hname]
  rfl

theorem readValue_other (E : Ext) (h : KSFHeader) (v : List String)
    (hT : E.MakeUpper (param v 0) ≠ "TICKCOUNT") (hD : E.MakeUpper (param v 0) ≠ "DIFFICULTY")
    (hP : E.MakeUpper (param v 0) ≠ "PLAYER") :
    ∃ h', readValue E h v = .ok h' ∧ h'.iTickCount = h.iTickCount ∧ h'.out = h.out
      ∧ h'.bDoublesChart = h.bDoublesChart := by
  unfold readValue
  dsimp only
  by_cases c0 : (decide (E.MakeUpper (param v 0) = "TITLE")
      || EndsWith (E.MakeUpper (param v 0)) "INTRO"
      || EndsWith (E.MakeUpper (param v 0)) "FILE") = true
  · rw [if_pos c0]; exact ⟨_, rfl, rfl, rfl, rfl⟩
  rw [if_neg c0]
  by_cases c : E.MakeUpper (param v 0) = "BPM"
  · rw [if_pos c]
    exact ⟨_, rfl, rfl, rfl, rfl⟩
  rw [if_neg c]
  clear c
  by_cases c : E.MakeUpper (param v 0) = "BPM2"
  · rw [if_pos c]
    split <;> exact ⟨_, rfl, rfl, rfl, rfl⟩
  rw [if_neg c]
  clear c
  by_cases c : E.MakeUpper (param v 0) = "BPM3"
  · rw [if_pos c]
    split <;> exact ⟨_, rfl, rfl, rfl, rfl⟩
  rw [if_neg c]
  clear c
  by_cases c : E.MakeUpper (param v 0) = "BUNKI"
  · rw [if_pos c]
    split <;> exact ⟨_, rfl, rfl, rfl, rfl⟩
  rw [if_neg c]
  clear c
  by_cases c : E.MakeUpper (param v 0) = "BUNKI2"
  · rw [if_pos c]
    split <;> exact ⟨_, rfl, rfl, rfl, rfl⟩
  rw [if_neg c]
  clear c
  by_cases c : E.MakeUpper (param v 0) = "STARTTIME"
  · rw [if_pos c]
    exact ⟨_, rfl, rfl, rfl, rfl⟩
  rw [if_neg c]
  clear c
  by_cases c : E.MakeUpper (param v 0) = "STARTTIME2"
  · rw [if_pos c]
    split <;> exact ⟨_, rfl, rfl, rfl, rfl⟩
  rw [if_neg c]
  clear c
  by_cases c : E.MakeUpper (param v 0) = "STARTTIME3"
  · rw [if_pos c]
    exact ⟨_, rfl, rfl, rfl, rfl⟩
  rw [if_neg c]
  clear c
  rw [if_neg hT]
  rw [if_neg hD]
  rw [if_neg hP]
  by_cases c : E.MakeUpper (param v 0) = "STEP"
  · rw [if_pos c]
    exact ⟨_, rfl, rfl, rfl, rfl⟩
  rw [if_neg c]
  clear c
  exact ⟨_, rfl, rfl, rfl, rfl⟩

/-- The value of a record when its name is `name`. -/
theorem readValue_step (E : Ext) (h : KSFHeader) (v : List String) :
    (∀ e, readValue E h v = .error e ↔
        (e = .returnedFalse ∧ E.MakeUpper (param v 0) = "TICKCOUNT"
          ∧ E.StringToInt (param v 1) ≤ 0))
    ∧ (∀ h', readValue E h v = .ok h' →
        h'.iTickCount
            = (if E.MakeUpper (param v 0) = "TICKCOUNT" then E.StringToInt (param v 1)
               else h.iTickCount)
        ∧ h'.out.m_iMeter
            = (if E.MakeUpper (param v 0) = "DIFFICULTY" then max (E.StringToInt (param v 1)) 0
               else h.out.m_iMeter)
        ∧ h'.bDoublesChart
            = (h.bDoublesChart || (decide (E.MakeUpper (param v 0) = "PLAYER")
                && find (E.MakeLower (param v 1)) "double"))) := by
  by_cases hT : E.MakeUpper (param v 0) = "TICKCOUNT"
  · have hD : E.MakeUpper (param v 0) ≠ "DIFFICULTY" := by rw [hT]; decide
    have hP : E.MakeUpper (param v 0) ≠ "PLAYER" := by rw [hT]; decide
    rw [readValue_TICKCOUNT E h v hT]
    by_cases hv : E.StringToInt (param v 1) ≤ 0
    · rw [if_pos hv]
      refine ⟨fun e => ⟨fun he => ?_, fun he => ?_⟩, fun h' hh => ?_⟩
      · cases he; exact ⟨rfl, hT, hv⟩
      · rw [he.1]
      · cases hh
    · rw [if_neg hv]
      refine ⟨fun e => ⟨fun he => ?_, fun he => ?_⟩, fun h' hh => ?_⟩
      · cases he
      · exact absurd he.2.2 hv
      · cases hh
        simp [hT, hD, hP]
  · by_cases hD : E.MakeUpper (param v 0) = "DIFFICULTY"
    · have hP : E.MakeUpper (param v 0) ≠ "PLAYER" := by rw [hD]; decide
      rw [readValue_DIFFICULTY E h v hD]
      refine ⟨fun e => ⟨fun he => ?_, fun he => ?_⟩, fun h' hh => ?_⟩
      · cases he
      · exact absurd he.2.1 hT
      · cases hh
        simp [hT, hD, hP, Steps.SetMeter]
    · by_cases hP : E.MakeUpper (param v 0) = "PLAYER"
      · rw [readValue_PLAYER E h v hP]
        refine ⟨fun e => ⟨fun he => ?_, fun he => ?_⟩, fun h' hh => ?_⟩
        · split at he <;> cases he
        · exact absurd he.2.1 hT
        · split at hh <;> cases hh <;> simp_all
      · obtain ⟨h1, hr, h1t, h1o, h1p⟩ := readValue_other E h v hT hD hP
        rw [hr]
        refine ⟨fun e => ⟨fun he => ?_, fun he => ?_⟩, fun h' hh => ?_⟩
        · cases he
        · exact absurd he.2.1 hT
        · cases hh
          simp [hT, hD, hP, h1t, h1o, h1p]

theorem readValues_cons (E : Ext) (v : List String) (rest : List (List String))
    (h : KSFHeader) :
    readValues E (v :: rest) h =
      match readValue E h v with
      | .ok h' => readValues E rest h'
      | .error e => .error e := rfl

theorem readValues_append (E : Ext) (a b : List (List String)) (h h' : KSFHeader)
    (hr : readValues E (a ++ b) h = .ok h') :
    ∃ hm, readValues E a h = .ok hm ∧ readValues E b hm = .ok h' := by
  induction a generalizing h with
  | nil => exact ⟨h, rfl, hr⟩
  | cons v a ih =>
    rw [List.cons_append, readValues_cons] at hr
    rw [readValues_cons]
    cases hv : readValue E h v with
    | error e => rw [hv] at hr; cases hr
    | ok h1 =>
      rw [hv] at hr
      exact ih h1 hr

theorem readValues_error_iff (E : Ext) (values : List (List String)) (h : KSFHeader)
    (e : LoadError) :
    readValues E values h = .error e ↔
      (e = .returnedFalse ∧ ∃ v ∈ values, valueName E v = "TICKCOUNT"
        ∧ E.StringToInt (param v 1) ≤ 0) := by
  induction values generalizing h with
  | nil => simp [readValues]
  | cons v rest ih =>
    unfold readValues
    cases hv : readValue E h v with
    | error e' =>
      have h1 := ((readValue_step E h v).1 e').1 hv
      constructor
      · intro he
        cases he
        exact ⟨h1.1, v, List.mem_cons_self _ _, h1.2.1, h1.2.2⟩
      · intro he
        rw [he.1, h1.1]
    | ok h1 =>
      have hno : ¬ (valueName E v = "TICKCOUNT" ∧ E.StringToInt (param v 1) ≤ 0) := by
        intro hc
        have := ((readValue_step E h v).1 .returnedFalse).2 ⟨rfl, hc.1, hc.2⟩
        rw [hv] at this
        cases this
      simp only [ih h1, List.mem_cons, exists_eq_or_imp]
      constructor
      · rintro ⟨he, hex⟩
        exact ⟨he, Or.inr hex⟩
      · rintro ⟨he, hex | hex⟩
        · exact absurd hex hno
        · exact ⟨he, hex⟩

theorem readValues_bDoublesChart (E : Ext) (values : List (List String)) (h h' : KSFHeader)
    (hr : readValues E values h = .ok h') :
    h'.bDoublesChart = (h.bDoublesChart || hasPlayerDouble E values) := by
  induction values generalizing h with
  | nil => unfold readValues at hr; cases hr; simp [hasPlayerDouble]
  | cons v rest ih =>
    unfold readValues at hr
    cases hv : readValue E h v with
    | error e => rw [hv] at hr; cases hr
    | ok h1 =>
      rw [hv] at hr
      rw [ih h1 hr, ((readValue_step E h v).2 h1 hv).2.2]
      simp [hasPlayerDouble, valueName, Bool.or_assoc]

theorem readValues_meter_of_no_DIFFICULTY (E : Ext) (values : List (List String))
    (h h' : KSFHeader) (hr : readValues E values h = .ok h')
    (hno : ∀ q ∈ values, valueName E q ≠ "DIFFICULTY") : h'.out.m_iMeter = h.out.m_iMeter := by
  induction values generalizing h with
  | nil => unfold readValues at hr; cases hr; rfl
  | cons v rest ih =>
    unfold readValues at hr
    cases hv : readValue E h v with
    | error e => rw [hv] at hr; cases hr
    | ok h1 =>
      rw [hv] at hr
      rw [ih h1 hr (fun q hq => hno q (List.mem_cons_of_mem _ hq)),
        ((readValue_step E h v).2 h1 hv).2.1]
      have := hno v (List.mem_cons_self _ _)
      unfold valueName at this
      rw [if_neg this]

theorem readValues_meter_of_last_DIFFICULTY (E : Ext) (pre post : List (List String))
    (r : List String) (h h' : KSFHeader) (hr : readValues E (pre ++ r :: post) h = .ok h')
    (hname : valueName E r = "DIFFICULTY")
    (hno : ∀ q ∈ post, valueName E q ≠ "DIFFICULTY") :
    h'.out.m_iMeter = max (E.StringToInt (param r 1)) 0 := by
  obtain ⟨hm, -, h2⟩ := readValues_append E pre (r :: post) h h' hr
  unfold readValues at h2
  cases hv : readValue E hm r with
  | error e => rw [hv] at h2; cases h2
  | ok h1 =>
    rw [hv] at h2
    rw [readValues_meter_of_no_DIFFICULTY E post h1 h' h2 hno,
      ((readValue_step E hm r).2 h1 hv).2.1]
    unfold valueName at hname
    rw [if_pos hname]

theorem readValues_tick_of_no_TICKCOUNT (E : Ext) (values : List (List String))
    (h h' : KSFHeader) (hr : readValues E values h = .ok h')
    (hno : ∀ q ∈ values, valueName E q ≠ "TICKCOUNT") : h'.iTickCount = h.iTickCount := by
  induction values generalizing h with
  | nil => unfold readValues at hr; cases hr; rfl
  | cons v rest ih =>
    unfold readValues at hr
    cases hv : readValue E h v with
    | error e => rw [hv] at hr; cases hr
    | ok h1 =>
      rw [hv] at hr
      rw [ih h1 hr (fun q hq => hno q (List.mem_cons_of_mem _ hq)),
        ((readValue_step E h v).2 h1 hv).1]
      have := hno v (List.mem_cons_self _ _)
      unfold valueName at this
      rw [if_neg this]

theorem readValues_tick_of_last_TICKCOUNT (E : Ext) (pre post : List (List String))
    (r : List String) (h h' : KSFHeader) (hr : readValues E (pre ++ r :: post) h = .ok h')
    (hname : valueName E r = "TICKCOUNT")
    (hno : ∀ q ∈ post, valueName E q ≠ "TICKCOUNT") :
    h'.iTickCount = E.StringToInt (param r 1) := by
  obtain ⟨hm, -, h2⟩ := readValues_append E pre (r :: post) h h' hr
  unfold readValues at h2
  cases hv : readValue E hm r with
  | error e => rw [hv] at h2; cases h2
  | ok h1 =>
    rw [hv] at h2
    rw [readValues_tick_of_no_TICKCOUNT E post h1 h' h2 hno,
      ((readValue_step E hm r).2 h1 hv).1]
    unfold valueName at hname
    rw [if_pos hname]

theorem LoadSteps_ok (E : Ext) (sPath : String) (out : Steps) (bKIU : Bool)
    (values : List (List String)) (o : Steps) (hread : E.ReadFile sPath = some values)
    (hload : LoadSteps E sPath out bKIU = .ok o) :
    ∃ h, readValues E values (KSFHeader.init out bKIU) = .ok h ∧ buildSteps E sPath h = .ok o := by
  unfold LoadSteps at hload
  rw [hread] at hload
  dsimp only at hload
  cases hv : readValues E values (KSFHeader.init out bKIU) with
  | error e => rw [hv] at hload; cases hload
  | ok h => rw [hv] at hload; exact ⟨h, rfl, hload⟩

theorem defaultMeter_pos (n : String) : 0 < defaultMeter n := by
  unfold defaultMeter
  rw [classifyDifficulty_table]
  split_ifs <;> decide

theorem classifyDifficulty_meter (n : String) (out : Steps) :
    (classifyDifficulty n out).m_iMeter
      = if out.m_iMeter = 0 then defaultMeter n else out.m_iMeter := by
  unfold defaultMeter
  rw [classifyDifficulty_table, classifyDifficulty_table]
  split_ifs <;> simp_all [setMeterIfUnset_meter, Steps.SetDifficulty, Steps.fresh]

/-! ## Outcome of the per-chart pass -/

theorem decodeRows_nil (E : Ext) (b : Bool) (st : StepsType) (s : RowState) :
    decodeRows E b st [] s = .ok s := rfl

theorem decodeRows_cons (E : Ext) (b : Bool) (st : StepsType) (r : String)
    (rest : List String) (s : RowState) :
    decodeRows E b st (r :: rest) s =
      match rowStep E b st s r with
      | .error e => .error e
      | .ok (s', true) => .ok s'
      | .ok (s', false) => decodeRows E b st rest s' := rfl

theorem HandlePipeChars_error (E : Ext) (timing : TimingData) (row : String) (beat : ℚ)
    (tick : Int) (e : LoadError) (h : HandlePipeChars E timing row beat tick = .error e) :
    e = .outOfRange ∧ row.length < 2 := by
  unfold HandlePipeChars at h
  split at h
  · next e' he =>
    cases h
    unfold substr at he
    split at he
    · cases he; exact ⟨rfl, by omega⟩
    · cases he
  · dsimp only at h
    split_ifs at h

theorem rowStep_error (E : Ext) (b : Bool) (st : StepsType) (s : RowState) (r : String)
    (e : LoadError) (h : rowStep E b st s r = .error e) :
    e = .outOfRange ∧ b = false ∧ BeginsWith (E.StripCrnl r) "|" = true
      ∧ (E.StripCrnl r).length < 2 := by
  unfold rowStep at h
  dsimp only at h
  split_ifs at h with h1 h2 h3 h4
  split at h
  · next e' he =>
    cases h
    have := HandlePipeChars_error _ _ _ _ _ _ he
    exact ⟨this.1, by simpa using h4, h3, this.2⟩
  · cases h

theorem decodeRows_error (E : Ext) (b : Bool) (st : StepsType) (rows : List String)
    (s : RowState) (e : LoadError) (h : decodeRows E b st rows s = .error e) :
    e = .outOfRange ∧ b = false := by
  induction rows generalizing s with
  | nil => cases h
  | cons r rest ih =>
    rw [decodeRows_cons] at h
    split at h
    · next e' he => cases h; exact ⟨(rowStep_error _ _ _ _ _ _ he).1, (rowStep_error _ _ _ _ _ _ he).2.1⟩
    · cases h
    · exact ih _ h

theorem classifyStepsType_numTracks (n : String) (b : Bool) (out : Steps) :
    ∃ k, numTracksOf (classifyStepsType n b out).m_StepsType = .ok k := by
  unfold classifyStepsType
  dsimp only
  split_ifs <;> exact ⟨_, rfl⟩

theorem buildSteps_error (E : Ext) (sPath : String) (h : KSFHeader) (e : LoadError)
    (hb : buildSteps E sPath h = .error e) : e = .outOfRange ∧ h.bKIUCompliant = false := by
  unfold buildSteps at hb
  dsimp only at hb
  split at hb
  · next e' he =>
    obtain ⟨k, hk⟩ := classifyStepsType_numTracks (E.MakeLower (E.splitpath sPath).2.1)
      h.bDoublesChart (classifyDifficulty (E.MakeLower (E.splitpath sPath).2.1)
        (h.out.SetDescription (E.MakeLower (E.splitpath sPath).2.1)))
    rw [hk] at he
    cases he
  · split at hb
    · next e' he => cases hb; exact decodeRows_error _ _ _ _ _ _ he
    · cases hb

/-- The per-chart pass returns `false` exactly when the record stream cannot be
read or some `TICKCOUNT` record carries an integer value `≤ 0`. -/
theorem LoadFromKSFFile_returns_false_iff (E : Ext) (sPath : String) (out : Steps)
    (bKIU : Bool) :
    LoadFromKSFFile E sPath out bKIU = .error .returnedFalse ↔
      (E.ReadFile sPath = none
        ∨ ∃ values, E.ReadFile sPath = some values
            ∧ ∃ v ∈ values, valueName E v = "TICKCOUNT" ∧ E.StringToInt (param v 1) ≤ 0) := by
  unfold LoadFromKSFFile LoadSteps
  cases hread : E.ReadFile sPath with
  | none => simp
  | some values =>
    dsimp only
    cases hv : readValues E values (KSFHeader.init out bKIU) with
    | error e =>
      have h1 := (readValues_error_iff E values _ e).1 hv
      simp only [reduceCtorEq, false_or, Option.some.injEq, exists_eq_left']
      rw [h1.1]
      exact ⟨fun _ => h1.2, fun _ => rfl⟩
    | ok h =>
      have hno : ¬ ∃ v ∈ values, valueName E v = "TICKCOUNT" ∧ E.StringToInt (param v 1) ≤ 0 := by
        intro hc
        have := (readValues_error_iff E values (KSFHeader.init out bKIU) .returnedFalse).2
          ⟨rfl, hc⟩
        rw [hv] at this
        cases this
      simp only [reduceCtorEq, false_or, Option.some.injEq, exists_eq_left', hno, iff_false]
      cases hb : buildSteps E sPath h with
      | error e =>
        have := (buildSteps_error E sPath h e hb).1
        rw [this]
        simp
      | ok o => simp

theorem decodeRows_ok_of_no_lone_pipe (E : Ext) (b : Bool) (st : StepsType)
    (rows : List String) (s : RowState)
    (hrows : ∀ r ∈ rows, ¬ (BeginsWith (E.StripCrnl r) "|" = true ∧ (E.StripCrnl r).length < 2)) :
    ∃ s', decodeRows E b st rows s = .ok s' := by
  induction rows generalizing s with
  | nil => exact ⟨s, rfl⟩
  | cons r rest ih =>
    rw [decodeRows_cons]
    cases hr : rowStep E b st s r with
    | error e =>
      have := rowStep_error E b st s r e hr
      exact absurd ⟨this.2.2.1, this.2.2.2⟩ (hrows r (List.mem_cons_self _ _))
    | ok p =>
      obtain ⟨s1, fl⟩ := p
      cases fl
      · exact ih s1 (fun q hq => hrows q (List.mem_cons_of_mem _ hq))
      · exact ⟨s1, rfl⟩

/-- Apart from the one-character pipe line, the per-chart pass succeeds on every
file whose records are read without a `TICKCOUNT` of zero or less. -/
theorem LoadFromKSFFile_succeeds (E : Ext) (sPath : String) (out : Steps) (bKIU : Bool)
    (values : List (List String)) (h : KSFHeader) (hread : E.ReadFile sPath = some values)
    (hh : readValues E values (KSFHeader.init out bKIU) = .ok h)
    (hrows : ∀ r ∈ h.vNoteRows,
      ¬ (BeginsWith (E.StripCrnl r) "|" = true ∧ (E.StripCrnl r).length < 2)) :
    ∃ o, LoadFromKSFFile E sPath out bKIU = .ok o := by
  unfold LoadFromKSFFile LoadSteps
  rw [hread]
  dsimp only
  rw [hh]
  dsimp only
  unfold buildSteps
  dsimp only
  obtain ⟨k, hk⟩ := classifyStepsType_numTracks (E.MakeLower (E.splitpath sPath).2.1)
    h.bDoublesChart (classifyDifficulty (E.MakeLower (E.splitpath sPath).2.1)
      (h.out.SetDescription (E.MakeLower (E.splitpath sPath).2.1)))
  rw [hk]
  dsimp only
  obtain ⟨s', hs'⟩ := decodeRows_ok_of_no_lone_pipe E h.bKIUCompliant
    (classifyStepsType (E.MakeLower (E.splitpath sPath).2.1)
      h.bDoublesChart (classifyDifficulty (E.MakeLower (E.splitpath sPath).2.1)
        (h.out.SetDescription (E.MakeLower (E.splitpath sPath).2.1)))).m_StepsType h.vNoteRows
    (RowState.init (prepareBPM h) (NoteData.empty.SetNumTracks k)
      (defaultTickCount h.iTickCount)) hrows
  rw [hs']
  exact ⟨_, rfl⟩

/-- C1: a legacy-dialect chart whose `STEP` block contains the one-character
line `|` is neither loaded nor rejected: the header is valid (`TICKCOUNT` is 4),
yet `LoadFromKSFFile` ends in the exception `std::out_of_range`, raised by
`sNoteRow.substr(2, …)` in `HandlePipeChars`. -/
theorem lone_pipe_line_raises :
    LoadFromKSFFile
        (sampleExt [("easy_1.ksf", [["TICKCOUNT", "4"], ["STEP", "10000\n|\n2222222222222\n"]])])
        "easy_1.ksf" Steps.fresh false
      = .error .outOfRange := by
  rfl

/-! ## Meter and layout hints from the records -/

/-- C8: a `DIFFICULTY` record with value `0` does not leave the meter
`max(0, 0) = 0`: the file name `stage` matches no keyword, and the chart gets the
fallback meter 10 although the file specifies a meter. -/
theorem meter_zero_is_replaced :
    max (sampleStringToInt "0") 0 = 0
    ∧ (LoadSteps
          (sampleExt [("stage.ksf",
            [["TICKCOUNT", "4"], ["DIFFICULTY", "0"], ["STEP", "10000\n2222222222222\n"]])])
          "stage.ksf" Steps.fresh false).toOption.map (fun o => o.m_iMeter)
        = some 10 := by
  decide

/-- C8, as amended: if the last `DIFFICULTY` record of the file has the integer
value `v`, the meter of the chart built by the per-chart pass is `v` when
`v > 0`, and the filename-derived default meter (which is positive) when
`v ≤ 0`: the value is clamped to `0`, and the filename stage treats a meter of
`0` as unset. Without any `DIFFICULTY` record the filename-derived default is
assigned exactly when the meter of the chart is `0`. -/
theorem meter_from_DIFFICULTY_record (E : Ext) (sPath : String) (out : Steps) (bKIU : Bool)
    (values : List (List String)) (o : Steps) (hread : E.ReadFile sPath = some values)
    (hload : LoadSteps E sPath out bKIU = .ok o) :
    (∀ pre r post, values = pre ++ r :: post → valueName E r = "DIFFICULTY" →
      (∀ q ∈ post, valueName E q ≠ "DIFFICULTY") →
      o.m_iMeter = if 0 < E.StringToInt (param r 1) then E.StringToInt (param r 1)
                   else defaultMeter (baseName E sPath))
    ∧ ((∀ q ∈ values, valueName E q ≠ "DIFFICULTY") →
      o.m_iMeter = if out.m_iMeter = 0 then defaultMeter (baseName E sPath) else out.m_iMeter)
    ∧ 0 < defaultMeter (baseName E sPath) := by
  obtain ⟨h, hh, hb⟩ := LoadSteps_ok E sPath out bKIU values o hread hload
  obtain ⟨-, hm, -, -⟩ := buildSteps_fields E sPath h o hb
  rw [classifyDifficulty_meter] at hm
  have hm' : o.m_iMeter
      = if h.out.m_iMeter = 0 then defaultMeter (baseName E sPath) else h.out.m_iMeter := hm
  refine ⟨?_, ?_, defaultMeter_pos _⟩
  · intro pre r post hv hname hno
    rw [hv] at hh
    have := readValues_meter_of_last_DIFFICULTY E pre post r _ h hh hname hno
    rw [hm', this]
    by_cases hpos : 0 < E.StringToInt (param r 1)
    · rw [if_pos hpos, max_eq_left (le_of_lt hpos), if_neg (ne_of_gt hpos)]
    · rw [if_neg hpos, max_eq_right (not_lt.1 hpos), if_pos rfl]
  · intro hno
    have := readValues_meter_of_no_DIFFICULTY E values _ h hh hno
    rw [hm', this]
    rfl

/-- A chart named `stage` with the record `DIFFICULTY` of value `-3` gets the
fallback meter 10. -/
theorem meter_from_DIFFICULTY_record_witness :
    ∃ o, LoadSteps
        (sampleExt [("stage.ksf",
          [["TICKCOUNT", "4"], ["DIFFICULTY", "-3"], ["STEP", "10000\n2222222222222\n"]])])
        "stage.ksf" Steps.fresh false = .ok o
      ∧ o.m_iMeter = 10 := by
  obtain ⟨o, hl⟩ : ∃ o, LoadSteps
        (sampleExt [("stage.ksf",
          [["TICKCOUNT", "4"], ["DIFFICULTY", "-3"], ["STEP", "10000\n2222222222222\n"]])])
        "stage.ksf" Steps.fresh false = .ok o := ⟨_, rfl⟩
  have h := (meter_from_DIFFICULTY_record _ _ _ _ _ o rfl hl).1 [["TICKCOUNT", "4"]]
    ["DIFFICULTY", "-3"] [["STEP", "10000\n2222222222222\n"]] rfl (by decide) (by decide)
  exact ⟨o, hl, h⟩

/-- C10: the `PLAYER` hint is not only a fallback. The base name `song_2`
matches the filename test `_2` (couple) and no earlier filename test, yet with a
`PLAYER` record containing `double` the layout is double, not couple. -/
theorem player_hint_overrides_couple :
    (isHalfDoubleName "song_2" = false ∧ isDoubleName "song_2" = false
      ∧ find "song_2" "_1" = false ∧ find "song_2" "_2" = true)
    ∧ (LoadSteps
          (sampleExt [("song_2.ksf",
            [["TICKCOUNT", "4"], ["PLAYER", "Double"], ["STEP", "10000\n2222222222222\n"]])])
          "song_2.ksf" Steps.fresh false).toOption.map (fun o => o.m_StepsType)
        = some .StepsType_pump_double := by
  decide

/-- C10, as amended: the `PLAYER` hint is part of the double test, which comes
before the tests for `_1` and `_2`. When the base name contains a half-double
keyword the layout is half-double, and when it contains a keyword of the double
test (double, nightmare, freestyle, db, nm, fs) the layout is double, in both
cases regardless of the `PLAYER` records; otherwise, when a `PLAYER` record
contains `double` (ignoring case) the layout is double, also for a name
containing `_1` or `_2`; only when no `PLAYER` record contains `double` does a
name containing `_1` get single and, failing that, a name containing `_2` get
couple; the layout is single when nothing matches. -/
theorem layout_with_player_hint (E : Ext) (sPath : String) (out : Steps) (bKIU : Bool)
    (values : List (List String)) (o : Steps) (hread : E.ReadFile sPath = some values)
    (hload : LoadSteps E sPath out bKIU = .ok o) :
    (isHalfDoubleName (baseName E sPath) = true →
      o.m_StepsType = .StepsType_pump_halfdouble)
    ∧ (isHalfDoubleName (baseName E sPath) = false → isDoubleName (baseName E sPath) = true →
      o.m_StepsType = .StepsType_pump_double)
    ∧ (isHalfDoubleName (baseName E sPath) = false → isDoubleName (baseName E sPath) = false →
      (hasPlayerDouble E values = true → o.m_StepsType = .StepsType_pump_double)
      ∧ (hasPlayerDouble E values = false →
          (find (baseName E sPath) "_1" = true → o.m_StepsType = .StepsType_pump_single)
          ∧ (find (baseName E sPath) "_1" = false → find (baseName E sPath) "_2" = true →
              o.m_StepsType = .StepsType_pump_couple)
          ∧ (find (baseName E sPath) "_1" = false → find (baseName E sPath) "_2" = false →
              o.m_StepsType = .StepsType_pump_single))) := by
  obtain ⟨h, hh, hb⟩ := LoadSteps_ok E sPath out bKIU values o hread hload
  obtain ⟨-, -, ht, -⟩ := buildSteps_fields E sPath h o hb
  have hp := readValues_bDoublesChart E values _ h hh
  simp only [KSFHeader.init, Bool.false_or] at hp
  rw [ht, hp]
  unfold classifyStepsType isHalfDoubleName isDoubleName
  dsimp only
  refine ⟨fun h1 => ?_, fun h1 h2 => ?_, fun h1 h2 => ⟨fun h3 => ?_, fun h3 =>
    ⟨fun h4 => ?_, fun h4 h5 => ?_, fun h4 h5 => ?_⟩⟩⟩
  · rw [if_pos h1]
  · rw [if_neg (by simp [h1]), if_pos (by simp [h2])]
  · rw [if_neg (by simp [h1]), if_pos (by simp [h3])]
  · rw [if_neg (by simp [h1]), if_neg (by simp [h2, h3]), if_pos h4]
  · rw [if_neg (by simp [h1]), if_neg (by simp [h2, h3]), if_neg (by simp [h4]), if_pos h5]
  · rw [if_neg (by simp [h1]), if_neg (by simp [h2, h3]), if_neg (by simp [h4]),
      if_neg (by simp [h5])]

/-- The name `song_2` with a `PLAYER` record that does not contain `double` gets the
couple layout. -/
theorem layout_with_player_hint_witness :
    ∃ o, LoadSteps
        (sampleExt [("song_2.ksf",
          [["TICKCOUNT", "4"], ["PLAYER", "Single"], ["STEP", "10000\n2222222222222\n"]])])
        "song_2.ksf" Steps.fresh false = .ok o
      ∧ o.m_StepsType = .StepsType_pump_couple := by
  obtain ⟨o, hl⟩ : ∃ o, LoadSteps
        (sampleExt [("song_2.ksf",
          [["TICKCOUNT", "4"], ["PLAYER", "Single"], ["STEP", "10000\n2222222222222\n"]])])
        "song_2.ksf" Steps.fresh false = .ok o := ⟨_, rfl⟩
  have h := ((layout_with_player_hint _ _ _ _ _ o rfl hl).2.2 (by decide) (by decide)).2
    (by decide)
  exact ⟨o, hl, h.2.1 (by decide) (by decide)⟩

/-! ## The sentinel row -/

theorem rowStep_sentinel (E : Ext) (b : Bool) (st : StepsType) (s : RowState) (l : String)
    (hl : E.StripCrnl l = SENTINEL) :
    rowStep E b st s l = .ok ((List.range s.notedata.GetNumTracks).foldl finishHold s, true) := by
  unfold rowStep
  dsimp only
  rw [hl, if_neg (by decide), if_pos rfl]

theorem decodeRows_sentinel (E : Ext) (b : Bool) (st : StepsType) (pre post post' : List String)
    (l : String) (hl : E.StripCrnl l = SENTINEL) (s : RowState) :
    decodeRows E b st (pre ++ l :: post) s = decodeRows E b st (pre ++ l :: post') s := by
  induction pre generalizing s with
  | nil =>
    rw [List.nil_append, List.nil_append, decodeRows_cons, decodeRows_cons,
      rowStep_sentinel E b st s l hl]
  | cons r pre ih =>
    rw [List.cons_append, List.cons_append, decodeRows_cons, decodeRows_cons]
    split
    · rfl
    · rfl
    · exact ih _

/-- C5: the result of the per-chart pass depends only on the note lines up to
and including the first sentinel row. For every state left by the record loop
and every list of note lines containing a line `l` that reads `2222222222222`,
replacing the lines after `l` by any other lines leaves the outcome of the pass
unchanged: the same chart, with the same note grid and the same timing track. -/
theorem lines_after_sentinel_ignored (E : Ext) (sPath : String) (h : KSFHeader)
    (pre post post' : List String) (l : String) (hl : E.StripCrnl l = SENTINEL) :
    buildSteps E sPath { h with vNoteRows := pre ++ l :: post }
      = buildSteps E sPath { h with vNoteRows := pre ++ l :: post' } := by
  unfold buildSteps
  dsimp only
  have hp : ∀ rows, prepareBPM { h with vNoteRows := rows } = prepareBPM h := fun _ => rfl
  rw [hp, hp]
  simp only [decodeRows_sentinel E _ _ pre post post' l hl]
  rfl

/-- Two note blocks that differ only after a sentinel row give the same outcome. -/
theorem lines_after_sentinel_ignored_witness :
    buildSteps (sampleExt []) "easy_1.ksf"
        { KSFHeader.init Steps.fresh false with
          vNoteRows := ["10000", "2222222222222"] ++ "2222222222222" :: ["|", "11111"] }
      = buildSteps (sampleExt []) "easy_1.ksf"
        { KSFHeader.init Steps.fresh false with
          vNoteRows := ["10000", "2222222222222"] ++ "2222222222222" :: ["00400", "|T0|"] } :=
  lines_after_sentinel_ignored (sampleExt []) "easy_1.ksf" (KSFHeader.init Steps.fresh false)
    ["10000", "2222222222222"] ["|", "11111"] ["00400", "|T0|"] "2222222222222" (by decide)

/-! ## Holds -/

theorem finishHold_noZero (s : RowState) (t : Nat) (h : NoZeroLengthHold s.notedata) :
    NoZeroLengthHold (finishHold s t).notedata := by
  unfold finishHold
  split_ifs with h1 h2
  · intro t' a b hd hm
    simp only [NoteData.SetTapNote, List.mem_append, List.mem_singleton, reduceCtorEq,
      or_false] at hm
    exact h t' a b hd hm
  · intro t' a b hd hm
    simp only [NoteData.AddHoldNote, List.mem_append, List.mem_singleton,
      NoteEvent.hold.injEq] at hm
    rcases hm with hm | ⟨-, ha, hb, -⟩
    · exact h t' a b hd hm
    · rw [ha, hb]; exact h2
  · exact h

theorem decodeColumn_noZero (row : String) (s : RowState) (t : Nat)
    (h : NoZeroLengthHold s.notedata) : NoZeroLengthHold (decodeColumn row s t).notedata := by
  unfold decodeColumn
  dsimp only
  split_ifs with h1 h2 h3 h4
  · exact h
  · exact h
  · intro t' a b hd hm
    simp only [NoteData.SetTapNote, List.mem_append, List.mem_singleton, reduceCtorEq,
      or_false] at hm
    exact h t' a b hd hm
  · intro t' a b hd hm
    simp only [NoteData.SetTapNote, NoteData.AddHoldNote, List.mem_append, List.mem_singleton,
      reduceCtorEq, or_false, NoteEvent.hold.injEq] at hm
    rcases hm with hm | ⟨-, ha, hb, -⟩
    · exact h t' a b hd hm
    · rw [ha, hb]; exact h4
  · intro t' a b hd hm
    simp only [NoteData.SetTapNote, List.mem_append, List.mem_singleton, reduceCtorEq,
      or_false] at hm
    exact h t' a b hd hm

theorem rowStep_noZero (E : Ext) (b : Bool) (st : StepsType) (s s' : RowState) (r : String)
    (fl : Bool) (hr : rowStep E b st s r = .ok (s', fl)) (h : NoZeroLengthHold s.notedata) :
    NoZeroLengthHold s'.notedata := by
  unfold rowStep at hr
  dsimp only at hr
  split_ifs at hr with h1 h2 h3 h4
  · cases hr; exact h
  · cases hr
    exact foldl_invariant (fun x : RowState => NoZeroLengthHold x.notedata) finishHold
      (fun x a hx => finishHold_noZero x a hx) _ _ h
  · cases hr; exact h
  · split at hr
    · cases hr
    · cases hr; exact h
  · cases hr
    unfold decodeNoteRow
    dsimp only
    refine foldl_invariant (fun x : RowState => NoZeroLengthHold x.notedata) _
      (fun x a hx => decodeColumn_noZero _ x a hx) _ _ ?_
    beta_reduce
    split_ifs <;> exact h

theorem decodeRows_noZero (E : Ext) (b : Bool) (st : StepsType) (rows : List String)
    (s s' : RowState) (hr : decodeRows E b st rows s = .ok s')
    (h : NoZeroLengthHold s.notedata) : NoZeroLengthHold s'.notedata := by
  induction rows generalizing s with
  | nil => cases hr; exact h
  | cons r rest ih =>
    rw [decodeRows_cons] at hr
    split at hr
    · cases hr
    · next s1 hs => cases hr; exact rowStep_noZero E b st s _ r true hs h
    · next s1 hs => exact ih s1 hr (rowStep_noZero E b st s s1 r false hs h)

theorem buildSteps_noZero (E : Ext) (sPath : String) (h : KSFHeader) (o : Steps)
    (hb : buildSteps E sPath h = .ok o) : NoZeroLengthHold o.m_NoteData := by
  unfold buildSteps at hb
  dsimp only at hb
  split at hb
  · cases hb
  · split at hb
    · cases hb
    · next s hs =>
      cases hb
      refine decodeRows_noZero _ _ _ _ _ _ hs ?_
      intro t a b hd hm
      simp [RowState.init, NoteData.empty, NoteData.SetNumTracks] at hm

/-- C4: a hold that is closed on the row on which it started degrades to a tap.
When an open hold of column `t` is closed by a character other than `4`, or by
the sentinel row, and its start row equals `BeatToNoteRow(prevBeat)`, the
decoder records a single tap at that row and adds no hold (followed, for a
character, by the event of that character at the current row). Hence the note
grid of every chart built by the per-chart pass contains no hold event whose
head row equals its tail row. -/
theorem no_zero_length_hold (E : Ext) (sPath : String) (out : Steps) (bKIU : Bool) (o : Steps)
    (hload : LoadSteps E sPath out bKIU = .ok o)
    (s : RowState) (t : Nat) (sRowString : String)
    (hopen : s.holdStart t ≠ -1) (hsame : s.holdStart t = BeatToNoteRow s.prevBeat) :
    (charAt sRowString t ≠ '4' →
      (decodeColumn sRowString s t).notedata.events
        = s.notedata.events ++ [NoteEvent.tap t (s.holdStart t) .TAP_ORIGINAL_TAP,
            NoteEvent.tap t (BeatToNoteRow s.fCurBeat) (tapOfChar (charAt sRowString t))])
    ∧ (finishHold s t).notedata.events
        = s.notedata.events ++ [NoteEvent.tap t (s.holdStart t) .TAP_ORIGINAL_TAP]
    ∧ NoZeroLengthHold o.m_NoteData := by
  refine ⟨fun hc => ?_, ?_, ?_⟩
  · unfold decodeColumn
    dsimp only
    rw [if_neg hc, if_pos hopen, if_pos hsame]
    simp [NoteData.SetTapNote]
  · unfold finishHold
    rw [if_pos hopen, if_pos hsame]
    rfl
  · unfold LoadSteps at hload
    split at hload
    · cases hload
    · split at hload
      · cases hload
      · exact buildSteps_noZero E sPath _ o hload

/-- A hold opened on one line and closed on the next gives a tap; the grid of the
sample chart has no hold of length zero. -/
theorem no_zero_length_hold_witness :
    ∃ o, LoadSteps
        (sampleExt [("easy_1.ksf", [["TICKCOUNT", "4"], ["STEP", "40000\n00000\n44000\n"]])])
        "easy_1.ksf" Steps.fresh false = .ok o
      ∧ NoZeroLengthHold o.m_NoteData
      ∧ (finishHold { RowState.init TimingData.empty (NoteData.empty.SetNumTracks 5) 4 with
            iHoldStartRow := [0], fCurBeat := 1 / 4 } 0).notedata.events
          = [NoteEvent.tap 0 0 .TAP_ORIGINAL_TAP] := by
  obtain ⟨o, hl⟩ : ∃ o, LoadSteps
        (sampleExt [("easy_1.ksf", [["TICKCOUNT", "4"], ["STEP", "40000\n00000\n44000\n"]])])
        "easy_1.ksf" Steps.fresh false = .ok o := ⟨_, by with_unfolding_all rfl⟩
  have h := no_zero_length_hold _ _ _ _ o hl
    { RowState.init TimingData.empty (NoteData.empty.SetNumTracks 5) 4 with
      iHoldStartRow := [0], fCurBeat := 1 / 4 } 0 "00000"
    (by decide) (by with_unfolding_all decide)
  exact ⟨o, hl, h.2.2, h.2.1⟩

/-! ## Rounding to rows -/

theorem lrintf_bounds (x : ℚ) : (lrintf x : ℚ) ≤ x + 1 / 2 ∧ x - 1 / 2 ≤ (lrintf x : ℚ) := by
  have hdpos : (0 : ℤ) < (x.den : ℤ) := by exact_mod_cast x.den_pos
  have hd : (0 : ℚ) < (x.den : ℚ) := by exact_mod_cast x.den_pos
  have hx : x * (x.den : ℚ) = (x.num : ℚ) := Rat.mul_den_eq_num x
  have h1 : x.num / (x.den : ℤ) * (x.den : ℤ) ≤ x.num := Int.ediv_mul_le _ (ne_of_gt hdpos)
  have h2 : x.num < (x.num / (x.den : ℤ) + 1) * (x.den : ℤ) :=
    Int.lt_ediv_add_one_mul_self _ hdpos
  have h1q : ((x.num / (x.den : ℤ) : ℤ) : ℚ) * (x.den : ℚ) ≤ x * (x.den : ℚ) := by
    rw [hx]; exact_mod_cast h1
  have h2q : x * (x.den : ℚ) < (((x.num / (x.den : ℤ) : ℤ) : ℚ) + 1) * (x.den : ℚ) := by
    rw [hx]; exact_mod_cast h2
  have hf1 : ((x.num / (x.den : ℤ) : ℤ) : ℚ) ≤ x := le_of_mul_le_mul_right h1q hd
  have hf2 : x < ((x.num / (x.den : ℤ) : ℤ) : ℚ) + 1 := lt_of_mul_lt_mul_right h2q (le_of_lt hd)
  unfold lrintf
  dsimp only
  split_ifs with c1 c2 c3
  · have c1q : (2 * (x * (x.den : ℚ) - ((x.num / (x.den : ℤ) : ℤ) : ℚ) * (x.den : ℚ)))
        < 1 * (x.den : ℚ) := by
      rw [hx, one_mul]; exact_mod_cast c1
    have : 2 * (x - ((x.num / (x.den : ℤ) : ℤ) : ℚ)) < 1 := by
      refine lt_of_mul_lt_mul_right ?_ (le_of_lt hd)
      calc 2 * (x - ((x.num / (x.den : ℤ) : ℤ) : ℚ)) * (x.den : ℚ)
          = 2 * (x * (x.den : ℚ) - ((x.num / (x.den : ℤ) : ℤ) : ℚ) * (x.den : ℚ)) := by ring
        _ < 1 * (x.den : ℚ) := c1q
    constructor <;> linarith
  · have c2q : 1 * (x.den : ℚ)
        < (2 * (x * (x.den : ℚ) - ((x.num / (x.den : ℤ) : ℤ) : ℚ) * (x.den : ℚ))) := by
      rw [hx, one_mul]; exact_mod_cast c2
    have : 1 < 2 * (x - ((x.num / (x.den : ℤ) : ℤ) : ℚ)) := by
      refine lt_of_mul_lt_mul_right ?_ (le_of_lt hd)
      calc 1 * (x.den : ℚ)
          < 2 * (x * (x.den : ℚ) - ((x.num / (x.den : ℤ) : ℤ) : ℚ) * (x.den : ℚ)) := c2q
        _ = 2 * (x - ((x.num / (x.den : ℤ) : ℤ) : ℚ)) * (x.den : ℚ) := by ring
    push_cast
    constructor <;> linarith
  · have ceq : (2 * (x * (x.den : ℚ) - ((x.num / (x.den : ℤ) : ℤ) : ℚ) * (x.den : ℚ)))
        = 1 * (x.den : ℚ) := by
      rw [hx, one_mul]
      have : 2 * (x.num - x.num / (x.den : ℤ) * (x.den : ℤ)) = (x.den : ℤ) := by omega
      exact_mod_cast this
    have : 2 * (x - ((x.num / (x.den : ℤ) : ℤ) : ℚ)) = 1 := by
      refine mul_right_cancel₀ (ne_of_gt hd) ?_
      rw [← ceq]; ring
    constructor <;> linarith
  · have ceq : (2 * (x * (x.den : ℚ) - ((x.num / (x.den : ℤ) : ℤ) : ℚ) * (x.den : ℚ)))
        = 1 * (x.den : ℚ) := by
      rw [hx, one_mul]
      have : 2 * (x.num - x.num / (x.den : ℤ) * (x.den : ℤ)) = (x.den : ℤ) := by omega
      exact_mod_cast this
    have : 2 * (x - ((x.num / (x.den : ℤ) : ℤ) : ℚ)) = 1 := by
      refine mul_right_cancel₀ (ne_of_gt hd) ?_
      rw [← ceq]; ring
    push_cast
    constructor <;> linarith

theorem lrintf_intCast (k : ℤ) : lrintf (k : ℚ) = k := by
  unfold lrintf
  simp

theorem lrintf_lt_of_add_one_lt (x y : ℚ) (h : x + 1 < y) : lrintf x < lrintf y := by
  have hx := (lrintf_bounds x).1
  have hy := (lrintf_bounds y).2
  have : (lrintf x : ℚ) < (lrintf y : ℚ) := by linarith
  exact_mod_cast this

/-- Rows of beats that are multiples of `1/n` increase strictly when `1 ≤ n ≤ 48`. -/
theorem BeatToNoteRow_strictMono (n : ℤ) (h1 : 1 ≤ n) (h48 : n ≤ 48) (i j : ℕ) (hij : i < j) :
    BeatToNoteRow ((i : ℚ) / n) < BeatToNoteRow ((j : ℚ) / n) := by
  unfold BeatToNoteRow ROWS_PER_BEAT
  have hn : (0 : ℚ) < (n : ℚ) := by exact_mod_cast (by omega : (0 : ℤ) < n)
  rcases lt_or_eq_of_le h48 with hlt | heq
  · apply lrintf_lt_of_add_one_lt
    have hn47 : (n : ℚ) ≤ 47 := by exact_mod_cast (by omega : n ≤ 47)
    have hji : (i : ℚ) + 1 ≤ (j : ℚ) := by exact_mod_cast hij
    have e1 : (i : ℚ) / n * ((48 : ℤ) : ℚ) + 1 = (48 * (i : ℚ) + n) / n := by
      field_simp; ring
    have e2 : (j : ℚ) / n * ((48 : ℤ) : ℚ) = (48 * (j : ℚ)) / n := by
      field_simp; ring
    rw [e1, e2]
    apply div_lt_div_of_pos_right _ hn
    linarith
  · subst heq
    have e : ∀ k : ℕ, (k : ℚ) / ((48 : ℤ) : ℚ) * ((48 : ℤ) : ℚ) = ((k : ℤ) : ℚ) := by
      intro k; push_cast; field_simp
    rw [e i, e j, lrintf_intCast, lrintf_intCast]
    exact_mod_cast hij

/-! ## Beats of the decoded rows -/

theorem decodeColumn_frame (row : String) (s : RowState) (t : Nat) :
    (decodeColumn row s t).iTickCount = s.iTickCount
    ∧ (decodeColumn row s t).fCurBeat = s.fCurBeat
    ∧ (decodeColumn row s t).prevBeat = s.prevBeat
    ∧ (decodeColumn row s t).bTickChangeNeeded = s.bTickChangeNeeded
    ∧ (decodeColumn row s t).newTick = s.newTick
    ∧ (decodeColumn row s t).stepsTiming = s.stepsTiming := by
  unfold decodeColumn
  dsimp only
  split_ifs <;> exact ⟨rfl, rfl, rfl, rfl, rfl, rfl⟩

theorem foldl_decodeColumn_frame (row : String) (l : List Nat) (s : RowState) :
    (l.foldl (decodeColumn row) s).iTickCount = s.iTickCount
    ∧ (l.foldl (decodeColumn row) s).fCurBeat = s.fCurBeat
    ∧ (l.foldl (decodeColumn row) s).prevBeat = s.prevBeat
    ∧ (l.foldl (decodeColumn row) s).bTickChangeNeeded = s.bTickChangeNeeded
    ∧ (l.foldl (decodeColumn row) s).newTick = s.newTick
    ∧ (l.foldl (decodeColumn row) s).stepsTiming = s.stepsTiming := by
  induction l generalizing s with
  | nil => exact ⟨rfl, rfl, rfl, rfl, rfl, rfl⟩
  | cons t l ih =>
    rw [List.foldl_cons]
    obtain ⟨a1, a2, a3, a4, a5, a6⟩ := ih (decodeColumn row s t)
    obtain ⟨b1, b2, b3, b4, b5, b6⟩ := decodeColumn_frame row s t
    exact ⟨a1.trans b1, a2.trans b2, a3.trans b3, a4.trans b4, a5.trans b5, a6.trans b6⟩

theorem decodeNoteRow_beat (st : StepsType) (s : RowState) (row : String)
    (hs : s.bTickChangeNeeded = false) :
    (decodeNoteRow st s row).iTickCount = s.iTickCount
    ∧ (decodeNoteRow st s row).fCurBeat = s.fCurBeat + 1 / (s.iTickCount : ℚ)
    ∧ (decodeNoteRow st s row).prevBeat = s.fCurBeat
    ∧ (decodeNoteRow st s row).bTickChangeNeeded = false
    ∧ (decodeNoteRow st s row).stepsTiming = s.stepsTiming := by
  unfold decodeNoteRow
  dsimp only
  rw [hs]
  simp only [Bool.false_eq_true, if_false]
  obtain ⟨b1, b2, -, b4, -, b6⟩ := foldl_decodeColumn_frame
    (if st = StepsType.StepsType_pump_halfdouble then erase0 row 2 else row)
    (List.range s.notedata.GetNumTracks) s
  rw [b1, b2]
  exact ⟨rfl, rfl, rfl, b4.trans hs, b6⟩

theorem rowStep_blank (E : Ext) (b : Bool) (st : StepsType) (s : RowState) (r : String)
    (hr : E.StripCrnl r = "") : rowStep E b st s r = .ok (s, false) := by
  unfold rowStep
  dsimp only
  rw [if_pos hr]

theorem rowStep_note (E : Ext) (b : Bool) (st : StepsType) (s : RowState) (r : String)
    (h1 : E.StripCrnl r ≠ "") (h2 : E.StripCrnl r ≠ SENTINEL)
    (h3 : BeginsWith (E.StripCrnl r) "|" = false) :
    rowStep E b st s r = .ok (decodeNoteRow st s (E.StripCrnl r), false) := by
  unfold rowStep
  dsimp only
  rw [if_neg h1, if_neg h2, if_neg (by simp [h3])]

theorem decodeTrace_cons (E : Ext) (b : Bool) (st : StepsType) (r : String)
    (rest : List String) (s : RowState) :
    decodeTrace E b st (r :: rest) s =
      (r, s) :: (match rowStep E b st s r with
        | .ok (s', false) => decodeTrace E b st rest s'
        | _ => []) := rfl

theorem decodeTrace_beats (E : Ext) (b : Bool) (st : StepsType) (n : ℤ) (rows : List String)
    (s : RowState) (hs1 : s.iTickCount = n) (hs2 : s.bTickChangeNeeded = false)
    (hrows : ∀ r ∈ rows, E.StripCrnl r ≠ SENTINEL ∧ BeginsWith (E.StripCrnl r) "|" = false) :
    ((decodeTrace E b st rows s).filter (fun p => isNonBlank E p.1)).map Prod.fst
        = rows.filter (isNonBlank E)
    ∧ ((decodeTrace E b st rows s).filter (fun p => isNonBlank E p.1)).map
          (fun p => p.2.fCurBeat)
        = (List.range (rows.filter (isNonBlank E)).length).map
            (fun i : ℕ => s.fCurBeat + (i : ℚ) / n) := by
  induction rows generalizing s with
  | nil => exact ⟨rfl, rfl⟩
  | cons r rest ih =>
    have hrest : ∀ q ∈ rest, E.StripCrnl q ≠ SENTINEL ∧ BeginsWith (E.StripCrnl q) "|" = false :=
      fun q hq => hrows q (List.mem_cons_of_mem _ hq)
    obtain ⟨hr2, hr3⟩ := hrows r (List.mem_cons_self _ _)
    rw [decodeTrace_cons]
    by_cases hblank : E.StripCrnl r = ""
    · have hnb : isNonBlank E r = false := by simp [isNonBlank, hblank]
      rw [rowStep_blank E b st s r hblank]
      dsimp only
      rw [List.filter_cons_of_neg (by simp [hnb]), List.filter_cons_of_neg (by simp [hnb])]
      exact ih s hs1 hs2 hrest
    · have hnb : isNonBlank E r = true := by simp [isNonBlank, hblank]
      rw [rowStep_note E b st s r hblank hr2 hr3]
      dsimp only
      obtain ⟨d1, d2, -, d4, -⟩ := decodeNoteRow_beat st s (E.StripCrnl r) hs2
      obtain ⟨i1, i2⟩ := ih (decodeNoteRow st s (E.StripCrnl r)) (d1.trans hs1) d4 hrest
      rw [List.filter_cons_of_pos (by simp [hnb]), List.filter_cons_of_pos (by simp [hnb])]
      refine ⟨by rw [List.map_cons, i1], ?_⟩
      rw [List.map_cons, i2, List.length_cons, List.range_succ_eq_map, List.map_cons,
        List.map_map, d2, hs1]
      congr 1
      · simp
      · apply List.map_congr_left
        intro i _
        simp only [Function.comp, Nat.cast_succ]
        ring

/-- With the beats as exact rationals, as in the row loop `decodeRows`: for every
tick count `n` with `1 ≤ n ≤ 48` given by the last `TICKCOUNT` record (`n = 4`
when there is no such record) and every note block without a pipe line and
without a sentinel row, the row loop examines every line, the `i`-th non-blank
line (`i = 0 .. k-1`) is decoded at beat `i / n`, blank lines not advancing the
beat, and these `k` beats and the `k` note rows `BeatToNoteRow(i / n)` are
pairwise distinct. The `float` beat counter of lines 292-293 and 406-407 does
not have these properties: see the section on the beat counter in single
precision. -/
theorem exact_beats_evenly_spaced (E : Ext) (values : List (List String)) (out : Steps)
    (bKIU : Bool) (h : KSFHeader)
    (hread : readValues E values (KSFHeader.init out bKIU) = .ok h) (n : ℤ)
    (hn : (∃ pre r post, values = pre ++ r :: post ∧ valueName E r = "TICKCOUNT"
            ∧ E.StringToInt (param r 1) = n ∧ ∀ q ∈ post, valueName E q ≠ "TICKCOUNT")
          ∨ ((∀ q ∈ values, valueName E q ≠ "TICKCOUNT") ∧ n = 4))
    (h1 : 1 ≤ n) (h48 : n ≤ 48)
    (hrows : ∀ r ∈ h.vNoteRows,
      E.StripCrnl r ≠ SENTINEL ∧ BeginsWith (E.StripCrnl r) "|" = false)
    (st : StepsType) (timing : TimingData) (nd : NoteData) :
    ((decodeTrace E h.bKIUCompliant st h.vNoteRows
        (RowState.init timing nd (defaultTickCount h.iTickCount))).filter
          (fun p => isNonBlank E p.1)).map Prod.fst
      = h.vNoteRows.filter (isNonBlank E)
    ∧ ((decodeTrace E h.bKIUCompliant st h.vNoteRows
        (RowState.init timing nd (defaultTickCount h.iTickCount))).filter
          (fun p => isNonBlank E p.1)).map (fun p => p.2.fCurBeat)
      = (List.range (h.vNoteRows.filter (isNonBlank E)).length).map
          (fun i : ℕ => (i : ℚ) / n)
    ∧ (((decodeTrace E h.bKIUCompliant st h.vNoteRows
        (RowState.init timing nd (defaultTickCount h.iTickCount))).filter
          (fun p => isNonBlank E p.1)).map (fun p => p.2.fCurBeat)).Nodup
    ∧ (((decodeTrace E h.bKIUCompliant st h.vNoteRows
        (RowState.init timing nd (defaultTickCount h.iTickCount))).filter
          (fun p => isNonBlank E p.1)).map (fun p => BeatToNoteRow p.2.fCurBeat)).Nodup := by
  have htick : defaultTickCount h.iTickCount = n := by
    rcases hn with ⟨pre, r, post, hv, hname, hval, hno⟩ | ⟨hno, h4⟩
    · rw [hv] at hread
      rw [readValues_tick_of_last_TICKCOUNT E pre post r _ h hread hname hno, hval]
      unfold defaultTickCount
      rw [if_neg (by omega)]
    · rw [readValues_tick_of_no_TICKCOUNT E values _ h hread hno, h4]
      rfl
  rw [htick]
  obtain ⟨t1, t2⟩ := decodeTrace_beats E h.bKIUCompliant st n h.vNoteRows
    (RowState.init timing nd n) rfl rfl hrows
  have hn0 : (n : ℚ) ≠ 0 := by
    have : (0 : ℤ) < n := by omega
    exact_mod_cast (ne_of_gt this)
  have t2' : ((decodeTrace E h.bKIUCompliant st h.vNoteRows (RowState.init timing nd n)).filter
      (fun p => isNonBlank E p.1)).map (fun p => p.2.fCurBeat)
      = (List.range (h.vNoteRows.filter (isNonBlank E)).length).map
          (fun i : ℕ => (i : ℚ) / n) := by
    rw [t2]
    apply List.map_congr_left
    intro i _
    simp [RowState.init]
  refine ⟨t1, t2', ?_, ?_⟩
  · rw [t2']
    refine (List.nodup_range _).map ?_
    intro i j hij
    field_simp at hij
    exact hij
  · have : ((decodeTrace E h.bKIUCompliant st h.vNoteRows (RowState.init timing nd n)).filter
        (fun p => isNonBlank E p.1)).map (fun p => BeatToNoteRow p.2.fCurBeat)
        = (((decodeTrace E h.bKIUCompliant st h.vNoteRows (RowState.init timing nd n)).filter
          (fun p => isNonBlank E p.1)).map (fun p => p.2.fCurBeat)).map BeatToNoteRow := by
      rw [List.map_map]
      rfl
    rw [this, t2', List.map_map]
    refine (List.nodup_range _).map ?_
    have hmono : StrictMono (BeatToNoteRow ∘ fun i : ℕ => (i : ℚ) / n) :=
      fun i j hij => BeatToNoteRow_strictMono n h1 h48 i j hij
    exact hmono.injective

/-- Three note lines and one blank line with tick count 4 are decoded at the beats
`0`, `1/4` and `2/4`. -/
theorem exact_beats_evenly_spaced_example :
    ((decodeTrace (sampleExt []) false .StepsType_pump_single ["10000", "\r", "01000", "00100"]
        (RowState.init TimingData.empty (NoteData.empty.SetNumTracks 5) 4)).filter
          (fun p => isNonBlank (sampleExt []) p.1)).map (fun p => p.2.fCurBeat)
      = (List.range 3).map (fun i : ℕ => (i : ℚ) / (4 : ℤ)) :=
  (exact_beats_evenly_spaced (sampleExt [])
    [["TICKCOUNT", "4"], ["STEP", "10000\n\r\n01000\n00100\n"]] Steps.fresh false _ rfl 4
    (Or.inl ⟨[], ["TICKCOUNT", "4"], [["STEP", "10000\n\r\n01000\n00100\n"]], rfl, by decide,
      by decide, by decide⟩)
    (by decide) (by decide) (by decide) .StepsType_pump_single TimingData.empty
    (NoteData.empty.SetNumTracks 5)).2.1

/-! ## The beat counter in single precision -/

/-- The conversion to `float` on some values: `0`, `1/4` and `48` are `float`s,
`1/3` and `-1/3` are not, and between `2 ^ 24` and `2 ^ 25` the `float`s are the
even integers, a tie going to the multiple of 4. -/
theorem roundFloat32_values :
    roundFloat32 0 = 0 ∧ roundFloat32 (1 / 4) = 1 / 4 ∧ roundFloat32 48 = 48
    ∧ roundFloat32 (1 / 3) = 11184811 / 33554432
    ∧ roundFloat32 (-(1 / 3)) = -(11184811 / 33554432)
    ∧ roundFloat32 16777217 = 16777216 ∧ roundFloat32 16777219 = 16777220 := by
  decide!

/-- C3: a hold whose first row is note row `-1` loses its head. In a
legacy-dialect chart the inline directive `|T-48|` makes the tick count `-48`,
so that after the first note line the beats are `-1/48`, `-2/48`, …; column 0
has no open hold and carries `4` on three lines, decoded at the note rows `-1`,
`-2` and `-3`, and is then closed by a `0`. The start row `-1` of the first of
them is the value that marks "no open hold", so the hold is opened again on the
next line: the only hold event of column 0 has its head at row `-2`, not at the
row `-1` of the first line. -/
theorem hold_head_lost_at_marker_row :
    (decodeTrace
        (sampleExt [("easy_1.ksf",
          [["TICKCOUNT", "4"], ["STEP", "|T-48|\n00000\n40000\n40000\n40000\n00000\n"]])])
        false .StepsType_pump_single
        ["|T-48|", "00000", "40000", "40000", "40000", "00000"]
        (RowState.init TimingData.empty (NoteData.empty.SetNumTracks 5) 4)).map
          (fun p => (p.1, p.2.holdStart 0, BeatToNoteRow p.2.fCurBeat))
      = [("|T-48|", -1, 0), ("00000", -1, 0), ("40000", -1, -1), ("40000", -1, -2),
         ("40000", -2, -3), ("00000", -2, -4)]
    ∧ (LoadSteps
          (sampleExt [("easy_1.ksf",
            [["TICKCOUNT", "4"], ["STEP", "|T-48|\n00000\n40000\n40000\n40000\n00000\n"]])])
          "easy_1.ksf" Steps.fresh false).toOption.map
            (fun o => o.m_NoteData.events.filter (NoteEvent.isHoldOf 0))
        = some [NoteEvent.hold 0 (-2) (-3) .TAP_ORIGINAL_HOLD_HEAD] := by
  with_unfolding_all decide

/-! ## One hold in one column -/

theorem decodeColumn_other (row : String) (s : RowState) (t t' : Nat) (hne : t' ≠ t) :
    (decodeColumn row s t').holdStart t = s.holdStart t
    ∧ holdsOf t (decodeColumn row s t').notedata = holdsOf t s.notedata
    ∧ (decodeColumn row s t').iHoldStartRow.length = s.iHoldStartRow.length := by
  unfold decodeColumn
  dsimp only
  split_ifs <;>
    simp [RowState.holdStart, holdsOf, List.getD_eq_getElem?_getD, List.getElem?_set, hne,
      NoteData.SetTapNote, NoteData.AddHoldNote, List.filter_append, NoteEvent.isHoldOf]

theorem decodeColumn_self_hold (row : String) (s : RowState) (t : Nat)
    (hlen : t < s.iHoldStartRow.length) (hc : charAt row t = '4') :
    (decodeColumn row s t).holdStart t
        = (if s.holdStart t = -1 then BeatToNoteRow s.fCurBeat else s.holdStart t)
    ∧ holdsOf t (decodeColumn row s t).notedata = holdsOf t s.notedata
    ∧ (decodeColumn row s t).iHoldStartRow.length = s.iHoldStartRow.length := by
  unfold decodeColumn
  dsimp only
  rw [if_pos hc]
  split_ifs with h1
  · simp [RowState.holdStart, List.getD_eq_getElem?_getD, List.getElem?_set, hlen]
  · exact ⟨rfl, rfl, rfl⟩

theorem decodeColumn_self_close (row : String) (s : RowState) (t : Nat)
    (hlen : t < s.iHoldStartRow.length) (hc : charAt row t ≠ '4') :
    (decodeColumn row s t).holdStart t = -1
    ∧ holdsOf t (decodeColumn row s t).notedata
        = holdsOf t s.notedata ++
          (if s.holdStart t ≠ -1 ∧ s.holdStart t ≠ BeatToNoteRow s.prevBeat then
            [NoteEvent.hold t (s.holdStart t) (BeatToNoteRow s.prevBeat) .TAP_ORIGINAL_HOLD_HEAD]
           else [])
    ∧ (decodeColumn row s t).iHoldStartRow.length = s.iHoldStartRow.length := by
  unfold decodeColumn
  dsimp only
  rw [if_neg hc]
  split_ifs with h1 h2 h3 h4 h5
  · exact absurd h3.2 (not_not.2 h2)
  · simp [RowState.holdStart, holdsOf, List.getD_eq_getElem?_getD, List.getElem?_set, hlen,
      NoteData.SetTapNote, List.filter_append, NoteEvent.isHoldOf]
  · simp [RowState.holdStart, holdsOf, List.getD_eq_getElem?_getD, List.getElem?_set, hlen,
      NoteData.SetTapNote, NoteData.AddHoldNote, List.filter_append, NoteEvent.isHoldOf]
  · exact absurd ⟨h1, h2⟩ h4
  · exact absurd h5.1 h1
  · have h1' : s.holdStart t = -1 := not_not.1 h1
    refine ⟨h1', ?_, rfl⟩
    simp [holdsOf, NoteData.SetTapNote, List.filter_append, NoteEvent.isHoldOf]

theorem foldl_decodeColumn_other (row : String) (t : Nat) (cols : List Nat) (hnot : t ∉ cols)
    (s : RowState) :
    (cols.foldl (decodeColumn row) s).holdStart t = s.holdStart t
    ∧ holdsOf t (cols.foldl (decodeColumn row) s).notedata = holdsOf t s.notedata
    ∧ (cols.foldl (decodeColumn row) s).iHoldStartRow.length = s.iHoldStartRow.length := by
  induction cols generalizing s with
  | nil => exact ⟨rfl, rfl, rfl⟩
  | cons c cs ih =>
    rw [List.foldl_cons]
    have hc : c ≠ t := fun h => hnot (h ▸ List.mem_cons_self _ _)
    obtain ⟨a1, a2, a3⟩ := ih (fun h => hnot (List.mem_cons_of_mem _ h)) (decodeColumn row s c)
    obtain ⟨b1, b2, b3⟩ := decodeColumn_other row s t c hc
    exact ⟨a1.trans b1, a2.trans b2, a3.trans b3⟩

theorem foldl_decodeColumn_self_hold (row : String) (t : Nat) (cols : List Nat)
    (hmem : t ∈ cols) (hnd : cols.Nodup) (s : RowState) (hlen : t < s.iHoldStartRow.length)
    (hc : charAt row t = '4') :
    (cols.foldl (decodeColumn row) s).holdStart t
        = (if s.holdStart t = -1 then BeatToNoteRow s.fCurBeat else s.holdStart t)
    ∧ holdsOf t (cols.foldl (decodeColumn row) s).notedata = holdsOf t s.notedata
    ∧ (cols.foldl (decodeColumn row) s).iHoldStartRow.length = s.iHoldStartRow.length := by
  induction cols generalizing s with
  | nil => cases hmem
  | cons c cs ih =>
    rw [List.foldl_cons]
    rw [List.nodup_cons] at hnd
    by_cases hct : c = t
    · subst hct
      obtain ⟨a1, a2, a3⟩ := foldl_decodeColumn_other row c cs hnd.1 (decodeColumn row s c)
      obtain ⟨b1, b2, b3⟩ := decodeColumn_self_hold row s c hlen hc
      exact ⟨a1.trans b1, a2.trans b2, a3.trans b3⟩
    · have hmem' : t ∈ cs := by
        rcases List.mem_cons.1 hmem with h | h
        · exact absurd h.symm hct
        · exact h
      obtain ⟨b1, b2, b3⟩ := decodeColumn_other row s t c hct
      obtain ⟨-, f2, -, -, -, -⟩ := decodeColumn_frame row s c
      obtain ⟨a1, a2, a3⟩ := ih hmem' hnd.2 (decodeColumn row s c) (by rw [b3]; exact hlen)
      rw [b1, f2] at a1
      exact ⟨a1, a2.trans b2, a3.trans b3⟩

theorem foldl_decodeColumn_self_close (row : String) (t : Nat) (cols : List Nat)
    (hmem : t ∈ cols) (hnd : cols.Nodup) (s : RowState) (hlen : t < s.iHoldStartRow.length)
    (hc : charAt row t ≠ '4') :
    (cols.foldl (decodeColumn row) s).holdStart t = -1
    ∧ holdsOf t (cols.foldl (decodeColumn row) s).notedata
        = holdsOf t s.notedata ++
          (if s.holdStart t ≠ -1 ∧ s.holdStart t ≠ BeatToNoteRow s.prevBeat then
            [NoteEvent.hold t (s.holdStart t) (BeatToNoteRow s.prevBeat) .TAP_ORIGINAL_HOLD_HEAD]
           else [])
    ∧ (cols.foldl (decodeColumn row) s).iHoldStartRow.length = s.iHoldStartRow.length := by
  induction cols generalizing s with
  | nil => cases hmem
  | cons c cs ih =>
    rw [List.foldl_cons]
    rw [List.nodup_cons] at hnd
    by_cases hct : c = t
    · subst hct
      obtain ⟨a1, a2, a3⟩ := foldl_decodeColumn_other row c cs hnd.1 (decodeColumn row s c)
      obtain ⟨b1, b2, b3⟩ := decodeColumn_self_close row s c hlen hc
      exact ⟨a1.trans b1, a2.trans b2, a3.trans b3⟩
    · have hmem' : t ∈ cs := by
        rcases List.mem_cons.1 hmem with h | h
        · exact absurd h.symm hct
        · exact h
      obtain ⟨b1, b2, b3⟩ := decodeColumn_other row s t c hct
      obtain ⟨-, -, f3, -, -, -⟩ := decodeColumn_frame row s c
      obtain ⟨a1, a2, a3⟩ := ih hmem' hnd.2 (decodeColumn row s c) (by rw [b3]; exact hlen)
      rw [b1, b2, f3] at a2
      exact ⟨a1, a2, a3.trans b3⟩

/-- The state in which the column loop of a note row starts (lines 349-353). -/
theorem decodeNoteRow_eq (st : StepsType) (s : RowState) (row : String) :
    ∃ s1 : RowState, s1.holdStart = s.holdStart ∧ s1.notedata = s.notedata
      ∧ s1.iHoldStartRow = s.iHoldStartRow ∧ s1.fCurBeat = s.fCurBeat
      ∧ s1.prevBeat = s.prevBeat
      ∧ decodeNoteRow st s row =
        { (List.range s1.notedata.GetNumTracks).foldl
            (decodeColumn (if st = .StepsType_pump_halfdouble then erase0 row 2 else row)) s1 with
          prevBeat := ((List.range s1.notedata.GetNumTracks).foldl
            (decodeColumn (if st = .StepsType_pump_halfdouble then erase0 row 2 else row))
              s1).fCurBeat
          fCurBeat := ((List.range s1.notedata.GetNumTracks).foldl
            (decodeColumn (if st = .StepsType_pump_halfdouble then erase0 row 2 else row))
              s1).fCurBeat
            + 1 / (((List.range s1.notedata.GetNumTracks).foldl
            (decodeColumn (if st = .StepsType_pump_halfdouble then erase0 row 2 else row))
              s1).iTickCount : ℚ) } := by
  cases hb : s.bTickChangeNeeded
  · refine ⟨s, rfl, rfl, rfl, rfl, rfl, ?_⟩
    unfold decodeNoteRow
    rw [hb]
    rfl
  · refine ⟨{ s with iTickCount := s.newTick, bTickChangeNeeded := false }, rfl, rfl, rfl, rfl,
      rfl, ?_⟩
    unfold decodeNoteRow
    rw [hb]
    rfl

theorem decodeNoteRow_hold (st : StepsType) (s : RowState) (row : String) (t : Nat)
    (ht : t < s.notedata.numTracks) (hlen : t < s.iHoldStartRow.length)
    (hc : columnChar st row t = '4') :
    (decodeNoteRow st s row).holdStart t
        = (if s.holdStart t = -1 then BeatToNoteRow s.fCurBeat else s.holdStart t)
    ∧ holdsOf t (decodeNoteRow st s row).notedata = holdsOf t s.notedata
    ∧ (decodeNoteRow st s row).iHoldStartRow.length = s.iHoldStartRow.length
    ∧ (decodeNoteRow st s row).prevBeat = s.fCurBeat := by
  obtain ⟨s1, e1, e2, e3, e4, e5, heq⟩ := decodeNoteRow_eq st s row
  rw [heq]
  obtain ⟨a1, a2, a3⟩ := foldl_decodeColumn_self_hold
    (if st = StepsType.StepsType_pump_halfdouble then erase0 row 2 else row) t
    (List.range s1.notedata.GetNumTracks)
    (by rw [List.mem_range, e2]; exact ht) (List.nodup_range _) s1 (by rw [e3]; exact hlen) hc
  obtain ⟨-, f2, -, -, -, -⟩ := foldl_decodeColumn_frame
    (if st = StepsType.StepsType_pump_halfdouble then erase0 row 2 else row)
    (List.range s1.notedata.GetNumTracks) s1
  exact ⟨a1.trans (by rw [e1, e4]), a2.trans (by rw [e2]), a3.trans (by rw [e3]), f2.trans e4⟩

theorem decodeNoteRow_close (st : StepsType) (s : RowState) (row : String) (t : Nat)
    (ht : t < s.notedata.numTracks) (hlen : t < s.iHoldStartRow.length)
    (hc : columnChar st row t ≠ '4') :
    holdsOf t (decodeNoteRow st s row).notedata
        = holdsOf t s.notedata ++
          (if s.holdStart t ≠ -1 ∧ s.holdStart t ≠ BeatToNoteRow s.prevBeat then
            [NoteEvent.hold t (s.holdStart t) (BeatToNoteRow s.prevBeat) .TAP_ORIGINAL_HOLD_HEAD]
           else []) := by
  obtain ⟨s1, e1, e2, e3, e4, e5, heq⟩ := decodeNoteRow_eq st s row
  rw [heq]
  obtain ⟨-, a2, -⟩ := foldl_decodeColumn_self_close
    (if st = StepsType.StepsType_pump_halfdouble then erase0 row 2 else row) t
    (List.range s1.notedata.GetNumTracks)
    (by rw [List.mem_range, e2]; exact ht) (List.nodup_range _) s1 (by rw [e3]; exact hlen) hc
  exact a2.trans (by rw [e1, e2, e5])

theorem finishHold_frame (s : RowState) (t' : Nat) :
    (finishHold s t').iHoldStartRow = s.iHoldStartRow
    ∧ (finishHold s t').prevBeat = s.prevBeat := by
  unfold finishHold
  split_ifs <;> exact ⟨rfl, rfl⟩

theorem finishHold_other (s : RowState) (t t' : Nat) (hne : t' ≠ t) :
    holdsOf t (finishHold s t').notedata = holdsOf t s.notedata := by
  unfold finishHold
  split_ifs <;>
    simp [holdsOf, NoteData.SetTapNote, NoteData.AddHoldNote, List.filter_append,
      NoteEvent.isHoldOf, hne]

theorem finishHold_self (s : RowState) (t : Nat) :
    holdsOf t (finishHold s t).notedata
      = holdsOf t s.notedata ++
        (if s.holdStart t ≠ -1 ∧ s.holdStart t ≠ BeatToNoteRow s.prevBeat then
          [NoteEvent.hold t (s.holdStart t) (BeatToNoteRow s.prevBeat) .TAP_ORIGINAL_HOLD_HEAD]
         else []) := by
  unfold finishHold
  split_ifs with h1 h2 h3 h4 h5
  · exact absurd h2 h3.2
  · simp [holdsOf, NoteData.SetTapNote, List.filter_append, NoteEvent.isHoldOf]
  · simp [holdsOf, NoteData.AddHoldNote, List.filter_append, NoteEvent.isHoldOf]
  · exact absurd ⟨h1, h2⟩ h4
  · exact absurd h5.1 h1
  · simp

theorem foldl_finishHold_frame (cols : List Nat) (s : RowState) :
    (cols.foldl finishHold s).iHoldStartRow = s.iHoldStartRow
    ∧ (cols.foldl finishHold s).prevBeat = s.prevBeat := by
  induction cols generalizing s with
  | nil => exact ⟨rfl, rfl⟩
  | cons c cs ih =>
    rw [List.foldl_cons]
    exact ⟨(ih _).1.trans (finishHold_frame s c).1, (ih _).2.trans (finishHold_frame s c).2⟩

theorem foldl_finishHold_other (t : Nat) (cols : List Nat) (hnot : t ∉ cols) (s : RowState) :
    holdsOf t (cols.foldl finishHold s).notedata = holdsOf t s.notedata := by
  induction cols generalizing s with
  | nil => rfl
  | cons c cs ih =>
    rw [List.foldl_cons]
    have hc : c ≠ t := fun h => hnot (h ▸ List.mem_cons_self _ _)
    exact (ih (fun h => hnot (List.mem_cons_of_mem _ h)) _).trans (finishHold_other s t c hc)

theorem foldl_finishHold_self (t : Nat) (cols : List Nat) (hmem : t ∈ cols) (hnd : cols.Nodup)
    (s : RowState) :
    holdsOf t (cols.foldl finishHold s).notedata
      = holdsOf t s.notedata ++
        (if s.holdStart t ≠ -1 ∧ s.holdStart t ≠ BeatToNoteRow s.prevBeat then
          [NoteEvent.hold t (s.holdStart t) (BeatToNoteRow s.prevBeat) .TAP_ORIGINAL_HOLD_HEAD]
         else []) := by
  induction cols generalizing s with
  | nil => cases hmem
  | cons c cs ih =>
    rw [List.foldl_cons]
    rw [List.nodup_cons] at hnd
    by_cases hct : c = t
    · subst hct
      exact (foldl_finishHold_other c cs hnd.1 _).trans (finishHold_self s c)
    · have hmem' : t ∈ cs := by
        rcases List.mem_cons.1 hmem with h | h
        · exact absurd h.symm hct
        · exact h
      have h1 := ih hmem' hnd.2 (finishHold s c)
      have hs : (finishHold s c).holdStart t = s.holdStart t := by
        unfold RowState.holdStart
        rw [(finishHold_frame s c).1]
      rw [hs, (finishHold_frame s c).2, finishHold_other s t c hct] at h1
      exact h1

theorem rowStep_skipped (E : Ext) (b : Bool) (st : StepsType) (s s' : RowState) (l : String)
    (fl : Bool) (hl : isSkippedLine E l) (hr : rowStep E b st s l = .ok (s', fl)) :
    fl = false ∧ s'.notedata = s.notedata ∧ s'.iHoldStartRow = s.iHoldStartRow
      ∧ s'.fCurBeat = s.fCurBeat ∧ s'.prevBeat = s.prevBeat := by
  unfold rowStep at hr
  dsimp only at hr
  split_ifs at hr with h1 h2 h3 h4
  · cases hr; exact ⟨rfl, rfl, rfl, rfl, rfl⟩
  · rcases hl with hl | hl
    · exact absurd hl h1
    · rw [h2] at hl
      exact absurd hl (by decide)
  · cases hr; exact ⟨rfl, rfl, rfl, rfl, rfl⟩
  · split at hr
    · cases hr
    · cases hr; exact ⟨rfl, rfl, rfl, rfl, rfl⟩
  · rcases hl with hl | hl
    · exact absurd hl h1
    · exact absurd hl h3

theorem decodeRows_hold_open (E : Ext) (b : Bool) (st : StepsType) (t : Nat) (H : ℤ)
    (K : List NoteEvent) (hH : H ≠ -1) (lines : List String)
    (hlines : ∀ l ∈ lines,
      (isNoteLine E l ∧ columnChar st (E.StripCrnl l) t = '4') ∨ isSkippedLine E l)
    (s s' : RowState) (hr : decodeRows E b st lines s = .ok s')
    (h1 : s.holdStart t = H) (h2 : holdsOf t s.notedata = K)
    (h3 : t < s.notedata.numTracks) (h4 : t < s.iHoldStartRow.length) :
    s'.holdStart t = H ∧ holdsOf t s'.notedata = K ∧ t < s'.notedata.numTracks
      ∧ t < s'.iHoldStartRow.length := by
  induction lines generalizing s with
  | nil => cases hr; exact ⟨h1, h2, h3, h4⟩
  | cons l rest ih =>
    have hrest := fun q hq => hlines q (List.mem_cons_of_mem _ hq)
    rw [decodeRows_cons] at hr
    rcases hlines l (List.mem_cons_self _ _) with ⟨⟨n1, n2, n3⟩, hc⟩ | hskip
    · rw [rowStep_note E b st s l n1 n2 n3] at hr
      dsimp only at hr
      obtain ⟨a1, a2, a3, -⟩ := decodeNoteRow_hold st s (E.StripCrnl l) t h3 h4 hc
      rw [h1, if_neg hH] at a1
      exact ih hrest _ hr a1 (a2.trans h2)
        (by rw [decodeNoteRow_numTracks]; exact h3) (by rw [a3]; exact h4)
    · cases hs : rowStep E b st s l with
      | error e => rw [hs] at hr; cases hr
      | ok p =>
        obtain ⟨s1, fl⟩ := p
        obtain ⟨f1, f2, f3, -, -⟩ := rowStep_skipped E b st s s1 l fl hskip hs
        subst f1
        rw [hs] at hr
        dsimp only at hr
        exact ih hrest s1 hr (by unfold RowState.holdStart; rw [f3]; exact h1)
          (by rw [f2]; exact h2) (by rw [f2]; exact h3) (by rw [f3]; exact h4)

theorem decodeRows_skipped (E : Ext) (b : Bool) (st : StepsType) (lines : List String)
    (hlines : ∀ l ∈ lines, isSkippedLine E l) (s s' : RowState)
    (hr : decodeRows E b st lines s = .ok s') :
    s'.notedata = s.notedata ∧ s'.iHoldStartRow = s.iHoldStartRow ∧ s'.prevBeat = s.prevBeat := by
  induction lines generalizing s with
  | nil => cases hr; exact ⟨rfl, rfl, rfl⟩
  | cons l rest ih =>
    rw [decodeRows_cons] at hr
    cases hs : rowStep E b st s l with
    | error e => rw [hs] at hr; cases hr
    | ok p =>
      obtain ⟨s1, fl⟩ := p
      obtain ⟨f1, f2, f3, -, f5⟩ :=
        rowStep_skipped E b st s s1 l fl (hlines l (List.mem_cons_self _ _)) hs
      subst f1
      rw [hs] at hr
      dsimp only at hr
      obtain ⟨g1, g2, g3⟩ := ih (fun q hq => hlines q (List.mem_cons_of_mem _ hq)) s1 hr
      exact ⟨g1.trans f2, g2.trans f3, g3.trans f5⟩

/-- A hold over several lines, outside the defect of the marker row: if column
`t` has no open hold, carries `4` on the decoded lines `l0 … lLast` (blank and
pipe lines may stand in between and before the terminator), and the next line
is a terminator (a note line with another character in that column, or the
sentinel row), then exactly one hold event is added to that column: its head is
the note row of `l0`, its tail the note row of `lLast`, provided the two rows
differ and the row of `l0` is not the marker `-1`. -/
theorem hold_spans_to_previous_row (E : Ext) (b : Bool) (st : StepsType) (t : Nat)
    (l0 lLast term : String) (mid skips : List String) (s0 sB sA sT sF : RowState) (fl : Bool)
    (ht : t < s0.notedata.numTracks) (hlen : t < s0.iHoldStartRow.length)
    (hclosed : s0.holdStart t = -1)
    (h0 : isNoteLine E l0 ∧ columnChar st (E.StripCrnl l0) t = '4')
    (hmid : ∀ l ∈ mid,
      (isNoteLine E l ∧ columnChar st (E.StripCrnl l) t = '4') ∨ isSkippedLine E l)
    (hlast : isNoteLine E lLast ∧ columnChar st (E.StripCrnl lLast) t = '4')
    (hskips : ∀ l ∈ skips, isSkippedLine E l)
    (hterm : E.StripCrnl term = SENTINEL
      ∨ (isNoteLine E term ∧ columnChar st (E.StripCrnl term) t ≠ '4'))
    (hB : decodeRows E b st (l0 :: mid) s0 = .ok sB)
    (hA : rowStep E b st sB lLast = .ok (sA, false))
    (hT : decodeRows E b st skips sA = .ok sT)
    (hF : rowStep E b st sT term = .ok (sF, fl))
    (hmarker : BeatToNoteRow s0.fCurBeat ≠ -1)
    (hdiff : BeatToNoteRow s0.fCurBeat ≠ BeatToNoteRow sB.fCurBeat) :
    holdsOf t sF.notedata
      = holdsOf t s0.notedata ++
        [NoteEvent.hold t (BeatToNoteRow s0.fCurBeat) (BeatToNoteRow sB.fCurBeat)
          .TAP_ORIGINAL_HOLD_HEAD] := by
  -- the line `l0` opens the hold
  rw [decodeRows_cons, rowStep_note E b st s0 l0 h0.1.1 h0.1.2.1 h0.1.2.2] at hB
  dsimp only at hB
  obtain ⟨a1, a2, a3, -⟩ := decodeNoteRow_hold st s0 (E.StripCrnl l0) t ht hlen h0.2
  rw [if_pos hclosed] at a1
  -- it stays open up to the state in which `lLast` is read
  obtain ⟨b1, b2, b3, b4⟩ := decodeRows_hold_open E b st t (BeatToNoteRow s0.fCurBeat)
    (holdsOf t s0.notedata) hmarker mid hmid _ sB hB a1 a2
    (by rw [decodeNoteRow_numTracks]; exact ht) (by rw [a3]; exact hlen)
  -- the line `lLast`
  rw [rowStep_note E b st sB lLast hlast.1.1 hlast.1.2.1 hlast.1.2.2] at hA
  cases hA
  obtain ⟨c1, c2, c3, c4⟩ := decodeNoteRow_hold st sB (E.StripCrnl lLast) t b3 b4 hlast.2
  rw [b1, if_neg hmarker] at c1
  -- the skipped lines before the terminator
  obtain ⟨d1, d2, d3⟩ := decodeRows_skipped E b st skips hskips _ sT hT
  have e1 : sT.holdStart t = BeatToNoteRow s0.fCurBeat := by
    unfold RowState.holdStart
    rw [d2]
    exact c1
  have e2 : holdsOf t sT.notedata = holdsOf t s0.notedata := by rw [d1, c2, b2]
  have e3 : sT.prevBeat = sB.fCurBeat := d3.trans c4
  have e4 : t < sT.notedata.numTracks := by
    rw [d1, decodeNoteRow_numTracks]; exact b3
  have e5 : t < sT.iHoldStartRow.length := by rw [d2, c3]; exact b4
  -- the terminator
  rcases hterm with hsent | ⟨⟨n1, n2, n3⟩, hc⟩
  · rw [rowStep_sentinel E b st sT term hsent] at hF
    cases hF
    have hfin := foldl_finishHold_self t (List.range sT.notedata.GetNumTracks)
      (List.mem_range.2 e4) (List.nodup_range _) sT
    rw [e1, e2, e3, if_pos ⟨hmarker, hdiff⟩] at hfin
    exact hfin
  · rw [rowStep_note E b st sT term n1 n2 n3] at hF
    cases hF
    rw [decodeNoteRow_close st sT (E.StripCrnl term) t e4 e5 hc, e1, e2, e3,
      if_pos ⟨hmarker, hdiff⟩]

/-! ## `HandleBunki` -/

theorem insertByRow_eq {α : Type} (key : α → Int) (x : α) (l : List α) :
    ∃ l1 l2, l = l1 ++ l2 ∧ insertByRow key x l = l1 ++ x :: l2 := by
  induction l with
  | nil => exact ⟨[], [], rfl, rfl⟩
  | cons y ys ih =>
    unfold insertByRow
    split_ifs with h
    · exact ⟨[], y :: ys, rfl, rfl⟩
    · obtain ⟨l1, l2, h1, h2⟩ := ih
      exact ⟨y :: l1, l2, by rw [h1]; rfl, by rw [h2]; rfl⟩

/-- C11: `HandleBunki(timing, earlyBPM, curBPM, gap, pos)` inserts exactly one
tempo segment, of value `curBPM`, at the row
`BeatToNoteRow((pos + gap) * (earlyBPM / 60))` (the earlier tempo scales the
position), keeps the other tempo segments in their order, and changes nothing
else of the timing track; for `earlyBPM = 120`, `curBPM = 150`, `gap = -1.5`,
`pos = 3.0` the beat is exactly `3`, the row is `3 * 48 = 144`, and the tempo
inserted there is `150`. -/
theorem HandleBunki_inserts_one_segment (timing : TimingData) (fEarlyBPM fCurBPM fGap fPos : ℚ) :
    (∃ l1 l2, timing.m_BPMSegments = l1 ++ l2
      ∧ (HandleBunki timing fEarlyBPM fCurBPM fGap fPos).m_BPMSegments
          = l1 ++ ⟨BeatToNoteRow ((fPos + fGap) * (fEarlyBPM / 60)), fCurBPM⟩ :: l2)
    ∧ (HandleBunki timing fEarlyBPM fCurBPM fGap fPos).m_fBeat0OffsetInSeconds
        = timing.m_fBeat0OffsetInSeconds
    ∧ (HandleBunki timing fEarlyBPM fCurBPM fGap fPos).m_StopSegments = timing.m_StopSegments
    ∧ (HandleBunki timing fEarlyBPM fCurBPM fGap fPos).m_TickcountSegments
        = timing.m_TickcountSegments
    ∧ ((3 + (-3 / 2) : ℚ) * (120 / 60) = 3 ∧ BeatToNoteRow 3 = 3 * 48
      ∧ (HandleBunki TimingData.empty 120 150 (-3 / 2) 3).m_BPMSegments = [⟨144, 150⟩]) := by
  refine ⟨?_, rfl, rfl, rfl, by norm_num, by with_unfolding_all decide,
    by with_unfolding_all decide⟩
  exact insertByRow_eq _ _ _

/-! ## `LoadTags` -/

theorem convertOrEmpty_id (G : SongExt) (hconv : ∀ s, G.ConvertString s "korean" = some s)
    (s : String) : convertOrEmpty G s = s := by
  unfold convertOrEmpty
  rw [hconv]

/-- C12: `LoadTags` on a song whose title and artist are empty, the encoding
conversion being the identity. When the string splits at `" - "` into the three
parts `A`, `T`, `W` and `W` equals, ignoring case, one of double, easy, normal,
hard, crazy, nightmare, the artist becomes `A` and the title `T`; when it splits
into the two parts `A`, `T`, the artist becomes `A` and the title `T`; when it
does not contain the separator, so that the only part is the string itself, the
title becomes the whole string and the artist stays empty. -/
theorem LoadTags_fills_title_and_artist (G : SongExt) (str : String) (out : Song)
    (hconv : ∀ s, G.ConvertString s "korean" = some s)
    (ht : out.m_sMainTitle = "") (ha : out.m_sArtist = "") :
    (∀ A T W, G.split str " - " [] false = [A, T, W] →
      (G.EqualsNoCase W "double" = true ∨ G.EqualsNoCase W "easy" = true
        ∨ G.EqualsNoCase W "normal" = true ∨ G.EqualsNoCase W "hard" = true
        ∨ G.EqualsNoCase W "crazy" = true ∨ G.EqualsNoCase W "nightmare" = true) →
      (LoadTags G str out).m_sArtist = A ∧ (LoadTags G str out).m_sMainTitle = T)
    ∧ (∀ A T, G.split str " - " [] false = [A, T] →
      (LoadTags G str out).m_sArtist = A ∧ (LoadTags G str out).m_sMainTitle = T)
    ∧ (G.split str " - " [] false = [str] →
      (LoadTags G str out).m_sMainTitle = str ∧ (LoadTags G str out).m_sArtist = "") := by
  refine ⟨?_, ?_, ?_⟩
  · intro A T W hs hW
    have hsuf : hasDifficultySuffix G [A, T, W] = true := by
      unfold hasDifficultySuffix
      rcases hW with h | h | h | h | h | h <;> simp [h]
    unfold LoadTags
    simp only [hs, hsuf, if_true, convertOrEmpty_id G hconv, ht, ha]
    simp
  · intro A T hs
    have hsuf : hasDifficultySuffix G [A, T] = false := by
      unfold hasDifficultySuffix
      simp
    unfold LoadTags
    simp only [hs, hsuf, convertOrEmpty_id G hconv, ht, ha]
    simp
  · intro hs
    have hsuf : hasDifficultySuffix G [str] = false := by
      unfold hasDifficultySuffix
      simp
    unfold LoadTags
    simp only [hs, hsuf, convertOrEmpty_id G hconv, ht, ha]
    simp

/-- The example of the specification: `DJ Foo - Song Title - Crazy` gives the
artist `DJ Foo` and the title `Song Title`. -/
theorem LoadTags_fills_title_and_artist_witness :
    (LoadTags (sampleSongExt [] []) "DJ Foo - Song Title - Crazy" (Song.fresh "Songs/x/")).m_sArtist
        = "DJ Foo"
    ∧ (LoadTags (sampleSongExt [] []) "DJ Foo - Song Title - Crazy"
        (Song.fresh "Songs/x/")).m_sMainTitle = "Song Title" :=
  (LoadTags_fills_title_and_artist (sampleSongExt [] []) "DJ Foo - Song Title - Crazy"
    (Song.fresh "Songs/x/") (fun _ => rfl) rfl rfl).1 "DJ Foo" "Song Title" "Crazy"
    (by decide) (Or.inr (Or.inr (Or.inr (Or.inr (Or.inl (by decide))))))

/-- C13: first write wins. For every input string `LoadTags` leaves a non-empty
title of the song unchanged and leaves a non-empty artist unchanged, each field
independently of the other, and it modifies no field of the song other than the
title and the artist. -/
theorem LoadTags_first_write_wins (G : SongExt) (str : String) (out : Song) :
    (out.m_sMainTitle ≠ "" → (LoadTags G str out).m_sMainTitle = out.m_sMainTitle)
    ∧ (out.m_sArtist ≠ "" → (LoadTags G str out).m_sArtist = out.m_sArtist)
    ∧ LoadTags G str out
        = { out with m_sMainTitle := (LoadTags G str out).m_sMainTitle,
                     m_sArtist := (LoadTags G str out).m_sArtist } := by
  unfold LoadTags
  dsimp only
  refine ⟨fun h => ?_, fun h => ?_, ?_⟩
  · rw [if_neg h]
    split_ifs <;> rfl
  · split_ifs <;> rfl
  · split_ifs <;> rfl

/-- A song with a title and no artist keeps the title and gets the artist. -/
theorem LoadTags_first_write_wins_witness :
    (LoadTags (sampleSongExt [] []) "DJ Foo - Song Title"
        { Song.fresh "Songs/x/" with m_sMainTitle := "Other" }).m_sMainTitle = "Other"
    ∧ (LoadTags (sampleSongExt [] []) "DJ Foo - Song Title"
        { Song.fresh "Songs/x/" with m_sMainTitle := "Other" }).m_sArtist = "DJ Foo" :=
  ⟨(LoadTags_first_write_wins (sampleSongExt [] []) "DJ Foo - Song Title"
      { Song.fresh "Songs/x/" with m_sMainTitle := "Other" }).1 (by decide), by decide⟩

/-! ## The directives of `HandlePipeChars` -/

theorem substr_payload (row : String) (h3 : 3 ≤ row.length) (hlt : row.length < SIZE_MODULUS) :
    substr row 2 ((row.length + SIZE_MODULUS - 3) % SIZE_MODULUS) = .ok (payloadOf row) := by
  have hm : (row.length + SIZE_MODULUS - 3) % SIZE_MODULUS = row.length - 3 := by
    have : row.length + SIZE_MODULUS - 3 = (row.length - 3) + SIZE_MODULUS := by omega
    rw [this, Nat.add_mod_right, Nat.mod_eq_of_lt (by omega)]
  unfold substr payloadOf
  rw [hm, if_neg (by omega)]
  have hl : row.length = row.data.length := rfl
  rw [List.dropLast_eq_take, List.length_drop, hl]
  rfl

theorem payloadOf_shape (a b : Char) (p : String) :
    payloadOf (String.mk [a, b] ++ p ++ "|") = p := by
  unfold payloadOf
  simp [String.data_append]

theorem BeginsWith_data (row : String) (a b : Char)
    (h : BeginsWith row (String.mk [a, b]) = true) : ∃ t, row.data = a :: b :: t := by
  unfold BeginsWith at h
  rw [List.isPrefixOf_iff_prefix] at h
  obtain ⟨t, ht⟩ := h
  exact ⟨t, ht.symm⟩

theorem BeginsWith_of_data (row : String) (a b c d : Char) (t : List Char)
    (h : row.data = a :: b :: t) :
    BeginsWith row (String.mk [c, d]) = (c == a && d == b) := by
  unfold BeginsWith
  rw [h]
  simp [List.isPrefixOf]

theorem replaceFirst_mem {α : Type} (p : α → Bool) (x : α) (l l' : List α)
    (h : replaceFirst p x l = some l') : x ∈ l' := by
  induction l generalizing l' with
  | nil => cases h
  | cons y ys ih =>
    unfold replaceFirst at h
    split_ifs at h with c
    · cases h; exact List.mem_cons_self _ _
    · cases hr : replaceFirst p x ys with
      | none => rw [hr] at h; cases h
      | some l1 =>
        rw [hr] at h
        cases h
        exact List.mem_cons_of_mem _ (ih l1 hr)

theorem mem_insertByRow {α : Type} (key : α → Int) (x : α) (l : List α) :
    x ∈ insertByRow key x l := by
  obtain ⟨l1, l2, -, h⟩ := insertByRow_eq key x l
  rw [h]
  simp

theorem SetTickcountAtBeat_frame (t : TimingData) (b : ℚ) (n : Int) :
    (⟨BeatToNoteRow b, n⟩ : TickcountSegment) ∈ (t.SetTickcountAtBeat b n).m_TickcountSegments
    ∧ (t.SetTickcountAtBeat b n).m_BPMSegments = t.m_BPMSegments
    ∧ (t.SetTickcountAtBeat b n).m_StopSegments = t.m_StopSegments
    ∧ (t.SetTickcountAtBeat b n).m_fBeat0OffsetInSeconds = t.m_fBeat0OffsetInSeconds := by
  unfold TimingData.SetTickcountAtBeat
  dsimp only
  split
  · next l hl => exact ⟨replaceFirst_mem _ _ _ _ hl, rfl, rfl, rfl⟩
  · exact ⟨mem_insertByRow _ _ _, rfl, rfl, rfl⟩

theorem rowStep_directive (E : Ext) (st : StepsType) (s : RowState) (l : String) (a : Char)
    (t : List Char) (h : (E.StripCrnl l).data = '|' :: a :: t) :
    rowStep E false st s l =
      match HandlePipeChars E s.stepsTiming (E.StripCrnl l) s.fCurBeat s.iTickCount with
      | .error e => .error e
      | .ok (_, timing, iTickCount) =>
        .ok ({ s with stepsTiming := timing, iTickCount := iTickCount }, false) := by
  have h1 : E.StripCrnl l ≠ "" := by
    intro c
    rw [c] at h
    cases h
  have h2 : E.StripCrnl l ≠ SENTINEL := by
    intro c
    rw [c] at h
    revert h
    unfold SENTINEL
    simp
  have h3 : BeginsWith (E.StripCrnl l) "|" = true := by
    unfold BeginsWith
    rw [h]
    rfl
  unfold rowStep
  dsimp only
  rw [if_neg h1, if_neg h2, if_pos h3]
  rfl

/-- C18: a line `|T<payload>|`. The payload is the characters from index 2 up to
the second-to-last character; with `n` the payload parsed as a number and
truncated to an integer, `HandlePipeChars` returns true, records at the row of
the current beat a tick segment of value `n` clamped to `[0, 48]`, leaves the
tempo and stop segments and the offset as they were, and hands back `n` as the
tick count; the row loop of the older dialect continues with the tick count `n`
at the same beat, so that the following note rows advance the beat by `1 / n`. -/
theorem tick_directive (E : Ext) (timing : TimingData) (row : String) (fCurBeat : ℚ)
    (iTickCount : Int) (hb : BeginsWith row "|T" = true) (h3 : 3 ≤ row.length)
    (hlt : row.length < SIZE_MODULUS) :
    HandlePipeChars E timing row fCurBeat iTickCount
        = .ok (true,
            timing.SetTickcountAtBeat fCurBeat
              (clamp (floatToInt (E.StringToFloat (payloadOf row))) 0 ROWS_PER_BEAT),
            floatToInt (E.StringToFloat (payloadOf row)))
    ∧ (∀ p : String, row = "|T" ++ p ++ "|" → payloadOf row = p)
    ∧ (⟨BeatToNoteRow fCurBeat, max 0 (min (floatToInt (E.StringToFloat (payloadOf row))) 48)⟩
          : TickcountSegment)
        ∈ (timing.SetTickcountAtBeat fCurBeat
            (clamp (floatToInt (E.StringToFloat (payloadOf row))) 0 ROWS_PER_BEAT)).m_TickcountSegments
    ∧ (timing.SetTickcountAtBeat fCurBeat
          (clamp (floatToInt (E.StringToFloat (payloadOf row))) 0 ROWS_PER_BEAT)).m_BPMSegments
        = timing.m_BPMSegments
    ∧ (timing.SetTickcountAtBeat fCurBeat
          (clamp (floatToInt (E.StringToFloat (payloadOf row))) 0 ROWS_PER_BEAT)).m_StopSegments
        = timing.m_StopSegments
    ∧ (∀ (st : StepsType) (s : RowState) (l : String), E.StripCrnl l = row →
        s.bTickChangeNeeded = false →
        ∃ s', rowStep E false st s l = .ok (s', false)
          ∧ s'.iTickCount = floatToInt (E.StringToFloat (payloadOf row))
          ∧ s'.fCurBeat = s.fCurBeat ∧ s'.notedata = s.notedata
          ∧ ∀ r, (decodeNoteRow st s' r).fCurBeat
                = s.fCurBeat + 1 / (floatToInt (E.StringToFloat (payloadOf row)) : ℚ)
              ∧ (decodeNoteRow st s' r).iTickCount
                = floatToInt (E.StringToFloat (payloadOf row))) := by
  have hres : HandlePipeChars E timing row fCurBeat iTickCount
        = .ok (true,
            timing.SetTickcountAtBeat fCurBeat
              (clamp (floatToInt (E.StringToFloat (payloadOf row))) 0 ROWS_PER_BEAT),
            floatToInt (E.StringToFloat (payloadOf row))) := by
    unfold HandlePipeChars
    rw [substr_payload row h3 hlt]
    dsimp only
    rw [if_pos hb]
  obtain ⟨f1, f2, f3, -⟩ := SetTickcountAtBeat_frame timing fCurBeat
    (clamp (floatToInt (E.StringToFloat (payloadOf row))) 0 ROWS_PER_BEAT)
  refine ⟨hres, ?_, f1, f2, f3, ?_⟩
  · intro p hp
    rw [hp]
    exact payloadOf_shape '|' 'T' p
  · intro st s l hl hs
    obtain ⟨t, ht⟩ := BeginsWith_data row '|' 'T' hb
    have hstep := rowStep_directive E st s l 'T' t (by rw [hl]; exact ht)
    have hres' : HandlePipeChars E s.stepsTiming (E.StripCrnl l) s.fCurBeat s.iTickCount
        = .ok (true,
            s.stepsTiming.SetTickcountAtBeat s.fCurBeat
              (clamp (floatToInt (E.StringToFloat (payloadOf row))) 0 ROWS_PER_BEAT),
            floatToInt (E.StringToFloat (payloadOf row))) := by
      rw [hl]
      unfold HandlePipeChars
      rw [substr_payload row h3 hlt]
      dsimp only
      rw [if_pos hb]
    rw [hres'] at hstep
    refine ⟨_, hstep, rfl, rfl, rfl, fun r => ?_⟩
    obtain ⟨b1, b2, -⟩ := decodeNoteRow_beat st
      { s with stepsTiming := s.stepsTiming.SetTickcountAtBeat s.fCurBeat
                 (clamp (floatToInt (E.StringToFloat (payloadOf row))) 0 ROWS_PER_BEAT),
               iTickCount := floatToInt (E.StringToFloat (payloadOf row)) } r hs
    exact ⟨b2, b1⟩

/-- The line `|T8|` read at beat 0 with the tick count 4: the payload is `8`, the
tick segment `(0, 8)` is recorded and the tick count becomes 8. -/
theorem tick_directive_witness :
    HandlePipeChars (sampleExt []) TimingData.empty "|T8|" 0 4
      = .ok (true, ⟨0, [], [], [⟨0, 8⟩]⟩, 8) :=
  (tick_directive (sampleExt []) TimingData.empty "|T8|" 0 4 (by decide) (by decide)
    (by decide)).1.trans (by with_unfolding_all rfl)

/-! ## Stops and delays -/

theorem find_replaceFirst_self {α : Type} (p : α → Bool) (x : α) (l l' : List α)
    (hx : p x = true) (h : replaceFirst p x l = some l') : l'.find? p = some x := by
  induction l generalizing l' with
  | nil => cases h
  | cons y ys ih =>
    unfold replaceFirst at h
    split_ifs at h with c
    · cases h
      rw [List.find?_cons, hx]
    · cases hr : replaceFirst p x ys with
      | none => rw [hr] at h; cases h
      | some l1 =>
        rw [hr] at h
        cases h
        rw [List.find?_cons]
        simp only [Bool.not_eq_true] at c
        rw [c]
        exact ih l1 hr

theorem replaceFirst_none {α : Type} (p : α → Bool) (x : α) (l : List α)
    (h : replaceFirst p x l = none) : l.find? p = none := by
  induction l with
  | nil => rfl
  | cons y ys ih =>
    unfold replaceFirst at h
    split_ifs at h with c
    cases hr : replaceFirst p x ys with
    | none =>
      rw [List.find?_cons]
      simp only [Bool.not_eq_true] at c
      rw [c]
      exact ih hr
    | some l1 => rw [hr] at h; cases h

theorem find_insertByRow_self {α : Type} (key : α → Int) (p : α → Bool) (x : α) (l : List α)
    (hx : p x = true) (h : l.find? p = none) : (insertByRow key x l).find? p = some x := by
  induction l with
  | nil =>
    unfold insertByRow
    rw [List.find?_cons, hx]
  | cons y ys ih =>
    rw [List.find?_cons] at h
    unfold insertByRow
    split_ifs with c
    · rw [List.find?_cons, hx]
    · cases hy : p y with
      | true => rw [hy] at h; cases h
      | false =>
        rw [hy] at h
        rw [List.find?_cons, hy]
        exact ih h

theorem find_replaceFirst_other {α : Type} (p q : α → Bool) (x : α) (l l' : List α)
    (hpq : ∀ y, p y = true → q y = false) (hx : q x = false)
    (h : replaceFirst p x l = some l') : l'.find? q = l.find? q := by
  induction l generalizing l' with
  | nil => cases h
  | cons y ys ih =>
    unfold replaceFirst at h
    split_ifs at h with c
    · cases h
      rw [List.find?_cons, hx, List.find?_cons, hpq y c]
    · cases hr : replaceFirst p x ys with
      | none => rw [hr] at h; cases h
      | some l1 =>
        rw [hr] at h
        cases h
        rw [List.find?_cons, List.find?_cons, ih l1 hr]

theorem find_insertByRow_other {α : Type} (key : α → Int) (q : α → Bool) (x : α) (l : List α)
    (hx : q x = false) : (insertByRow key x l).find? q = l.find? q := by
  induction l with
  | nil =>
    unfold insertByRow
    rw [List.find?_cons, hx]
  | cons y ys ih =>
    unfold insertByRow
    split_ifs with c
    · rw [List.find?_cons, hx]
    · rw [List.find?_cons, List.find?_cons, ih]

theorem SetStopAtBeat_frame (t : TimingData) (b d : ℚ) (fl : Bool) :
    (t.SetStopAtBeat b d fl).m_BPMSegments = t.m_BPMSegments
    ∧ (t.SetStopAtBeat b d fl).m_TickcountSegments = t.m_TickcountSegments
    ∧ (t.SetStopAtBeat b d fl).m_fBeat0OffsetInSeconds = t.m_fBeat0OffsetInSeconds
    ∧ (⟨BeatToNoteRow b, d, fl⟩ : StopSegment) ∈ (t.SetStopAtBeat b d fl).m_StopSegments := by
  unfold TimingData.SetStopAtBeat
  dsimp only
  split
  · next l hl => exact ⟨rfl, rfl, rfl, replaceFirst_mem _ _ _ _ hl⟩
  · exact ⟨rfl, rfl, rfl, mem_insertByRow _ _ _⟩

theorem SetStopAtBeat_find (t : TimingData) (b d : ℚ) (fl : Bool) :
    (t.SetStopAtBeat b d fl).m_StopSegments.find?
        (fun s : StopSegment => s.m_bDelay == fl && s.m_iStartRow == BeatToNoteRow b)
      = some ⟨BeatToNoteRow b, d, fl⟩ := by
  have hx : (fun s : StopSegment => s.m_bDelay == fl && s.m_iStartRow == BeatToNoteRow b)
      ⟨BeatToNoteRow b, d, fl⟩ = true := by simp
  unfold TimingData.SetStopAtBeat
  dsimp only
  split
  · next l hl =>
    exact find_replaceFirst_self
      (fun s : StopSegment => s.m_bDelay == fl && s.m_iStartRow == BeatToNoteRow b)
      ⟨BeatToNoteRow b, d, fl⟩ _ _ hx hl
  · next hl =>
    exact find_insertByRow_self StopSegment.m_iStartRow
      (fun s : StopSegment => s.m_bDelay == fl && s.m_iStartRow == BeatToNoteRow b)
      ⟨BeatToNoteRow b, d, fl⟩ _ hx
      (replaceFirst_none
        (fun s : StopSegment => s.m_bDelay == fl && s.m_iStartRow == BeatToNoteRow b)
        ⟨BeatToNoteRow b, d, fl⟩ _ hl)

theorem SetStopAtBeat_find_other (t : TimingData) (b d : ℚ) (fl : Bool) (iRow : Int) :
    (t.SetStopAtBeat b d fl).m_StopSegments.find?
        (fun s : StopSegment => s.m_bDelay == !fl && s.m_iStartRow == iRow)
      = t.m_StopSegments.find?
        (fun s : StopSegment => s.m_bDelay == !fl && s.m_iStartRow == iRow) := by
  have hx : (fun s : StopSegment => s.m_bDelay == !fl && s.m_iStartRow == iRow)
      ⟨BeatToNoteRow b, d, fl⟩ = false := by cases fl <;> simp
  have hpq : ∀ y : StopSegment,
      (fun s : StopSegment => s.m_bDelay == fl && s.m_iStartRow == BeatToNoteRow b) y = true →
      (fun s : StopSegment => s.m_bDelay == !fl && s.m_iStartRow == iRow) y = false := by
    intro y hy
    simp only [Bool.and_eq_true, beq_iff_eq] at hy
    simp [hy.1]
  unfold TimingData.SetStopAtBeat
  dsimp only
  split
  · next l hl =>
    exact find_replaceFirst_other
      (fun s : StopSegment => s.m_bDelay == fl && s.m_iStartRow == BeatToNoteRow b)
      (fun s : StopSegment => s.m_bDelay == !fl && s.m_iStartRow == iRow)
      ⟨BeatToNoteRow b, d, fl⟩ _ _ hpq hx hl
  · exact find_insertByRow_other StopSegment.m_iStartRow
      (fun s : StopSegment => s.m_bDelay == !fl && s.m_iStartRow == iRow)
      ⟨BeatToNoteRow b, d, fl⟩ _ hx

theorem GetStopAtRowFlavor_SetStopAtBeat (t : TimingData) (b d : ℚ) (fl : Bool) :
    (t.SetStopAtBeat b d fl).GetStopAtRowFlavor (BeatToNoteRow b) fl = d := by
  unfold TimingData.GetStopAtRowFlavor
  rw [SetStopAtBeat_find]

theorem GetStopAtRowFlavor_SetStopAtBeat_other (t : TimingData) (b d : ℚ) (fl : Bool)
    (iRow : Int) :
    (t.SetStopAtBeat b d fl).GetStopAtRowFlavor iRow (!fl) = t.GetStopAtRowFlavor iRow (!fl) := by
  unfold TimingData.GetStopAtRowFlavor
  rw [SetStopAtBeat_find_other]

theorem HandlePipeChars_E (E : Ext) (timing : TimingData) (row : String) (fCurBeat : ℚ)
    (iTickCount : Int) (hb : BeginsWith row "|E" = true) (h3 : 3 ≤ row.length)
    (hlt : row.length < SIZE_MODULUS) :
    HandlePipeChars E timing row fCurBeat iTickCount
      = .ok (true,
          timing.SetStopAtBeat fCurBeat
            (60 / timing.GetBPMAtBeat fCurBeat * E.StringToFloat (payloadOf row) / iTickCount
              + timing.GetDelayAtRow (BeatToNoteRow fCurBeat)) true,
          iTickCount) := by
  obtain ⟨t, ht⟩ := BeginsWith_data row '|' 'E' hb
  have hT : BeginsWith row "|T" = false := BeginsWith_of_data row '|' 'E' '|' 'T' t ht
  have hB : BeginsWith row "|B" = false := BeginsWith_of_data row '|' 'E' '|' 'B' t ht
  unfold HandlePipeChars
  rw [substr_payload row h3 hlt]
  dsimp only
  rw [hT, hB, hb]
  rfl

/-- C19: a line `|E<p>|` read at beat `b` with the tick count `k`. `HandlePipeChars`
returns true and sets the delay-flavoured stop at the row of `b` to
`60 / tempoAt(b) * p / k` plus the duration of the delay that was at that row
before, so that this sum is the delay read back at that row afterwards; the
tempo segments, the tick segments and the tick count are unchanged. The `k` of
the formula is the tick count held by the row loop when the line is read. -/
theorem stop_directive (E : Ext) (timing : TimingData) (row : String) (fCurBeat : ℚ)
    (iTickCount : Int) (hb : BeginsWith row "|E" = true) (h3 : 3 ≤ row.length)
    (hlt : row.length < SIZE_MODULUS) :
    HandlePipeChars E timing row fCurBeat iTickCount
        = .ok (true,
            timing.SetStopAtBeat fCurBeat
              (60 / timing.GetBPMAtBeat fCurBeat * E.StringToFloat (payloadOf row) / iTickCount
                + timing.GetDelayAtRow (BeatToNoteRow fCurBeat)) true,
            iTickCount)
    ∧ (∀ p : String, row = "|E" ++ p ++ "|" → payloadOf row = p)
    ∧ (timing.SetStopAtBeat fCurBeat
          (60 / timing.GetBPMAtBeat fCurBeat * E.StringToFloat (payloadOf row) / iTickCount
            + timing.GetDelayAtRow (BeatToNoteRow fCurBeat)) true).GetDelayAtRow
          (BeatToNoteRow fCurBeat)
        = 60 / timing.GetBPMAtBeat fCurBeat * E.StringToFloat (payloadOf row) / iTickCount
            + timing.GetDelayAtRow (BeatToNoteRow fCurBeat)
    ∧ (⟨BeatToNoteRow fCurBeat,
          60 / timing.GetBPMAtBeat fCurBeat * E.StringToFloat (payloadOf row) / iTickCount
            + timing.GetDelayAtRow (BeatToNoteRow fCurBeat), true⟩ : StopSegment)
        ∈ (timing.SetStopAtBeat fCurBeat
            (60 / timing.GetBPMAtBeat fCurBeat * E.StringToFloat (payloadOf row) / iTickCount
              + timing.GetDelayAtRow (BeatToNoteRow fCurBeat)) true).m_StopSegments
    ∧ (timing.SetStopAtBeat fCurBeat
          (60 / timing.GetBPMAtBeat fCurBeat * E.StringToFloat (payloadOf row) / iTickCount
            + timing.GetDelayAtRow (BeatToNoteRow fCurBeat)) true).m_BPMSegments
        = timing.m_BPMSegments
    ∧ (timing.SetStopAtBeat fCurBeat
          (60 / timing.GetBPMAtBeat fCurBeat * E.StringToFloat (payloadOf row) / iTickCount
            + timing.GetDelayAtRow (BeatToNoteRow fCurBeat)) true).m_TickcountSegments
        = timing.m_TickcountSegments
    ∧ (∀ (st : StepsType) (s : RowState) (l : String), E.StripCrnl l = row →
        rowStep E false st s l
          = .ok ({ s with stepsTiming := (s.stepsTiming.SetStopAtBeat s.fCurBeat
                    (60 / s.stepsTiming.GetBPMAtBeat s.fCurBeat
                        * E.StringToFloat (payloadOf row) / s.iTickCount
                      + s.stepsTiming.GetDelayAtRow (BeatToNoteRow s.fCurBeat)) true) },
                 false)) := by
  obtain ⟨f1, f2, -, f4⟩ := SetStopAtBeat_frame timing fCurBeat
    (60 / timing.GetBPMAtBeat fCurBeat * E.StringToFloat (payloadOf row) / iTickCount
      + timing.GetDelayAtRow (BeatToNoteRow fCurBeat)) true
  refine ⟨HandlePipeChars_E E timing row fCurBeat iTickCount hb h3 hlt, ?_,
    GetStopAtRowFlavor_SetStopAtBeat _ _ _ _, f4, f1, f2, ?_⟩
  · intro p hp
    rw [hp]
    exact payloadOf_shape '|' 'E' p
  · intro st s l hl
    obtain ⟨t, ht⟩ := BeginsWith_data row '|' 'E' hb
    rw [rowStep_directive E st s l 'E' t (by rw [hl]; exact ht), hl,
      HandlePipeChars_E E s.stepsTiming row s.fCurBeat s.iTickCount hb h3 hlt]

/-- The line `|E2|` read at beat 0 with the tempo 120 and the tick count 4 stores
the delay `60 / 120 * 2 / 4 = 1/4` at row 0. -/
theorem stop_directive_witness :
    HandlePipeChars (sampleExt []) (TimingData.empty.SetBPMAtBeat 0 120) "|E2|" 0 4
      = .ok (true, ⟨0, [⟨0, 120⟩], [⟨0, 1 / 4, true⟩], []⟩, 4) :=
  (stop_directive (sampleExt []) (TimingData.empty.SetBPMAtBeat 0 120) "|E2|" 0 4 (by decide)
    (by decide) (by decide)).1.trans (by with_unfolding_all rfl)

/-- C17: the tick count is not positive at every beat advance. The header record
`TICKCOUNT` with a value `<= 0` makes the per-chart pass return false, but the
inline directive is not checked: in the rows `10000`, `|T0|`, `01000`, `00100`
read with the tick count 4 the rows `01000` and `00100` are decoded with the
tick count 0, and with `|T-48|` in place of `|T0|` they are decoded with the
tick count -48 and the beat decreases. The chart file with these rows is loaded
and its timing track carries the tick segment `(12, 0)`. -/
theorem inline_tick_count_not_positive :
    (decodeTrace (sampleExt []) false .StepsType_pump_single ["10000", "|T0|", "01000", "00100"]
        (RowState.init TimingData.empty (NoteData.empty.SetNumTracks 5) 4)).map
        (fun p => (p.1, p.2.iTickCount, p.2.fCurBeat))
      = [("10000", 4, 0), ("|T0|", 4, 1 / 4), ("01000", 0, 1 / 4), ("00100", 0, 1 / 4)]
    ∧ (decodeTrace (sampleExt []) false .StepsType_pump_single
        ["10000", "|T-48|", "01000", "00100"]
        (RowState.init TimingData.empty (NoteData.empty.SetNumTracks 5) 4)).map
        (fun p => (p.1, p.2.iTickCount, p.2.fCurBeat))
      = [("10000", 4, 0), ("|T-48|", 4, 1 / 4), ("01000", -48, 1 / 4),
          ("00100", -48, 1 / 4 - 1 / 48)]
    ∧ (LoadFromKSFFile
        (sampleExt [("a_1.ksf", [["TICKCOUNT", "4"],
          ["STEP", "10000\n|T0|\n01000\n00100\n2222222222222\n"]])])
        "a_1.ksf" Steps.fresh false).toOption.map
        (fun o => o.m_Timing.m_TickcountSegments) = some [⟨12, 0⟩]
    ∧ LoadFromKSFFile
        (sampleExt [("a_1.ksf", [["TICKCOUNT", "0"],
          ["STEP", "10000\n01000\n00100\n2222222222222\n"]])])
        "a_1.ksf" Steps.fresh false = .error .returnedFalse := by
  refine ⟨by with_unfolding_all rfl, by with_unfolding_all rfl, by with_unfolding_all rfl,
    by with_unfolding_all rfl⟩

/-! ## Pipe lines in the newer dialect -/

theorem readValue_flag (E : Ext) (h h' : KSFHeader) (v : List String)
    (hk : h.bKIUCompliant = true) (hr : readValue E h v = .ok h') :
    h'.bKIUCompliant = true := by
  revert hr
  unfold readValue
  dsimp only
  by_cases c0 : (decide (E.MakeUpper (param v 0) = "TITLE")
      || EndsWith (E.MakeUpper (param v 0)) "INTRO"
      || EndsWith (E.MakeUpper (param v 0)) "FILE") = true
  · rw [if_pos c0]; intro hr; cases hr; exact hk
  rw [if_neg c0]
  by_cases c : E.MakeUpper (param v 0) = "BPM"
  · rw [if_pos c]; intro hr; cases hr; exact hk
  rw [if_neg c]
  clear c
  by_cases c : E.MakeUpper (param v 0) = "BPM2"
  · rw [if_pos c, if_pos hk]; intro hr; cases hr; exact hk
  rw [if_neg c]
  clear c
  by_cases c : E.MakeUpper (param v 0) = "BPM3"
  · rw [if_pos c, if_pos hk]; intro hr; cases hr; exact hk
  rw [if_neg c]
  clear c
  by_cases c : E.MakeUpper (param v 0) = "BUNKI"
  · rw [if_pos c, if_pos hk]; intro hr; cases hr; exact hk
  rw [if_neg c]
  clear c
  by_cases c : E.MakeUpper (param v 0) = "BUNKI2"
  · rw [if_pos c, if_pos hk]; intro hr; cases hr; exact hk
  rw [if_neg c]
  clear c
  by_cases c : E.MakeUpper (param v 0) = "STARTTIME"
  · rw [if_pos c]; intro hr; cases hr; exact hk
  rw [if_neg c]
  clear c
  by_cases c : E.MakeUpper (param v 0) = "STARTTIME2"
  · rw [if_pos c, if_pos hk]; intro hr; cases hr; exact hk
  rw [if_neg c]
  clear c
  by_cases c : E.MakeUpper (param v 0) = "STARTTIME3"
  · rw [if_pos c]; intro hr; cases hr; rfl
  rw [if_neg c]
  clear c
  by_cases c : E.MakeUpper (param v 0) = "TICKCOUNT"
  · rw [if_pos c]
    intro hr
    split at hr
    · cases hr
    · cases hr; exact hk
  rw [if_neg c]
  clear c
  by_cases c : E.MakeUpper (param v 0) = "DIFFICULTY"
  · rw [if_pos c]; intro hr; cases hr; exact hk
  rw [if_neg c]
  clear c
  by_cases c : E.MakeUpper (param v 0) = "PLAYER"
  · rw [if_pos c]
    intro hr
    split at hr <;> cases hr <;> exact hk
  rw [if_neg c]
  clear c
  by_cases c : E.MakeUpper (param v 0) = "STEP"
  · rw [if_pos c]; intro hr; cases hr; exact hk
  rw [if_neg c]
  intro hr; cases hr; exact hk

theorem readValues_flag (E : Ext) (values : List (List String)) (h h' : KSFHeader)
    (hk : h.bKIUCompliant = true) (hr : readValues E values h = .ok h') :
    h'.bKIUCompliant = true := by
  induction values generalizing h with
  | nil => cases hr; exact hk
  | cons v rest ih =>
    rw [readValues_cons] at hr
    cases hv : readValue E h v with
    | error e => rw [hv] at hr; cases hr
    | ok h1 =>
      rw [hv] at hr
      exact ih h1 (readValue_flag E h h1 v hk hv) hr

theorem rowStep_pipe_skipped (E : Ext) (st : StepsType) (s : RowState) (r : String)
    (hp : BeginsWith (E.StripCrnl r) "|" = true) : rowStep E true st s r = .ok (s, false) := by
  unfold rowStep
  dsimp only
  by_cases h1 : E.StripCrnl r = ""
  · rw [if_pos h1]
  rw [if_neg h1]
  have h2 : E.StripCrnl r ≠ SENTINEL := by
    intro c
    rw [c] at hp
    exact absurd hp (by decide)
  rw [if_neg h2, if_pos hp]
  rfl

theorem decodeRows_without_pipes (E : Ext) (st : StepsType) (rows : List String)
    (s : RowState) :
    decodeRows E true st (rows.filter (fun r => !BeginsWith (E.StripCrnl r) "|")) s
      = decodeRows E true st rows s := by
  induction rows generalizing s with
  | nil => rfl
  | cons r rest ih =>
    by_cases hp : BeginsWith (E.StripCrnl r) "|" = true
    · rw [List.filter_cons_of_neg (by simp [hp]), decodeRows_cons,
        rowStep_pipe_skipped E st s r hp]
      exact ih s
    · rw [List.filter_cons_of_pos (by simpa using hp), decodeRows_cons, decodeRows_cons]
      cases rowStep E true st s r with
      | error e => rfl
      | ok q =>
        obtain ⟨s1, fl⟩ := q
        cases fl
        · exact ih s1
        · rfl

/-- C16: the per-chart pass called with the dialect flag true. Every line that
begins with `|` once its line end is stripped is skipped without effect: the
row loop leaves its state as it was, and the pass gives the chart (note grid,
timing and all other fields) that it gives for the same records with all such
lines deleted from the note rows. `HandlePipeChars` is not called in that pass,
so that the pass raises no exception, whatever the pipe lines are. -/
theorem kiu_pass_skips_pipe_lines (E : Ext) (sPath : String) (out : Steps)
    (values : List (List String)) (h : KSFHeader) (hread : E.ReadFile sPath = some values)
    (hh : readValues E values (KSFHeader.init out true) = .ok h) :
    LoadFromKSFFile E sPath out true
        = (match buildSteps E sPath
              { h with vNoteRows :=
                  h.vNoteRows.filter (fun r => !BeginsWith (E.StripCrnl r) "|") } with
           | .error e => .error e
           | .ok o => .ok ((E.TidyUpData o).SetSavedToDisk true))
    ∧ (∃ o, LoadFromKSFFile E sPath out true = .ok o)
    ∧ (∀ (st : StepsType) (s : RowState) (r : String),
        BeginsWith (E.StripCrnl r) "|" = true → rowStep E true st s r = .ok (s, false))
    ∧ (∀ (st : StepsType) (s : RowState),
        decodeRows E true st (h.vNoteRows.filter (fun r => !BeginsWith (E.StripCrnl r) "|")) s
          = decodeRows E true st h.vNoteRows s) := by
  have hk : h.bKIUCompliant = true := readValues_flag E values _ h rfl hh
  have hb : buildSteps E sPath
      { h with vNoteRows := h.vNoteRows.filter (fun r => !BeginsWith (E.StripCrnl r) "|") }
      = buildSteps E sPath h := by
    cases h
    dsimp only at hk
    subst hk
    unfold buildSteps
    simp only [decodeRows_without_pipes]
    rfl
  have hl : LoadFromKSFFile E sPath out true
      = (match buildSteps E sPath h with
         | .error e => .error e
         | .ok o => .ok ((E.TidyUpData o).SetSavedToDisk true)) := by
    unfold LoadFromKSFFile LoadSteps
    rw [hread]
    dsimp only
    rw [hh]
  refine ⟨by rw [hb]; exact hl, ?_, fun st s r hp => rowStep_pipe_skipped E st s r hp,
    fun st s => decodeRows_without_pipes E st h.vNoteRows s⟩
  rw [hl]
  cases hbs : buildSteps E sPath h with
  | error e =>
    have := (buildSteps_error E sPath h e hbs).2
    rw [hk] at this
    cases this
  | ok o => exact ⟨_, rfl⟩

/-- A chart whose rows hold the one-character line `|` and the line `|T0|` is
loaded in the newer dialect. -/
theorem kiu_pass_skips_pipe_lines_witness :
    ∃ o, LoadFromKSFFile
      (sampleExt [("a_1.ksf", [["TICKCOUNT", "4"],
        ["STEP", "10000\n|\n|T0|\n01000\n2222222222222\n"]])])
      "a_1.ksf" Steps.fresh true = .ok o := by
  obtain ⟨h, hh⟩ : ∃ h, readValues
      (sampleExt [("a_1.ksf", [["TICKCOUNT", "4"],
        ["STEP", "10000\n|\n|T0|\n01000\n2222222222222\n"]])])
      [["TICKCOUNT", "4"], ["STEP", "10000\n|\n|T0|\n01000\n2222222222222\n"]]
      (KSFHeader.init Steps.fresh true) = .ok h := ⟨_, by with_unfolding_all rfl⟩
  exact (kiu_pass_skips_pipe_lines _ "a_1.ksf" Steps.fresh _ h rfl hh).2.1

/-! ## The dialect flag of `LoadGlobalData` -/

theorem readGlobalValue_step (G : SongExt) (g : GlobalHeader) (v : List String) :
    (readGlobalValue G g v).bKIUCompliant
        = (g.bKIUCompliant || decide (G.MakeUpper (param v 0) ∈ kiuTags))
    ∧ (readGlobalValue G g v).vNoteRows
        = (if G.MakeUpper (param v 0) = "STEP"
            then G.split (G.TrimLeft (param v 1)) "\n" g.vNoteRows true else g.vNoteRows)
    ∧ (readGlobalValue G g v).iTickCount
        = (if G.MakeUpper (param v 0) = "TICKCOUNT"
            then (if G.StringToInt (param v 1) > 0 then G.StringToInt (param v 1) else 2)
            else g.iTickCount) := by
  unfold readGlobalValue
  dsimp only
  generalize G.MakeUpper (param v 0) = n
  by_cases c1 : n = "TITLE"
  · subst c1; simp [kiuTags]
  by_cases c2 : n = "BPM"
  · subst c2; simp [kiuTags]
  by_cases c3 : n = "BPM2"
  · subst c3; simp [kiuTags]
  by_cases c4 : n = "BPM3"
  · subst c4; simp [kiuTags]
  by_cases c5 : n = "BUNKI"
  · subst c5; simp [kiuTags]
  by_cases c6 : n = "BUNKI2"
  · subst c6; simp [kiuTags]
  by_cases c7 : n = "STARTTIME"
  · subst c7; simp [kiuTags]
  by_cases c8 : n = "STARTTIME2"
  · subst c8; simp [kiuTags]
  by_cases c9 : n = "STARTTIME3"
  · subst c9; simp [kiuTags]
  by_cases c10 : n = "TICKCOUNT"
  · subst c10; simp [kiuTags]
  by_cases c11 : n = "STEP"
  · subst c11; simp [kiuTags]
  by_cases c12 : n = "DIFFICULTY"
  · subst c12; simp [kiuTags]
  by_cases c13 : n = "MUSICINTRO"
  · subst c13; simp [kiuTags]
  by_cases c14 : n = "INTRO"
  · subst c14; simp [kiuTags]
  by_cases c15 : n = "TITLEFILE"
  · subst c15; simp [kiuTags]
  by_cases c16 : n = "DISCFILE"
  · subst c16; simp [kiuTags]
  by_cases c17 : n = "SONGFILE"
  · subst c17; simp [kiuTags]
  simp [kiuTags, c1, c2, c3, c4, c5, c6, c7, c8, c9, c10, c11, c12, c13, c14, c15, c16, c17]

theorem readGlobalValues_cons (G : SongExt) (v : List String) (rest : List (List String))
    (g : GlobalHeader) :
    readGlobalValues G (v :: rest) g = readGlobalValues G rest (readGlobalValue G g v) := rfl

theorem readGlobalValues_flag (G : SongExt) (values : List (List String)) (g : GlobalHeader) :
    (readGlobalValues G values g).bKIUCompliant = (g.bKIUCompliant || hasKIUTag G values) := by
  induction values generalizing g with
  | nil => simp [readGlobalValues, hasKIUTag]
  | cons v rest ih =>
    rw [readGlobalValues_cons, ih, (readGlobalValue_step G g v).1]
    unfold hasKIUTag
    rw [List.any_cons, Bool.or_assoc]

theorem readGlobalValues_vNoteRows (G : SongExt) (values : List (List String))
    (g : GlobalHeader) :
    (readGlobalValues G values g).vNoteRows
      = values.foldl (fun rows v =>
          if G.MakeUpper (param v 0) = "STEP"
            then G.split (G.TrimLeft (param v 1)) "\n" rows true
          else rows) g.vNoteRows := by
  induction values generalizing g with
  | nil => rfl
  | cons v rest ih =>
    rw [readGlobalValues_cons, ih, (readGlobalValue_step G g v).2.1]
    rfl

theorem HandlePipeChars_ok_of_length (E : Ext) (timing : TimingData) (row : String) (beat : ℚ)
    (tick : Int) (h : 2 ≤ row.length) :
    ∃ r, HandlePipeChars E timing row beat tick = .ok r := by
  cases hr : HandlePipeChars E timing row beat tick with
  | error e =>
    have := (HandlePipeChars_error E timing row beat tick e hr).2
    omega
  | ok r => exact ⟨r, rfl⟩

theorem isDirective_length (row : String) (h : isDirective row = true) : 2 ≤ row.length := by
  have key : ∀ a b : Char, BeginsWith row (String.mk [a, b]) = true → 2 ≤ row.length := by
    intro a b hab
    obtain ⟨t, ht⟩ := BeginsWith_data row a b hab
    have hl : row.length = row.data.length := rfl
    rw [hl, ht]
    simp
  unfold isDirective at h
  simp only [Bool.or_eq_true] at h
  rcases h with ((h | h) | h) | h
  · exact key '|' 'T' h
  · exact key '|' 'B' h
  · exact key '|' 'D' h
  · exact key '|' 'E' h

theorem reachesSentinelFirst_nil (G : SongExt) : ¬ reachesSentinelFirst G [] := by
  rintro ⟨pre, l, post, h, -⟩
  cases pre <;> cases h

theorem reachesSentinelFirst_sentinel (G : SongExt) (r : String) (rest : List String)
    (h : G.StripCrnl r = SENTINEL) : reachesSentinelFirst G (r :: rest) :=
  ⟨[], r, rest, rfl, h, fun q hq => absurd hq (List.not_mem_nil q)⟩

theorem reachesSentinelFirst_directive (G : SongExt) (r : String) (rest : List String)
    (h1 : G.StripCrnl r ≠ SENTINEL) (h2 : isDirective (G.StripCrnl r) = true) :
    ¬ reachesSentinelFirst G (r :: rest) := by
  rintro ⟨pre, l, post, h, hl, hpre⟩
  cases pre with
  | nil =>
    cases h
    exact h1 hl
  | cons p pre' =>
    cases h
    have := (hpre r (List.mem_cons_self _ _)).2
    rw [h2] at this
    cases this

theorem reachesSentinelFirst_skip (G : SongExt) (r : String) (rest : List String)
    (h1 : G.StripCrnl r ≠ SENTINEL) (h2 : isDirective (G.StripCrnl r) = false) :
    reachesSentinelFirst G (r :: rest) ↔ reachesSentinelFirst G rest := by
  constructor
  · rintro ⟨pre, l, post, h, hl, hpre⟩
    cases pre with
    | nil =>
      cases h
      exact absurd hl h1
    | cons p pre' =>
      cases h
      exact ⟨pre', l, post, rfl, hl, fun q hq => hpre q (List.mem_cons_of_mem _ hq)⟩
  · rintro ⟨pre, l, post, h, hl, hpre⟩
    refine ⟨r :: pre, l, post, by rw [h]; rfl, hl, fun q hq => ?_⟩
    rcases List.mem_cons.1 hq with hq | hq
    · rw [hq]; exact ⟨h1, h2⟩
    · exact hpre q hq

theorem scanRows_cons (G : SongExt) (r : String) (rest : List String) (s : ScanState) :
    scanRows G (r :: rest) s =
      match scanStep G s r with
      | .error e => .error e
      | .ok (s', true) => .ok s'
      | .ok (s', false) => scanRows G rest s' := rfl

theorem scanRows_flag (G : SongExt) (rows : List String) (s : ScanState)
    (hk : s.bKIUCompliant = false) :
    ∃ s', scanRows G rows s = .ok s'
      ∧ (s'.bKIUCompliant = true ↔ (s.bDMRequired = false ∧ reachesSentinelFirst G rows)) := by
  induction rows generalizing s with
  | nil =>
    refine ⟨s, rfl, ?_⟩
    rw [hk]
    exact ⟨fun h => (by cases h), fun h => absurd h.2 (reachesSentinelFirst_nil G)⟩
  | cons r rest ih =>
    rw [scanRows_cons]
    unfold scanStep
    dsimp only
    by_cases h1 : G.StripCrnl r = ""
    · rw [if_pos h1]
      dsimp only
      obtain ⟨s', hs', hiff⟩ := ih s hk
      refine ⟨s', hs', ?_⟩
      rw [hiff, reachesSentinelFirst_skip G r rest (by rw [h1]; decide) (by rw [h1]; rfl)]
    rw [if_neg h1]
    by_cases h2 : G.StripCrnl r = SENTINEL
    · rw [if_pos h2]
      dsimp only
      refine ⟨_, rfl, ?_⟩
      cases hd : s.bDMRequired with
      | false =>
        exact ⟨fun _ => ⟨rfl, reachesSentinelFirst_sentinel G r rest h2⟩, fun _ => rfl⟩
      | true =>
        refine ⟨fun h => ?_, fun h => (by cases h.1)⟩
        rw [if_neg (by decide), hk] at h
        cases h
    rw [if_neg h2]
    by_cases h3 : isDirective (G.StripCrnl r) = true
    · rw [if_pos h3]
      obtain ⟨res, hres⟩ := HandlePipeChars_ok_of_length G.toExt s.timing (G.StripCrnl r)
        s.fCurBeat s.iTickCount (isDirective_length _ h3)
      obtain ⟨fl, timing, tick⟩ := res
      rw [hres]
      dsimp only
      obtain ⟨s', hs', hiff⟩ := ih
        { s with bDMRequired := true, timing := timing, iTickCount := tick } hk
      refine ⟨s', hs', ?_⟩
      rw [hiff]
      constructor
      · intro h
        cases h.1
      · intro h
        exact absurd h.2 (reachesSentinelFirst_directive G r rest h2 h3)
    · rw [if_neg h3]
      dsimp only
      obtain ⟨s', hs', hiff⟩ := ih
        { s with fCurBeat := s.fCurBeat + 1 / (s.iTickCount : ℚ) } hk
      refine ⟨s', hs', ?_⟩
      rw [hiff, reachesSentinelFirst_skip G r rest h2 (by simpa using h3)]

theorem globalTiming_flag (G : SongExt) (g : GlobalHeader) :
    ∃ t flag, globalTiming G g = .ok (t, flag)
      ∧ (g.bKIUCompliant = true → flag = true)
      ∧ (g.bKIUCompliant = false → (flag = true ↔ reachesSentinelFirst G g.vNoteRows)) := by
  unfold globalTiming
  cases hk : g.bKIUCompliant with
  | true =>
    rw [if_pos rfl]
    exact ⟨_, true, rfl, fun _ => rfl, fun h => (by cases h)⟩
  | false =>
    rw [if_neg (by decide)]
    obtain ⟨s', hs', hiff⟩ := scanRows_flag G g.vNoteRows
      { timing := g.out.m_SongTiming, iTickCount := g.iTickCount, fCurBeat := 0,
        bDMRequired := false, bKIUCompliant := false } rfl
    rw [hs']
    refine ⟨_, _, rfl, fun h => (by cases h), fun _ => ?_⟩
    rw [hiff]
    simp

/-- C15: the dialect flag that `LoadGlobalData` hands back, when the file can be
read (and its path has a directory part, so that the final assertion holds), does
not depend on the value of the flag passed in. It is true when a record of the
header is named `BPM2`, `BPM3`, `BUNKI`, `BUNKI2`, `STARTTIME2` or `STARTTIME3`;
when there is no such record it is true exactly when the scan of the note rows
reaches the sentinel row and no line before it is a directive `|T`, `|B`, `|D`
or `|E`, and false otherwise: when such a directive comes before the sentinel,
or when there is no sentinel row. -/
theorem dialect_flag_of_LoadGlobalData (G : SongExt) (sPath : String) (out : Song)
    (bIn : Bool) (values : List (List String)) (hread : G.ReadFile sPath = some values)
    (hpath : 1 < (G.split sPath "/" [] true).length) :
    ∃ out' flag, LoadGlobalData G sPath out bIn = .ok (out', flag)
      ∧ (∀ bIn', LoadGlobalData G sPath out bIn' = .ok (out', flag))
      ∧ (hasKIUTag G values = true → flag = true)
      ∧ (hasKIUTag G values = false →
          (flag = true ↔ reachesSentinelFirst G (noteRowsOf G values))) := by
  have hall : ∀ b b', LoadGlobalData G sPath out b' = LoadGlobalData G sPath out b :=
    fun _ _ => rfl
  unfold LoadGlobalData
  rw [hread]
  dsimp only
  generalize hg : readGlobalValues G values (GlobalHeader.init
    (if (G.GetDirListing (out.GetSongDir ++ "song.wav")
          (G.GetDirListing (out.GetSongDir ++ "song.ogg")
            (G.GetDirListing (out.GetSongDir ++ "song.oga")
              (G.GetDirListing (out.GetSongDir ++ "song.mp3") [])))).isEmpty = true
      then out
      else { out with m_sMusicFile :=
        (G.GetDirListing (out.GetSongDir ++ "song.wav")
          (G.GetDirListing (out.GetSongDir ++ "song.ogg")
            (G.GetDirListing (out.GetSongDir ++ "song.oga")
              (G.GetDirListing (out.GetSongDir ++ "song.mp3") [])))).getD 0 "" })) = g
  have hflag : g.bKIUCompliant = hasKIUTag G values := by
    rw [← hg, readGlobalValues_flag]
    rfl
  have hrows : g.vNoteRows = noteRowsOf G values := by
    rw [← hg, readGlobalValues_vNoteRows]
    rfl
  obtain ⟨t, flag, ht, hf1, hf2⟩ := globalTiming_flag G
    { g with out := { g.out with m_fMusicSampleLengthSeconds := 7 } }
  rw [ht]
  dsimp only
  rw [if_pos hpath]
  refine ⟨_, flag, rfl, fun _ => rfl, fun h => hf1 (hflag.trans h), fun h => ?_⟩
  rw [hf2 (hflag.trans h)]
  dsimp only
  rw [hrows]

/-- A file with the records `BPM2` and `BUNKI` is of the newer dialect. -/
theorem dialect_flag_of_LoadGlobalData_witness :
    ∃ out', LoadGlobalData
      (sampleSongExt [("Songs/x/a_1.ksf", [["BPM", "120"], ["BPM2", "150"], ["BUNKI", "300"],
        ["STEP", "10000\n2222222222222\n"]])] [])
      "Songs/x/a_1.ksf" (Song.fresh "Songs/x/") false = .ok (out', true) := by
  obtain ⟨out', flag, h1, -, h3, -⟩ := dialect_flag_of_LoadGlobalData
    (sampleSongExt [("Songs/x/a_1.ksf", [["BPM", "120"], ["BPM2", "150"], ["BUNKI", "300"],
      ["STEP", "10000\n2222222222222\n"]])] [])
    "Songs/x/a_1.ksf" (Song.fresh "Songs/x/") false _ rfl (by decide)
  exact ⟨out', by rw [h1, h3 (by decide)]⟩

/-! ## `KSFLoader::LoadFromDir` -/

theorem loadAllSteps_cons (G : SongExt) (b : Bool) (sName : String) (rest : List String)
    (out : Song) :
    loadAllSteps G b (sName :: rest) out =
      match LoadFromKSFFile G.toExt (out.GetSongDir ++ sName) out.CreateSteps b with
      | .ok pNewNotes => loadAllSteps G b rest (out.AddSteps pNewNotes)
      | .error .returnedFalse => loadAllSteps G b rest out
      | .error e => .error e := by
  rw [loadAllSteps]

theorem loadAllSteps_of_no_exception (G : SongExt) (b : Bool) (names : List String) (out : Song)
    (hno : ∀ n ∈ names, ∀ e,
      LoadFromKSFFile G.toExt (out.m_sSongDir ++ n) Steps.fresh b = .error e →
        e = .returnedFalse) :
    loadAllSteps G b names out
      = .ok { out with m_vpSteps := out.m_vpSteps ++ names.filterMap (fun n =>
          (LoadFromKSFFile G.toExt (out.m_sSongDir ++ n) Steps.fresh b).toOption) } := by
  induction names generalizing out with
  | nil =>
    unfold loadAllSteps
    simp
  | cons n rest ih =>
    rw [loadAllSteps_cons]
    have hn := hno n (List.mem_cons_self _ _)
    have hrest : ∀ m ∈ rest, ∀ e,
        LoadFromKSFFile G.toExt (out.m_sSongDir ++ m) Steps.fresh b = .error e →
          e = .returnedFalse := fun m hm => hno m (List.mem_cons_of_mem _ hm)
    show (match LoadFromKSFFile G.toExt (out.m_sSongDir ++ n) Steps.fresh b with
      | .ok pNewNotes => loadAllSteps G b rest (out.AddSteps pNewNotes)
      | .error .returnedFalse => loadAllSteps G b rest out
      | .error e => .error e) = _
    cases hl : LoadFromKSFFile G.toExt (out.m_sSongDir ++ n) Steps.fresh b with
    | error e =>
      have := hn e hl
      subst this
      dsimp only
      rw [ih out hrest, List.filterMap_cons, hl]
      rfl
    | ok o =>
      dsimp only
      rw [ih (out.AddSteps o) hrest, List.filterMap_cons, hl]
      simp [Song.AddSteps, Except.toOption]

theorem LoadFromDir_of_global_false (G : SongExt) (sDir : String) (out : Song)
    (hne : (G.GetDirListing (sDir ++ "*.ksf") []).length ≠ 0)
    (hg : LoadGlobalData G (out.GetSongDir ++ (G.GetDirListing (sDir ++ "*.ksf") []).getD 0 "")
      out false = .error .returnedFalse) :
    LoadFromDir G sDir out = .ok (false, out) := by
  unfold LoadFromDir
  dsimp only
  rw [if_neg hne, hg]

theorem LoadFromDir_of_global_true (G : SongExt) (sDir : String) (out out' : Song) (b : Bool)
    (hne : (G.GetDirListing (sDir ++ "*.ksf") []).length ≠ 0)
    (hg : LoadGlobalData G (out.GetSongDir ++ (G.GetDirListing (sDir ++ "*.ksf") []).getD 0 "")
      out false = .ok (out', b))
    (hno : ∀ n ∈ G.GetDirListing (sDir ++ "*.ksf") [], ∀ e,
      LoadFromKSFFile G.toExt (out'.m_sSongDir ++ n) Steps.fresh b = .error e →
        e = .returnedFalse) :
    LoadFromDir G sDir out
      = .ok (true, { out' with m_vpSteps := out'.m_vpSteps
          ++ (G.GetDirListing (sDir ++ "*.ksf") []).filterMap (fun n =>
            (LoadFromKSFFile G.toExt (out'.m_sSongDir ++ n) Steps.fresh b).toOption) }) := by
  unfold LoadFromDir
  dsimp only
  rw [if_neg hne, hg]
  dsimp only
  rw [loadAllSteps_of_no_exception G b _ out' hno]

/-- C14: `KSFLoader::LoadFromDir` does not return true for every directory whose
global-data pass succeeds. In the directory `Songs/x/` with the one file
`a_1.ksf` (records `TICKCOUNT` 4 and `STEP` with the lines `|T4|`, `|`, `10000`
and the sentinel) the global-data pass succeeds with the dialect flag false,
the per-chart pass of the file raises `std::out_of_range` on the line `|`, and
the exception leaves `LoadFromDir`: the chart is not discarded and nothing is
returned. With a second file `b_1.ksf` that has no such line listed first the
same happens: the chart of `a_1.ksf` is not skipped and that of `b_1.ksf` is
lost with it. -/
theorem LoadFromDir_raises_on_lone_pipe :
    (LoadGlobalData
        (sampleSongExt [("Songs/x/a_1.ksf", [["TICKCOUNT", "4"],
            ["STEP", "|T4|\n|\n10000\n2222222222222\n"]])]
          [("Songs/x/*.ksf", ["a_1.ksf"])])
        "Songs/x/a_1.ksf" (Song.fresh "Songs/x/") false).toOption.map (fun r => r.2) = some false
    ∧ LoadFromKSFFile
        (sampleExt [("Songs/x/a_1.ksf", [["TICKCOUNT", "4"],
            ["STEP", "|T4|\n|\n10000\n2222222222222\n"]])])
        "Songs/x/a_1.ksf" Steps.fresh false = .error .outOfRange
    ∧ LoadFromDir
        (sampleSongExt [("Songs/x/a_1.ksf", [["TICKCOUNT", "4"],
            ["STEP", "|T4|\n|\n10000\n2222222222222\n"]])]
          [("Songs/x/*.ksf", ["a_1.ksf"])])
        "Songs/x/" (Song.fresh "Songs/x/") = .error .outOfRange
    ∧ LoadFromDir
        (sampleSongExt [("Songs/x/b_1.ksf", [["TICKCOUNT", "4"],
            ["STEP", "|T4|\n10000\n2222222222222\n"]]),
          ("Songs/x/a_1.ksf", [["TICKCOUNT", "4"],
            ["STEP", "|T4|\n|\n10000\n2222222222222\n"]])]
          [("Songs/x/*.ksf", ["b_1.ksf", "a_1.ksf"])])
        "Songs/x/" (Song.fresh "Songs/x/") = .error .outOfRange := by
  refine ⟨by with_unfolding_all rfl, by with_unfolding_all rfl, by with_unfolding_all rfl,
    by with_unfolding_all rfl⟩

/-! ## Pipe lines that are no directive -/

theorem HandlePipeChars_unmatched (E : Ext) (timing : TimingData) (row : String) (beat : ℚ)
    (tick : Int) (hlen : 2 ≤ row.length)
    (hT : BeginsWith row "|T" = false) (hB : BeginsWith row "|B" = false)
    (hE : BeginsWith row "|E" = false) (hD : BeginsWith row "|D" = false) :
    HandlePipeChars E timing row beat tick = .ok (false, timing, tick) := by
  unfold HandlePipeChars substr
  rw [if_neg (by omega)]
  dsimp only
  rw [hT, hB, hE, hD]
  rfl

theorem rowStep_unmatched (E : Ext) (st : StepsType) (s : RowState) (l : String)
    (hp : BeginsWith (E.StripCrnl l) "|" = true) (hlen : 2 ≤ (E.StripCrnl l).length)
    (hT : BeginsWith (E.StripCrnl l) "|T" = false) (hB : BeginsWith (E.StripCrnl l) "|B" = false)
    (hE : BeginsWith (E.StripCrnl l) "|E" = false)
    (hD : BeginsWith (E.StripCrnl l) "|D" = false) :
    rowStep E false st s l = .ok (s, false) := by
  have h1 : E.StripCrnl l ≠ "" := by
    intro c
    rw [c] at hp
    exact absurd hp (by decide)
  have h2 : E.StripCrnl l ≠ SENTINEL := by
    intro c
    rw [c] at hp
    exact absurd hp (by decide)
  unfold rowStep
  dsimp only
  rw [if_neg h1, if_neg h2, if_pos hp, HandlePipeChars_unmatched E _ _ _ _ hlen hT hB hE hD]
  rfl

/-- C21: the one-character line `|` is not skipped in the older dialect. It
begins with `|` and with none of `|T`, `|B`, `|E`, `|D`, yet `HandlePipeChars`
does not return false on it: its first statement `sNoteRow.substr(2, size - 3)`
raises `std::out_of_range`, and the row loop, which handles no exception, fails
with it. A line of two or more characters such as `|X` is skipped as described:
the helper returns false and the state of the row loop is unchanged. -/
theorem unmatched_lone_pipe_raises :
    BeginsWith "|" "|" = true
    ∧ isDirective "|" = false
    ∧ HandlePipeChars (sampleExt []) TimingData.empty "|" 0 4 = .error .outOfRange
    ∧ rowStep (sampleExt []) false .StepsType_pump_single
        (RowState.init TimingData.empty (NoteData.empty.SetNumTracks 5) 4) "|"
          = .error .outOfRange
    ∧ decodeRows (sampleExt []) false .StepsType_pump_single ["10000", "|", "01000"]
        (RowState.init TimingData.empty (NoteData.empty.SetNumTracks 5) 4)
          = .error .outOfRange
    ∧ HandlePipeChars (sampleExt []) TimingData.empty "|X" 0 4 = .ok (false, TimingData.empty, 4)
    ∧ rowStep (sampleExt []) false .StepsType_pump_single
        (RowState.init TimingData.empty (NoteData.empty.SetNumTracks 5) 4) "|X"
          = .ok (RowState.init TimingData.empty (NoteData.empty.SetNumTracks 5) 4, false) := by
  refine ⟨by decide, by decide, by with_unfolding_all rfl, by with_unfolding_all rfl,
    by with_unfolding_all rfl, by with_unfolding_all rfl, by with_unfolding_all rfl⟩

/-! ## Strings that `LoadTags` cannot shape -/

/-- C27: `LoadTags` extracts nothing from a string it cannot shape. When the
string splits at `" - "` into exactly three parts the third of which is none of
double, easy, normal, hard, crazy, nightmare (ignoring case), or into four or
more parts, and the conversion of the empty string is the empty string,
`LoadTags` leaves the title and the artist of the song as they were (an empty
title stays empty), and with them the whole song. -/
theorem LoadTags_unshaped (G : SongExt) (str : String) (out : Song)
    (hconv : ∀ s, G.ConvertString "" "korean" = some s → s = "")
    (hshape : ((G.split str " - " [] false).length = 3
        ∧ ∀ kw ∈ ["double", "easy", "normal", "hard", "crazy", "nightmare"],
            G.EqualsNoCase ((G.split str " - " [] false).getD 2 "") kw = false)
      ∨ 4 ≤ (G.split str " - " [] false).length) :
    (LoadTags G str out).m_sMainTitle = out.m_sMainTitle
    ∧ (LoadTags G str out).m_sArtist = out.m_sArtist
    ∧ LoadTags G str out = out := by
  have hsuf : hasDifficultySuffix G (G.split str " - " [] false) = false := by
    unfold hasDifficultySuffix
    rcases hshape with ⟨-, hkw⟩ | h4
    · rw [hkw "double" (by simp), hkw "easy" (by simp), hkw "normal" (by simp),
        hkw "hard" (by simp), hkw "crazy" (by simp), hkw "nightmare" (by simp)]
      simp
    · have : (G.split str " - " [] false).length ≠ 3 := by omega
      simp [this]
  have hlen2 : (G.split str " - " [] false).length ≠ 2 := by
    rcases hshape with ⟨h3, -⟩ | h4 <;> omega
  have hlen1 : (G.split str " - " [] false).length ≠ 1 := by
    rcases hshape with ⟨h3, -⟩ | h4 <;> omega
  have hce : convertOrEmpty G "" = "" := by
    unfold convertOrEmpty
    cases hc : G.ConvertString "" "korean" with
    | none => rfl
    | some s => exact hconv s hc
  have key : LoadTags G str out = out := by
    unfold LoadTags
    simp only [hsuf, Bool.false_eq_true, if_false, hlen2, hlen1, hce]
    by_cases ht : out.m_sMainTitle = ""
    · by_cases ha : out.m_sArtist = ""
      · rw [if_pos ht, if_pos ha]
        cases out
        simp_all
      · rw [if_pos ht, if_neg ha]
        cases out
        simp_all
    · by_cases ha : out.m_sArtist = ""
      · rw [if_neg ht, if_pos ha]
        cases out
        simp_all
      · rw [if_neg ht, if_neg ha]
  exact ⟨by rw [key], by rw [key], key⟩

/-- The string `A - B - C` has three parts and `C` is no difficulty word: a song
without title and artist keeps both empty. -/
theorem LoadTags_unshaped_witness :
    (LoadTags (sampleSongExt [] []) "A - B - C" (Song.fresh "Songs/x/")).m_sMainTitle = ""
    ∧ (LoadTags (sampleSongExt [] []) "A - B - C" (Song.fresh "Songs/x/")).m_sArtist = "" :=
  ⟨(LoadTags_unshaped (sampleSongExt [] []) "A - B - C" (Song.fresh "Songs/x/")
      (fun s h => (Option.some.inj h).symm) (Or.inl ⟨by decide, by decide⟩)).1,
   (LoadTags_unshaped (sampleSongExt [] []) "A - B - C" (Song.fresh "Songs/x/")
      (fun s h => (Option.some.inj h).symm) (Or.inl ⟨by decide, by decide⟩)).2.1⟩
/-! ## The variables left by the record loop of the per-chart pass -/

theorem readValue_vars (E : Ext) (h h' : KSFHeader) (v : List String)
    (hr : readValue E h v = .ok h') :
    h'.bKIUCompliant = (h.bKIUCompliant || decide (E.MakeUpper (param v 0) = "STARTTIME3"))
    ∧ h'.BPM1
        = (if E.MakeUpper (param v 0) = "BPM" then E.StringToFloat (param v 1) else h.BPM1)
    ∧ h'.BPM2
        = (if E.MakeUpper (param v 0) = "BPM2" ∧ h.bKIUCompliant = true
            then E.StringToFloat (param v 1) else h.BPM2)
    ∧ h'.BPM3
        = (if E.MakeUpper (param v 0) = "BPM3" ∧ h.bKIUCompliant = true
            then E.StringToFloat (param v 1) else h.BPM3)
    ∧ h'.BPMPos2
        = (if E.MakeUpper (param v 0) = "BUNKI" ∧ h.bKIUCompliant = true
            then E.StringToFloat (param v 1) / 100 else h.BPMPos2)
    ∧ h'.BPMPos3
        = (if E.MakeUpper (param v 0) = "BUNKI2" ∧ h.bKIUCompliant = true
            then E.StringToFloat (param v 1) / 100 else h.BPMPos3)
    ∧ h'.SMGap1
        = (if E.MakeUpper (param v 0) = "STARTTIME" then -E.StringToFloat (param v 1) / 100
            else h.SMGap1)
    ∧ h'.SMGap2
        = (if E.MakeUpper (param v 0) = "STARTTIME2" ∧ h.bKIUCompliant = true
            then -E.StringToFloat (param v 1) / 100 else h.SMGap2)
    ∧ h'.stepsTiming
        = (if E.MakeUpper (param v 0) = "BPM"
            then h.stepsTiming.AddBPMSegment ⟨0, E.StringToFloat (param v 1)⟩
           else if E.MakeUpper (param v 0) = "STARTTIME"
            then { h.stepsTiming with
              m_fBeat0OffsetInSeconds := -E.StringToFloat (param v 1) / 100 }
           else h.stepsTiming)
    ∧ h'.vNoteRows
        = (if E.MakeUpper (param v 0) = "STEP"
            then E.split (E.TrimLeft (param v 1)) "\n" h.vNoteRows true else h.vNoteRows) := by
  revert hr
  unfold readValue
  dsimp only
  generalize E.MakeUpper (param v 0) = n
  by_cases c1 : n = "BPM"
  · subst c1
    rw [if_neg (by decide), if_pos rfl]
    intro hr; cases hr
    simp
  by_cases c2 : n = "BPM2"
  · subst c2
    rw [if_neg (by decide), if_neg (by decide), if_pos rfl]
    intro hr
    split_ifs at hr with hk <;> cases hr <;> simp [hk]
  by_cases c3 : n = "BPM3"
  · subst c3
    rw [if_neg (by decide), if_neg (by decide), if_neg (by decide), if_pos rfl]
    intro hr
    split_ifs at hr with hk <;> cases hr <;> simp [hk]
  by_cases c4 : n = "BUNKI"
  · subst c4
    rw [if_neg (by decide), if_neg (by decide), if_neg (by decide), if_neg (by decide),
      if_pos rfl]
    intro hr
    split_ifs at hr with hk <;> cases hr <;> simp [hk]
  by_cases c5 : n = "BUNKI2"
  · subst c5
    rw [if_neg (by decide), if_neg (by decide), if_neg (by decide), if_neg (by decide),
      if_neg (by decide), if_pos rfl]
    intro hr
    split_ifs at hr with hk <;> cases hr <;> simp [hk]
  by_cases c6 : n = "STARTTIME"
  · subst c6
    rw [if_neg (by decide), if_neg (by decide), if_neg (by decide), if_neg (by decide),
      if_neg (by decide), if_neg (by decide), if_pos rfl]
    intro hr; cases hr
    simp
  by_cases c7 : n = "STARTTIME2"
  · subst c7
    rw [if_neg (by decide), if_neg (by decide), if_neg (by decide), if_neg (by decide),
      if_neg (by decide), if_neg (by decide), if_neg (by decide), if_pos rfl]
    intro hr
    split_ifs at hr with hk <;> cases hr <;> simp [hk]
  by_cases c8 : n = "STARTTIME3"
  · subst c8
    rw [if_neg (by decide), if_neg (by decide), if_neg (by decide), if_neg (by decide),
      if_neg (by decide), if_neg (by decide), if_neg (by decide), if_neg (by decide),
      if_pos rfl]
    intro hr; cases hr
    simp
  by_cases c9 : n = "STEP"
  · subst c9
    rw [if_neg (by decide), if_neg (by decide), if_neg (by decide), if_neg (by decide),
      if_neg (by decide), if_neg (by decide), if_neg (by decide), if_neg (by decide),
      if_neg (by decide), if_neg (by decide), if_neg (by decide), if_neg (by decide),
      if_pos rfl]
    intro hr; cases hr
    simp
  simp only [c1, c2, c3, c4, c5, c6, c7, c8, c9, if_false, false_and, decide_False,
    Bool.or_false]
  intro hr
  split_ifs at hr <;> cases hr <;> simp

theorem lastValue_cons (E : Ext) (name : String) (g : String → ℚ) (d : ℚ) (v : List String)
    (rest : List (List String)) :
    lastValue E name g d (v :: rest)
      = lastValue E name g (if valueName E v = name then g (param v 1) else d) rest := rfl

theorem lastValue_of_absent (E : Ext) (name : String) (g : String → ℚ) (d : ℚ)
    (values : List (List String)) (hno : ∀ v ∈ values, valueName E v ≠ name) :
    lastValue E name g d values = d := by
  induction values generalizing d with
  | nil => rfl
  | cons v rest ih =>
    rw [lastValue_cons, if_neg (hno v (List.mem_cons_self _ _))]
    exact ih d (fun q hq => hno q (List.mem_cons_of_mem _ hq))

theorem lastValue_of_last (E : Ext) (name : String) (g : String → ℚ) (d : ℚ)
    (pre post : List (List String)) (r : List String) (hr : valueName E r = name)
    (hno : ∀ v ∈ post, valueName E v ≠ name) :
    lastValue E name g d (pre ++ r :: post) = g (param r 1) := by
  unfold lastValue
  rw [List.foldl_append, List.foldl_cons, if_pos hr]
  exact lastValue_of_absent E name g _ post hno

theorem lastValue_pos_iff (E : Ext) (name : String) (g : String → ℚ) (d d' : ℚ)
    (values : List (List String)) (hd : 0 < d' ↔ 0 < d) :
    0 < lastValue E name (fun p => g p / 100) d' values ↔ 0 < lastValue E name g d values := by
  induction values generalizing d d' with
  | nil => exact hd
  | cons v rest ih =>
    rw [lastValue_cons, lastValue_cons]
    apply ih
    split_ifs
    · constructor
      · intro h
        have := div_pos_iff_of_pos_right (show (0 : ℚ) < 100 by norm_num) |>.1 h
        exact this
      · intro h
        exact div_pos h (by norm_num)
    · exact hd

theorem readValues_vars (E : Ext) (values : List (List String)) (h h' : KSFHeader)
    (hr : readValues E values h = .ok h') :
    h'.BPM1 = lastValue E "BPM" E.StringToFloat h.BPM1 values
    ∧ h'.SMGap1 = lastValue E "STARTTIME" (fun p => -E.StringToFloat p / 100) h.SMGap1 values
    ∧ h'.stepsTiming.m_fBeat0OffsetInSeconds
        = lastValue E "STARTTIME" (fun p => -E.StringToFloat p / 100)
            h.stepsTiming.m_fBeat0OffsetInSeconds values
    ∧ h'.stepsTiming.m_TickcountSegments = h.stepsTiming.m_TickcountSegments
    ∧ h'.stepsTiming.m_StopSegments = h.stepsTiming.m_StopSegments := by
  induction values generalizing h with
  | nil => cases hr; exact ⟨rfl, rfl, rfl, rfl, rfl⟩
  | cons v rest ih =>
    rw [readValues_cons] at hr
    cases hv : readValue E h v with
    | error e => rw [hv] at hr; cases hr
    | ok h1 =>
      rw [hv] at hr
      obtain ⟨a1, a2, a3, a4, a5⟩ := ih h1 hr
      obtain ⟨-, b1, -, -, -, -, b6, -, b8, -⟩ := readValue_vars E h h1 v hv
      refine ⟨?_, ?_, ?_, ?_, ?_⟩
      · rw [a1, b1]; rfl
      · rw [a2, b6]; rfl
      · rw [a3, b8, lastValue_cons]
        unfold valueName
        congr 1
        split_ifs with c1 c2 <;> first | rfl | (rw [c1] at c2; exact absurd c2 (by decide))
      · rw [a4, b8]
        split_ifs <;> rfl
      · rw [a5, b8]
        split_ifs <;> rfl

theorem readValues_vars_kiu (E : Ext) (values : List (List String)) (h h' : KSFHeader)
    (hk : h.bKIUCompliant = true) (hr : readValues E values h = .ok h') :
    h'.bKIUCompliant = true
    ∧ h'.BPM2 = lastValue E "BPM2" E.StringToFloat h.BPM2 values
    ∧ h'.BPM3 = lastValue E "BPM3" E.StringToFloat h.BPM3 values
    ∧ h'.BPMPos2 = lastValue E "BUNKI" (fun p => E.StringToFloat p / 100) h.BPMPos2 values
    ∧ h'.BPMPos3 = lastValue E "BUNKI2" (fun p => E.StringToFloat p / 100) h.BPMPos3 values
    ∧ h'.SMGap2
        = lastValue E "STARTTIME2" (fun p => -E.StringToFloat p / 100) h.SMGap2 values := by
  induction values generalizing h with
  | nil => cases hr; exact ⟨hk, rfl, rfl, rfl, rfl, rfl⟩
  | cons v rest ih =>
    rw [readValues_cons] at hr
    cases hv : readValue E h v with
    | error e => rw [hv] at hr; cases hr
    | ok h1 =>
      rw [hv] at hr
      obtain ⟨b0, -, b2, b3, b4, b5, -, b7, -, -⟩ := readValue_vars E h h1 v hv
      have hk1 : h1.bKIUCompliant = true := by rw [b0, hk]; rfl
      obtain ⟨a0, a2, a3, a4, a5, a7⟩ := ih h1 hk1 hr
      simp only [hk, and_true] at b2 b3 b4 b5 b7
      refine ⟨a0, ?_, ?_, ?_, ?_, ?_⟩
      · rw [a2, b2]; rfl
      · rw [a3, b3]; rfl
      · rw [a4, b4]; rfl
      · rw [a5, b5]; rfl
      · rw [a7, b7]; rfl

theorem readValue_kiu_payload_ignored (E : Ext) (h : KSFHeader) (v : List String)
    (hk : h.bKIUCompliant = false) (hv : valueName E v ∈ kiuPayloadTags) :
    readValue E h v = .ok h := by
  unfold valueName at hv
  unfold readValue
  dsimp only
  revert hv
  generalize E.MakeUpper (param v 0) = n
  intro hv
  simp only [kiuPayloadTags, List.mem_cons, List.mem_singleton, List.not_mem_nil, or_false] at hv
  rcases hv with c | c | c | c | c <;> subst c
  · rw [if_neg (by decide), if_neg (by decide), if_pos rfl, hk]
    rfl
  · rw [if_neg (by decide), if_neg (by decide), if_neg (by decide), if_pos rfl, hk]
    rfl
  · rw [if_neg (by decide), if_neg (by decide), if_neg (by decide), if_neg (by decide),
      if_pos rfl, hk]
    rfl
  · rw [if_neg (by decide), if_neg (by decide), if_neg (by decide), if_neg (by decide),
      if_neg (by decide), if_pos rfl, hk]
    rfl
  · rw [if_neg (by decide), if_neg (by decide), if_neg (by decide), if_neg (by decide),
      if_neg (by decide), if_neg (by decide), if_neg (by decide), if_pos rfl, hk]
    rfl

theorem readValues_legacy (E : Ext) (values : List (List String)) (h : KSFHeader)
    (hk : h.bKIUCompliant = false) (hno : ∀ v ∈ values, valueName E v ≠ "STARTTIME3") :
    readValues E (values.filter (isCommonRecord E)) h = readValues E values h
    ∧ ∀ h', readValues E values h = .ok h' →
        h'.bKIUCompliant = false ∧ h'.BPM2 = h.BPM2 ∧ h'.BPM3 = h.BPM3
          ∧ h'.BPMPos2 = h.BPMPos2 ∧ h'.BPMPos3 = h.BPMPos3 ∧ h'.SMGap2 = h.SMGap2 := by
  induction values generalizing h with
  | nil => exact ⟨rfl, fun h' hr => by cases hr; exact ⟨hk, rfl, rfl, rfl, rfl, rfl⟩⟩
  | cons v rest ih =>
    have hrest : ∀ q ∈ rest, valueName E q ≠ "STARTTIME3" :=
      fun q hq => hno q (List.mem_cons_of_mem _ hq)
    have hv3 := hno v (List.mem_cons_self _ _)
    by_cases hv : valueName E v ∈ kiuPayloadTags
    · have hstep := readValue_kiu_payload_ignored E h v hk hv
      rw [List.filter_cons_of_neg (by simp [isCommonRecord, hv]), readValues_cons, hstep]
      exact ih h hk hrest
    · rw [List.filter_cons_of_pos (by simp [isCommonRecord, hv]), readValues_cons,
        readValues_cons]
      cases hs : readValue E h v with
      | error e => exact ⟨rfl, fun h' hr => by cases hr⟩
      | ok h1 =>
        dsimp only
        obtain ⟨b0, -, b2, b3, b4, b5, -, b7, -, -⟩ := readValue_vars E h h1 v hs
        unfold valueName at hv3
        have hk1 : h1.bKIUCompliant = false := by rw [b0, hk]; simp [hv3]
        simp only [hk, Bool.false_eq_true, and_false, if_false] at b2 b3 b4 b5 b7
        obtain ⟨i1, i2⟩ := ih h1 hk1 hrest
        refine ⟨i1, fun h' hr => ?_⟩
        obtain ⟨j0, j2, j3, j4, j5, j7⟩ := i2 h' hr
        exact ⟨j0, j2.trans b2, j3.trans b3, j4.trans b4, j5.trans b5, j7.trans b7⟩

/-! ## What the row loop leaves of the timing track -/

theorem SetBPMAtBeat_frame (t : TimingData) (b v : ℚ) :
    (t.SetBPMAtBeat b v).m_fBeat0OffsetInSeconds = t.m_fBeat0OffsetInSeconds
    ∧ (t.SetBPMAtBeat b v).m_TickcountSegments = t.m_TickcountSegments
    ∧ (t.SetBPMAtBeat b v).m_StopSegments = t.m_StopSegments := by
  unfold TimingData.SetBPMAtBeat
  dsimp only
  split <;> exact ⟨rfl, rfl, rfl⟩

theorem HandlePipeChars_frame (E : Ext) (timing timing' : TimingData) (row : String)
    (beat : ℚ) (tick tick' : Int) (fl : Bool)
    (hr : HandlePipeChars E timing row beat tick = .ok (fl, timing', tick')) :
    timing'.m_fBeat0OffsetInSeconds = timing.m_fBeat0OffsetInSeconds
    ∧ (BeginsWith row "|T" = false →
        timing'.m_TickcountSegments = timing.m_TickcountSegments ∧ tick' = tick) := by
  unfold HandlePipeChars at hr
  split at hr
  · cases hr
  · dsimp only at hr
    split_ifs at hr with hT hB hE hD
    · cases hr
      exact ⟨(SetTickcountAtBeat_frame _ _ _).2.2.2, fun h => by rw [hT] at h; cases h⟩
    · cases hr
      exact ⟨(SetBPMAtBeat_frame _ _ _).1, fun _ => ⟨(SetBPMAtBeat_frame _ _ _).2.1, rfl⟩⟩
    · cases hr
      exact ⟨(SetStopAtBeat_frame _ _ _ _).2.2.1, fun _ => ⟨(SetStopAtBeat_frame _ _ _ _).2.1, rfl⟩⟩
    · cases hr
      exact ⟨(SetStopAtBeat_frame _ _ _ _).2.2.1, fun _ => ⟨(SetStopAtBeat_frame _ _ _ _).2.1, rfl⟩⟩
    · cases hr
      exact ⟨rfl, fun _ => ⟨rfl, rfl⟩⟩

theorem finishHold_timing (s : RowState) (t : Nat) :
    (finishHold s t).stepsTiming = s.stepsTiming := by
  unfold finishHold
  split_ifs <;> rfl

theorem foldl_finishHold_timing (l : List Nat) (s : RowState) :
    (l.foldl finishHold s).stepsTiming = s.stepsTiming := by
  induction l generalizing s with
  | nil => rfl
  | cons t l ih => rw [List.foldl_cons, ih, finishHold_timing]

theorem decodeNoteRow_timing (st : StepsType) (s : RowState) (row : String) :
    (decodeNoteRow st s row).stepsTiming = s.stepsTiming := by
  unfold decodeNoteRow
  dsimp only
  rw [(foldl_decodeColumn_frame _ _ _).2.2.2.2.2]
  split_ifs <;> rfl

theorem rowStep_timing (E : Ext) (b : Bool) (st : StepsType) (s s' : RowState) (r : String)
    (fl : Bool) (hr : rowStep E b st s r = .ok (s', fl)) :
    s'.stepsTiming.m_fBeat0OffsetInSeconds = s.stepsTiming.m_fBeat0OffsetInSeconds
    ∧ ((b = true ∨ BeginsWith (E.StripCrnl r) "|T" = false) →
        s'.stepsTiming.m_TickcountSegments = s.stepsTiming.m_TickcountSegments) := by
  unfold rowStep at hr
  dsimp only at hr
  split_ifs at hr with h1 h2 h3 h4
  · cases hr; exact ⟨rfl, fun _ => rfl⟩
  · cases hr
    rw [foldl_finishHold_timing]
    exact ⟨rfl, fun _ => rfl⟩
  · cases hr; exact ⟨rfl, fun _ => rfl⟩
  · split at hr
    · cases hr
    · next fl' timing tick hp =>
      cases hr
      obtain ⟨f1, f2⟩ := HandlePipeChars_frame E _ _ _ _ _ _ _ hp
      refine ⟨f1, fun h => ?_⟩
      rcases h with h | h
      · exact absurd h h4
      · exact (f2 h).1
  · cases hr
    rw [decodeNoteRow_timing]
    exact ⟨rfl, fun _ => rfl⟩

theorem decodeRows_timing (E : Ext) (b : Bool) (st : StepsType) (rows : List String)
    (s s' : RowState) (hr : decodeRows E b st rows s = .ok s') :
    s'.stepsTiming.m_fBeat0OffsetInSeconds = s.stepsTiming.m_fBeat0OffsetInSeconds
    ∧ ((b = true ∨ ∀ r ∈ rows, BeginsWith (E.StripCrnl r) "|T" = false) →
        s'.stepsTiming.m_TickcountSegments = s.stepsTiming.m_TickcountSegments) := by
  induction rows generalizing s with
  | nil => cases hr; exact ⟨rfl, fun _ => rfl⟩
  | cons r rest ih =>
    rw [decodeRows_cons] at hr
    cases hs : rowStep E b st s r with
    | error e => rw [hs] at hr; cases hr
    | ok p =>
      obtain ⟨s1, fl⟩ := p
      rw [hs] at hr
      obtain ⟨f1, f2⟩ := rowStep_timing E b st s s1 r fl hs
      have hcond : (b = true ∨ ∀ q ∈ r :: rest, BeginsWith (E.StripCrnl q) "|T" = false) →
          (b = true ∨ BeginsWith (E.StripCrnl r) "|T" = false)
            ∧ (b = true ∨ ∀ q ∈ rest, BeginsWith (E.StripCrnl q) "|T" = false) := by
        rintro (h | h)
        · exact ⟨Or.inl h, Or.inl h⟩
        · exact ⟨Or.inr (h r (List.mem_cons_self _ _)),
            Or.inr (fun q hq => h q (List.mem_cons_of_mem _ hq))⟩
      cases fl
      · dsimp only at hr
        obtain ⟨g1, g2⟩ := ih s1 hr
        exact ⟨g1.trans f1, fun h => (g2 (hcond h).2).trans (f2 (hcond h).1)⟩
      · dsimp only at hr
        cases hr
        exact ⟨f1, fun h => f2 (hcond h).1⟩

theorem prepareBPM_frame (h : KSFHeader) :
    (prepareBPM h).m_fBeat0OffsetInSeconds = h.stepsTiming.m_fBeat0OffsetInSeconds
    ∧ (prepareBPM h).m_TickcountSegments = h.stepsTiming.m_TickcountSegments
    ∧ (prepareBPM h).m_StopSegments = h.stepsTiming.m_StopSegments := by
  unfold prepareBPM
  dsimp only
  split_ifs <;> exact ⟨rfl, rfl, rfl⟩

theorem buildSteps_timing (E : Ext) (sPath : String) (h : KSFHeader) (o : Steps)
    (hb : buildSteps E sPath h = .ok o) :
    o.m_Timing.m_fBeat0OffsetInSeconds = h.stepsTiming.m_fBeat0OffsetInSeconds
    ∧ ((h.bKIUCompliant = true ∨ ∀ r ∈ h.vNoteRows, BeginsWith (E.StripCrnl r) "|T" = false) →
        o.m_Timing.m_TickcountSegments = h.stepsTiming.m_TickcountSegments) := by
  unfold buildSteps at hb
  dsimp only at hb
  split at hb
  · cases hb
  · split at hb
    · cases hb
    · next s hs =>
      cases hb
      obtain ⟨f1, f2⟩ := decodeRows_timing _ _ _ _ _ _ hs
      obtain ⟨p1, p2, -⟩ := prepareBPM_frame h
      exact ⟨f1.trans p1, fun hc => (f2 hc).trans p2⟩

/-! ## The second and the third tempo of the per-chart pass -/

/-- C25 (counterexample): whether the second tempo is inserted is not decided by
the dialect and the values of `BPM2` and `BUNKI`. The per-chart pass is called
with the flag false on two files with the same records `STARTTIME3`, `BPM` 120,
`BPM2` 150, `BUNKI` 300 in different orders. With `STARTTIME3` first the flag is
true when `BPM2` and `BUNKI` are read, and the tempo 150 is inserted at row 288;
with `STARTTIME3` last the two records are ignored, the flag is true after the
record loop all the same, and no second tempo is inserted. -/
theorem second_tempo_depends_on_record_order :
    (LoadFromKSFFile
        (sampleExt [("a_1.ksf", [["STARTTIME3", ""], ["BPM", "120"], ["BPM2", "150"],
          ["BUNKI", "300"], ["STEP", "10000\n2222222222222\n"]])])
        "a_1.ksf" Steps.fresh false).toOption.map (fun o => o.m_Timing.m_BPMSegments)
      = some [⟨0, 120⟩, ⟨288, 150⟩]
    ∧ (LoadFromKSFFile
        (sampleExt [("a_1.ksf", [["BPM", "120"], ["BPM2", "150"], ["BUNKI", "300"],
          ["STARTTIME3", ""], ["STEP", "10000\n2222222222222\n"]])])
        "a_1.ksf" Steps.fresh false).toOption.map (fun o => o.m_Timing.m_BPMSegments)
      = some [⟨0, 120⟩]
    ∧ (readValues (sampleExt [])
        [["STARTTIME3", ""], ["BPM", "120"], ["BPM2", "150"], ["BUNKI", "300"],
          ["STEP", "10000\n2222222222222\n"]]
        (KSFHeader.init Steps.fresh false)).toOption.map
          (fun h => (h.bKIUCompliant, h.BPM2, h.BPMPos2)) = some (true, 150, 3)
    ∧ (readValues (sampleExt [])
        [["BPM", "120"], ["BPM2", "150"], ["BUNKI", "300"], ["STARTTIME3", ""],
          ["STEP", "10000\n2222222222222\n"]]
        (KSFHeader.init Steps.fresh false)).toOption.map
          (fun h => (h.bKIUCompliant, h.BPM2, h.BPMPos2)) = some (true, -1, -1) := by
  refine ⟨by with_unfolding_all rfl, by with_unfolding_all rfl, by with_unfolding_all rfl,
    by with_unfolding_all rfl⟩

/-- C25 (amended): the second and the third tempo of the per-chart pass, for the
variables `h` that the record loop leaves. After the loop the second tempo is
inserted exactly when the flag is true and the values read for `BPM2` and
`BUNKI / 100` are positive, as `HandleBunki(BPM, BPM2, -STARTTIME/100, BUNKI/100)`,
and the third exactly when the flag is true and the values read for `BPM3` and
`BUNKI2 / 100` are positive, as `HandleBunki(BPM2, BPM3, -STARTTIME2/100, BUNKI2/100)`.
When the pass is called with the flag true, the flag stays true and each value
is that of the last record of its name (`-1` for a tempo or a position without
record, `0` for a start time), a position being positive exactly when the
payload of `BUNKI` (`BUNKI2`) is. When the pass is called with the flag false on
a file without `STARTTIME3`, the flag stays false, no second or third tempo is
inserted, and the variables are the same for every file that differs only in
its records `BPM2`, `BPM3`, `BUNKI`, `BUNKI2`, `STARTTIME2`. In both dialects the
offset of the timing track of the chart is `-STARTTIME/100`. -/
theorem tempo_changes_of_the_per_chart_pass (E : Ext) (sPath : String) (out : Steps)
    (bIn : Bool) (values : List (List String)) (h : KSFHeader)
    (hh : readValues E values (KSFHeader.init out bIn) = .ok h) :
    prepareBPM h
        = (if h.bKIUCompliant = true ∧ 0 < h.BPM3 ∧ 0 < h.BPMPos3 then
            HandleBunki
              (if h.bKIUCompliant = true ∧ 0 < h.BPM2 ∧ 0 < h.BPMPos2 then
                HandleBunki h.stepsTiming h.BPM1 h.BPM2 h.SMGap1 h.BPMPos2
               else h.stepsTiming)
              h.BPM2 h.BPM3 h.SMGap2 h.BPMPos3
           else if h.bKIUCompliant = true ∧ 0 < h.BPM2 ∧ 0 < h.BPMPos2 then
            HandleBunki h.stepsTiming h.BPM1 h.BPM2 h.SMGap1 h.BPMPos2
           else h.stepsTiming)
    ∧ (bIn = true →
        h.bKIUCompliant = true
        ∧ h.BPM1 = lastValue E "BPM" E.StringToFloat (-1) values
        ∧ h.BPM2 = lastValue E "BPM2" E.StringToFloat (-1) values
        ∧ h.BPM3 = lastValue E "BPM3" E.StringToFloat (-1) values
        ∧ h.BPMPos2 = lastValue E "BUNKI" (fun p => E.StringToFloat p / 100) (-1) values
        ∧ h.BPMPos3 = lastValue E "BUNKI2" (fun p => E.StringToFloat p / 100) (-1) values
        ∧ h.SMGap1 = lastValue E "STARTTIME" (fun p => -E.StringToFloat p / 100) 0 values
        ∧ h.SMGap2 = lastValue E "STARTTIME2" (fun p => -E.StringToFloat p / 100) 0 values
        ∧ (0 < h.BPMPos2 ↔ 0 < lastValue E "BUNKI" E.StringToFloat (-1) values)
        ∧ (0 < h.BPMPos3 ↔ 0 < lastValue E "BUNKI2" E.StringToFloat (-1) values))
    ∧ (bIn = false → (∀ v ∈ values, valueName E v ≠ "STARTTIME3") →
        h.bKIUCompliant = false
        ∧ prepareBPM h = h.stepsTiming
        ∧ ∀ values' : List (List String),
            values'.filter (isCommonRecord E) = values.filter (isCommonRecord E) →
            readValues E values' (KSFHeader.init out false) = .ok h)
    ∧ (∀ o, buildSteps E sPath h = .ok o →
        o.m_Timing.m_fBeat0OffsetInSeconds
          = lastValue E "STARTTIME" (fun p => -E.StringToFloat p / 100) 0 values) := by
  obtain ⟨v1, v2, v3, -, -⟩ := readValues_vars E values _ h hh
  refine ⟨?_, ?_, ?_, ?_⟩
  · unfold prepareBPM
    dsimp only
    by_cases hk : h.bKIUCompliant = true
    · rw [if_pos hk]
      simp only [hk, true_and]
    · rw [if_neg hk, if_neg (fun c => hk c.1), if_neg (fun c => hk c.1)]
  · intro hb
    subst hb
    obtain ⟨k0, k2, k3, k4, k5, k7⟩ := readValues_vars_kiu E values _ h rfl hh
    refine ⟨k0, v1, k2, k3, k4, k5, v2, k7, ?_, ?_⟩
    · rw [k4]
      exact lastValue_pos_iff E "BUNKI" E.StringToFloat (-1) (-1) values Iff.rfl
    · rw [k5]
      exact lastValue_pos_iff E "BUNKI2" E.StringToFloat (-1) (-1) values Iff.rfl
  · intro hb hno
    subst hb
    obtain ⟨l1, l2⟩ := readValues_legacy E values (KSFHeader.init out false) rfl hno
    obtain ⟨m0, -⟩ := l2 h hh
    refine ⟨m0, ?_, fun values' hf => ?_⟩
    · unfold prepareBPM
      rw [m0]
      rfl
    · have hno' : ∀ v ∈ values', valueName E v ≠ "STARTTIME3" := by
        intro v hv hname
        have hc : isCommonRecord E v = true := by
          unfold isCommonRecord
          rw [hname]
          decide
        have hmem : v ∈ values'.filter (isCommonRecord E) := List.mem_filter.2 ⟨hv, hc⟩
        rw [hf] at hmem
        exact hno v (List.mem_filter.1 hmem).1 hname
      rw [← (readValues_legacy E values' (KSFHeader.init out false) rfl hno').1, hf, l1]
      exact hh
  · intro o ho
    rw [(buildSteps_timing E sPath h o ho).1, v3]
    rfl

/-- A file of the newer dialect with `BPM` 120, `BPM2` 150, `BUNKI` 300 and
`STARTTIME` 50: the flag is true after the record loop and the offset of the
timing track of the chart is `-50/100`. -/
theorem tempo_changes_of_the_per_chart_pass_witness :
    ∃ h, readValues (sampleExt [])
        [["BPM", "120"], ["BPM2", "150"], ["BUNKI", "300"], ["STARTTIME", "50"],
          ["STEP", "10000\n2222222222222\n"]]
        (KSFHeader.init Steps.fresh true) = .ok h
      ∧ h.bKIUCompliant = true
      ∧ ∀ o, buildSteps (sampleExt []) "a_1.ksf" h = .ok o →
          o.m_Timing.m_fBeat0OffsetInSeconds
            = lastValue (sampleExt []) "STARTTIME"
                (fun p => -(sampleExt []).StringToFloat p / 100) 0
                [["BPM", "120"], ["BPM2", "150"], ["BUNKI", "300"], ["STARTTIME", "50"],
                  ["STEP", "10000\n2222222222222\n"]] := by
  obtain ⟨h, hh⟩ : ∃ h, readValues (sampleExt [])
      [["BPM", "120"], ["BPM2", "150"], ["BUNKI", "300"], ["STARTTIME", "50"],
        ["STEP", "10000\n2222222222222\n"]]
      (KSFHeader.init Steps.fresh true) = .ok h := ⟨_, by with_unfolding_all rfl⟩
  have key := tempo_changes_of_the_per_chart_pass (sampleExt []) "a_1.ksf" Steps.fresh true
    _ h hh
  exact ⟨h, hh, (key.2.1 rfl).1, key.2.2.2⟩

/-! ## The tick segment of the header record `TICKCOUNT` -/

theorem LoadSteps_tick_segments (E : Ext) (sPath : String) (out : Steps) (bIn : Bool)
    (values : List (List String)) (h : KSFHeader) (o : Steps)
    (hh : readValues E values (KSFHeader.init out bIn) = .ok h)
    (hrows : h.bKIUCompliant = true
      ∨ ∀ r ∈ h.vNoteRows, BeginsWith (E.StripCrnl r) "|T" = false)
    (hb : buildSteps E sPath h = .ok o) :
    o.m_Timing.m_TickcountSegments = [] := by
  obtain ⟨-, -, -, v4, -⟩ := readValues_vars E values _ h hh
  rw [(buildSteps_timing E sPath h o hb).2 hrows, v4]
  rfl

/-- C23: the timing track of a chart loaded from a file with the record
`TICKCOUNT` 4 has no tick segment at row 0. The record adds the segment `(0, 4)`
to `out.m_Timing` (line 171), but after the row loop the statement
`out.m_Timing = stepsTiming` (line 411) replaces the whole track by the track of
the pass, which the record never touched: the chart is loaded, in either
dialect, with an empty list of tick segments. The value is not clamped either:
the record `TICKCOUNT` 100 adds `(0, 100)` before the track is replaced. -/
theorem header_tick_segment_overwritten :
    (LoadFromKSFFile
        (sampleExt [("a_1.ksf", [["TICKCOUNT", "4"], ["STEP", "10000\n2222222222222\n"]])])
        "a_1.ksf" Steps.fresh false).toOption.map (fun o => o.m_Timing.m_TickcountSegments)
      = some []
    ∧ (LoadFromKSFFile
        (sampleExt [("a_1.ksf", [["TICKCOUNT", "4"], ["STEP", "10000\n2222222222222\n"]])])
        "a_1.ksf" Steps.fresh true).toOption.map (fun o => o.m_Timing.m_TickcountSegments)
      = some []
    ∧ (readValues (sampleExt [])
        [["TICKCOUNT", "4"], ["STEP", "10000\n2222222222222\n"]]
        (KSFHeader.init Steps.fresh false)).toOption.map
          (fun h => (h.out.m_Timing.m_TickcountSegments, h.stepsTiming.m_TickcountSegments))
      = some ([⟨0, 4⟩], [])
    ∧ (readValues (sampleExt [])
        [["TICKCOUNT", "100"], ["STEP", "10000\n2222222222222\n"]]
        (KSFHeader.init Steps.fresh false)).toOption.map
          (fun h => (h.out.m_Timing.m_TickcountSegments, h.stepsTiming.m_TickcountSegments))
      = some ([⟨0, 100⟩], []) := by
  refine ⟨by with_unfolding_all rfl, by with_unfolding_all rfl, by with_unfolding_all rfl,
    by with_unfolding_all rfl⟩

/-! ## The tick count of the global-data pass -/

theorem readGlobalValues_tick_of_no_TICKCOUNT (G : SongExt) (values : List (List String))
    (g : GlobalHeader) (hno : ∀ v ∈ values, G.MakeUpper (param v 0) ≠ "TICKCOUNT") :
    (readGlobalValues G values g).iTickCount = g.iTickCount := by
  induction values generalizing g with
  | nil => rfl
  | cons v rest ih =>
    rw [readGlobalValues_cons, ih _ (fun q hq => hno q (List.mem_cons_of_mem _ hq)),
      (readGlobalValue_step G g v).2.2, if_neg (hno v (List.mem_cons_self _ _))]

theorem readGlobalValues_append (G : SongExt) (a b : List (List String)) (g : GlobalHeader) :
    readGlobalValues G (a ++ b) g = readGlobalValues G b (readGlobalValues G a g) := by
  unfold readGlobalValues
  rw [List.foldl_append]

theorem readGlobalValues_tick_of_last_TICKCOUNT (G : SongExt) (pre post : List (List String))
    (r : List String) (g : GlobalHeader) (hname : G.MakeUpper (param r 0) = "TICKCOUNT")
    (hno : ∀ v ∈ post, G.MakeUpper (param v 0) ≠ "TICKCOUNT") :
    (readGlobalValues G (pre ++ r :: post) g).iTickCount
      = if G.StringToInt (param r 1) > 0 then G.StringToInt (param r 1) else 2 := by
  rw [readGlobalValues_append, readGlobalValues_cons,
    readGlobalValues_tick_of_no_TICKCOUNT G post _ hno, (readGlobalValue_step G _ r).2.2,
    if_pos hname]

/-- C24: the global-data pass does not use the tick count 2 when the record
`TICKCOUNT` is absent. Its variable starts at -1 and the value 2 is assigned only
in the branch of the record (for a value `<= 0`), so that for a file with the
records `BPM` 120 and `STEP` (lines `10000`, `|B150|`, `01000`, sentinel) the
scan runs with the tick count -1: the line `10000` moves the beat from 0 to -1,
the directive `|B150|` is applied at beat -1 (row -48), and the beat is -2 after
the line `01000`. With the record `TICKCOUNT` 0 in the same file the tick count
is 2 and the directive is applied at beat 1/2 (row 24). -/
theorem global_tick_count_without_record :
    (readGlobalValues (sampleSongExt [] [])
        [["BPM", "120"], ["STEP", "10000\n|B150|\n01000\n2222222222222\n"]]
        (GlobalHeader.init (Song.fresh "Songs/x/"))).iTickCount = -1
    ∧ (scanRows (sampleSongExt [] []) ["10000", "|B150|", "01000"]
        { timing := TimingData.empty, iTickCount := -1, fCurBeat := 0, bDMRequired := false,
          bKIUCompliant := false }).toOption.map
          (fun s => (s.fCurBeat, s.iTickCount, s.timing.m_BPMSegments))
      = some (-2, -1, [⟨-48, 150⟩])
    ∧ (LoadGlobalData
        (sampleSongExt [("Songs/x/a_1.ksf", [["BPM", "120"],
          ["STEP", "10000\n|B150|\n01000\n2222222222222\n"]])] [])
        "Songs/x/a_1.ksf" (Song.fresh "Songs/x/") false).toOption.map
          (fun r => r.1.m_SongTiming.m_BPMSegments)
      = some [⟨-48, 150⟩, ⟨0, 120⟩]
    ∧ (LoadGlobalData
        (sampleSongExt [("Songs/x/a_1.ksf", [["BPM", "120"], ["TICKCOUNT", "0"],
          ["STEP", "10000\n|B150|\n01000\n2222222222222\n"]])] [])
        "Songs/x/a_1.ksf" (Song.fresh "Songs/x/") false).toOption.map
          (fun r => r.1.m_SongTiming.m_BPMSegments)
      = some [⟨0, 120⟩, ⟨24, 150⟩] := by
  refine ⟨by with_unfolding_all rfl, by with_unfolding_all rfl, by with_unfolding_all rfl,
    by with_unfolding_all rfl⟩

/-! ## The two passes on the directives of a file -/

theorem scanCalls_cons (G : SongExt) (r : String) (rest : List String) (s : ScanState) :
    scanCalls G (r :: rest) s =
      (if G.StripCrnl r ≠ "" ∧ G.StripCrnl r ≠ SENTINEL ∧ isDirective (G.StripCrnl r) = true
        then [(G.StripCrnl r, s.fCurBeat, s.iTickCount)] else [])
      ++ (match scanStep G s r with
          | .ok (s', false) => scanCalls G rest s'
          | _ => []) := rfl

theorem decodeCalls_cons (E : Ext) (b : Bool) (st : StepsType) (r : String)
    (rest : List String) (s : RowState) :
    decodeCalls E b st (r :: rest) s =
      (if E.StripCrnl r ≠ "" ∧ E.StripCrnl r ≠ SENTINEL
          ∧ BeginsWith (E.StripCrnl r) "|" = true ∧ b = false
        then [(E.StripCrnl r, s.fCurBeat, s.iTickCount)] else [])
      ++ (match rowStep E b st s r with
          | .ok (s', false) => decodeCalls E b st rest s'
          | _ => []) := rfl

theorem isDirective_pipe (row : String) (h : isDirective row = true) :
    BeginsWith row "|" = true := by
  have key : ∀ a b : Char, BeginsWith row (String.mk [a, b]) = true →
      BeginsWith row (String.mk [a]) = true := by
    intro a b hab
    obtain ⟨t, ht⟩ := BeginsWith_data row a b hab
    unfold BeginsWith
    rw [ht]
    simp [List.isPrefixOf]
  unfold isDirective at h
  simp only [Bool.or_eq_true] at h
  rcases h with ((h | h) | h) | h
  · exact key '|' 'T' h
  · exact key '|' 'B' h
  · exact key '|' 'D' h
  · exact key '|' 'E' h

theorem HandlePipeChars_tick (E : Ext) (t t' : TimingData) (row : String) (beat : ℚ)
    (tick : Int) (fl : Bool) (t1 : TimingData) (k1 : Int)
    (h : HandlePipeChars E t row beat tick = .ok (fl, t1, k1)) :
    ∃ t1', HandlePipeChars E t' row beat tick = .ok (fl, t1', k1) := by
  unfold HandlePipeChars at h ⊢
  cases hs : substr row 2 ((row.length + SIZE_MODULUS - 3) % SIZE_MODULUS) with
  | error e => rw [hs] at h; cases h
  | ok temp =>
    rw [hs] at h
    dsimp only at h ⊢
    split_ifs at h ⊢ <;> cases h <;> exact ⟨_, rfl⟩

theorem scanStep_directive (G : SongExt) (s : ScanState) (r : String)
    (h1 : G.StripCrnl r ≠ "") (h2 : G.StripCrnl r ≠ SENTINEL)
    (h3 : isDirective (G.StripCrnl r) = true) :
    scanStep G s r =
      match HandlePipeChars G.toExt s.timing (G.StripCrnl r) s.fCurBeat s.iTickCount with
      | .error e => .error e
      | .ok (_, timing, iTickCount) =>
        .ok ({ s with bDMRequired := true, timing := timing, iTickCount := iTickCount },
          false) := by
  unfold scanStep
  dsimp only
  rw [if_neg h1, if_neg h2, if_pos h3]

theorem rowStep_pipe (E : Ext) (st : StepsType) (s : RowState) (r : String)
    (h1 : E.StripCrnl r ≠ "") (h2 : E.StripCrnl r ≠ SENTINEL)
    (h3 : BeginsWith (E.StripCrnl r) "|" = true) :
    rowStep E false st s r =
      match HandlePipeChars E s.stepsTiming (E.StripCrnl r) s.fCurBeat s.iTickCount with
      | .error e => .error e
      | .ok (_, timing, iTickCount) =>
        .ok ({ s with stepsTiming := timing, iTickCount := iTickCount }, false) := by
  unfold rowStep
  dsimp only
  rw [if_neg h1, if_neg h2, if_pos h3]
  rfl

theorem passes_agree_on_rows (G : SongExt) (st : StepsType) (rows : List String)
    (hrows : ∀ r ∈ rows, BeginsWith (G.StripCrnl r) "|" = true →
      isDirective (G.StripCrnl r) = true)
    (sc : ScanState) (s : RowState) (hbeat : sc.fCurBeat = s.fCurBeat)
    (htick : sc.iTickCount = s.iTickCount) (hb : s.bTickChangeNeeded = false) :
    scanCalls G rows sc = decodeCalls G.toExt false st rows s
    ∧ ∃ sc' s', scanRows G rows sc = .ok sc'
        ∧ decodeRows G.toExt false st rows s = .ok s'
        ∧ (sc.timing = s.stepsTiming → sc'.timing = s'.stepsTiming) := by
  induction rows generalizing sc s with
  | nil => exact ⟨rfl, sc, s, rfl, rfl, fun h => h⟩
  | cons r rest ih =>
    have hrest : ∀ q ∈ rest, BeginsWith (G.StripCrnl q) "|" = true →
        isDirective (G.StripCrnl q) = true := fun q hq => hrows q (List.mem_cons_of_mem _ hq)
    have hr := hrows r (List.mem_cons_self _ _)
    rw [scanCalls_cons, decodeCalls_cons, scanRows_cons, decodeRows_cons]
    by_cases h1 : G.StripCrnl r = ""
    · have e1 : scanStep G sc r = .ok (sc, false) := by
        unfold scanStep
        dsimp only
        rw [if_pos h1]
      rw [if_neg (fun c => c.1 h1), if_neg (fun c => c.1 h1), e1,
        rowStep_blank G.toExt false st s r h1]
      exact ih hrest sc s hbeat htick hb
    by_cases h2 : G.StripCrnl r = SENTINEL
    · have e1 : scanStep G sc r
          = .ok (if !sc.bDMRequired then { sc with bKIUCompliant := true } else sc, true) := by
        unfold scanStep
        dsimp only
        rw [if_neg h1, if_pos h2]
      have e2 : rowStep G.toExt false st s r
          = .ok ((List.range s.notedata.GetNumTracks).foldl finishHold s, true) := by
        unfold rowStep
        dsimp only
        rw [if_neg h1, if_pos h2]
      rw [if_neg (fun c => c.2.1 h2), if_neg (fun c => c.2.1 h2), e1, e2]
      refine ⟨rfl, _, _, rfl, rfl, fun h => ?_⟩
      rw [foldl_finishHold_timing]
      split_ifs <;> exact h
    by_cases h3 : BeginsWith (G.StripCrnl r) "|" = true
    · have h4 := hr h3
      obtain ⟨res, hres⟩ := HandlePipeChars_ok_of_length G.toExt sc.timing (G.StripCrnl r)
        sc.fCurBeat sc.iTickCount (isDirective_length _ h4)
      obtain ⟨fl, t1, k1⟩ := res
      obtain ⟨t1', hres'⟩ := HandlePipeChars_tick G.toExt sc.timing s.stepsTiming
        (G.StripCrnl r) sc.fCurBeat sc.iTickCount fl t1 k1 hres
      rw [hbeat, htick] at hres'
      rw [if_pos ⟨h1, h2, h4⟩, if_pos ⟨h1, h2, h3, rfl⟩, scanStep_directive G sc r h1 h2 h4,
        rowStep_pipe G.toExt st s r h1 h2 h3, hres, hres']
      dsimp only
      obtain ⟨i1, sc', s', i2, i3, i4⟩ := ih hrest
        { sc with bDMRequired := true, timing := t1, iTickCount := k1 }
        { s with stepsTiming := t1', iTickCount := k1 } hbeat rfl hb
      refine ⟨by rw [i1, hbeat, htick], sc', s', i2, i3, fun h => i4 ?_⟩
      dsimp only
      rw [h, hbeat, htick] at hres
      rw [hres] at hres'
      cases hres'
      rfl
    · have h3' : BeginsWith (G.StripCrnl r) "|" = false := by simpa using h3
      have h4 : isDirective (G.StripCrnl r) ≠ true := fun c => h3 (isDirective_pipe _ c)
      have e1 : scanStep G sc r
          = .ok ({ sc with fCurBeat := sc.fCurBeat + 1 / (sc.iTickCount : ℚ) }, false) := by
        unfold scanStep
        dsimp only
        rw [if_neg h1, if_neg h2, if_neg h4]
      rw [if_neg (fun c => h4 c.2.2), if_neg (fun c => h3 c.2.2.1), e1,
        rowStep_note G.toExt false st s r h1 h2 h3']
      dsimp only
      obtain ⟨b1, b2, -, b4, b5⟩ := decodeNoteRow_beat st s (G.StripCrnl r) hb
      obtain ⟨i1, sc', s', i2, i3, i4⟩ := ih hrest
        { sc with fCurBeat := sc.fCurBeat + 1 / (sc.iTickCount : ℚ) }
        (decodeNoteRow st s (G.StripCrnl r)) (by rw [b2, hbeat, htick]) (by rw [b1]; exact htick)
        b4
      exact ⟨by rw [List.nil_append, List.nil_append]; exact i1, sc', s', i2, i3,
        fun h => i4 (by rw [b5]; exact h)⟩

theorem readValues_tick_pos (E : Ext) (values : List (List String)) (h h' : KSFHeader)
    (hr : readValues E values h = .ok h')
    (hpos : 0 < h.iTickCount ∨ ∃ v ∈ values, valueName E v = "TICKCOUNT") :
    0 < h'.iTickCount := by
  induction values generalizing h with
  | nil =>
    cases hr
    rcases hpos with hp | ⟨v, hv, -⟩
    · exact hp
    · cases hv
  | cons v rest ih =>
    rw [readValues_cons] at hr
    cases hv : readValue E h v with
    | error e => rw [hv] at hr; cases hr
    | ok h1 =>
      rw [hv] at hr
      have ht := ((readValue_step E h v).2 h1 hv).1
      have herr := (readValue_step E h v).1 .returnedFalse
      by_cases hn : E.MakeUpper (param v 0) = "TICKCOUNT"
      · rw [if_pos hn] at ht
        have hval : ¬ E.StringToInt (param v 1) ≤ 0 := by
          intro hle
          have := herr.2 ⟨rfl, hn, hle⟩
          rw [hv] at this
          cases this
        exact ih h1 hr (Or.inl (by rw [ht]; omega))
      · rw [if_neg hn] at ht
        refine ih h1 hr ?_
        rcases hpos with hp | ⟨w, hw, hwn⟩
        · exact Or.inl (by rw [ht]; exact hp)
        · rcases List.mem_cons.1 hw with hw | hw
          · rw [hw] at hwn
            exact absurd hwn hn
          · exact Or.inr ⟨w, hw, hwn⟩

theorem passes_read_same (G : SongExt) (values : List (List String)) (g : GlobalHeader)
    (h h' : KSFHeader) (hr : readValues G.toExt values h = .ok h')
    (htick : g.iTickCount = h.iTickCount) (hrows : g.vNoteRows = h.vNoteRows) :
    (readGlobalValues G values g).iTickCount = h'.iTickCount
    ∧ (readGlobalValues G values g).vNoteRows = h'.vNoteRows := by
  induction values generalizing g h with
  | nil => cases hr; exact ⟨htick, hrows⟩
  | cons v rest ih =>
    rw [readValues_cons] at hr
    rw [readGlobalValues_cons]
    cases hv : readValue G.toExt h v with
    | error e => rw [hv] at hr; cases hr
    | ok h1 =>
      rw [hv] at hr
      have ht := ((readValue_step G.toExt h v).2 h1 hv).1
      have herr := (readValue_step G.toExt h v).1 .returnedFalse
      have hn := (readValue_vars G.toExt h h1 v hv).2.2.2.2.2.2.2.2.2
      obtain ⟨-, g2, g3⟩ := readGlobalValue_step G g v
      refine ih (readGlobalValue G g v) h1 hr ?_ ?_
      · rw [g3, ht]
        by_cases hname : G.MakeUpper (param v 0) = "TICKCOUNT"
        · have hval : ¬ G.StringToInt (param v 1) ≤ 0 := by
            intro hle
            have := herr.2 ⟨rfl, hname, hle⟩
            rw [hv] at this
            cases this
          rw [if_pos hname, if_pos hname, if_pos (by omega)]
        · rw [if_neg hname, if_neg hname, htick]
      · rw [g2, hn, hrows]

/-- C26: the two passes agree on where the inline directives of a file land.
For a file without the records `BPM2`, `BPM3`, `BUNKI`, `BUNKI2`, `STARTTIME2`,
`STARTTIME3`, with a record `TICKCOUNT`, whose records the per-chart pass reads
with success (every `TICKCOUNT` is positive) and in which every line beginning
with `|` begins with `|T`, `|B`, `|D` or `|E`: both passes are in the older
dialect, hold the same note rows and the same positive tick count, and the
calls of `HandlePipeChars` made by the scan of `LoadGlobalData` (line, beat,
tick count) are those made by the row loop of `LoadFromKSFFile`, whatever the
two timing tracks are; both loops end without exception, and when they start
from the same timing track they end with the same timing track. -/
theorem passes_agree_on_directives (G : SongExt) (values : List (List String)) (song : Song)
    (out : Steps) (h : KSFHeader) (hkiu : hasKIUTag G values = false)
    (htc : ∃ v ∈ values, valueName G.toExt v = "TICKCOUNT")
    (hh : readValues G.toExt values (KSFHeader.init out false) = .ok h)
    (hrows : ∀ r ∈ h.vNoteRows, BeginsWith (G.StripCrnl r) "|" = true →
      isDirective (G.StripCrnl r) = true) :
    (readGlobalValues G values (GlobalHeader.init song)).bKIUCompliant = false
    ∧ h.bKIUCompliant = false
    ∧ (readGlobalValues G values (GlobalHeader.init song)).vNoteRows = h.vNoteRows
    ∧ (readGlobalValues G values (GlobalHeader.init song)).iTickCount
        = defaultTickCount h.iTickCount
    ∧ 0 < defaultTickCount h.iTickCount
    ∧ ∀ (st : StepsType) (nd : NoteData) (t0 t1 : TimingData),
        scanCalls G (readGlobalValues G values (GlobalHeader.init song)).vNoteRows
            { timing := t0,
              iTickCount := (readGlobalValues G values (GlobalHeader.init song)).iTickCount,
              fCurBeat := 0, bDMRequired := false, bKIUCompliant := false }
          = decodeCalls G.toExt h.bKIUCompliant st h.vNoteRows
              (RowState.init t1 nd (defaultTickCount h.iTickCount))
        ∧ ∃ sc' s',
            scanRows G (readGlobalValues G values (GlobalHeader.init song)).vNoteRows
              { timing := t0,
                iTickCount := (readGlobalValues G values (GlobalHeader.init song)).iTickCount,
                fCurBeat := 0, bDMRequired := false, bKIUCompliant := false } = .ok sc'
            ∧ decodeRows G.toExt h.bKIUCompliant st h.vNoteRows
                (RowState.init t1 nd (defaultTickCount h.iTickCount)) = .ok s'
            ∧ (t0 = t1 → sc'.timing = s'.stepsTiming) := by
  have hno : ∀ v ∈ values, valueName G.toExt v ≠ "STARTTIME3" := by
    intro v hv hname
    unfold hasKIUTag at hkiu
    rw [List.any_eq_false] at hkiu
    have := hkiu v hv
    unfold valueName at hname
    rw [show G.MakeUpper (param v 0) = "STARTTIME3" from hname] at this
    exact absurd this (by decide)
  have hg : (readGlobalValues G values (GlobalHeader.init song)).bKIUCompliant = false := by
    rw [readGlobalValues_flag, hkiu]
    rfl
  have hk : h.bKIUCompliant = false :=
    ((readValues_legacy G.toExt values (KSFHeader.init out false) rfl hno).2 h hh).1
  obtain ⟨s1, s2⟩ := passes_read_same G values (GlobalHeader.init song)
    (KSFHeader.init out false) h hh rfl rfl
  have hpos : 0 < h.iTickCount := readValues_tick_pos G.toExt values _ h hh (Or.inr htc)
  have hdef : defaultTickCount h.iTickCount = h.iTickCount := by
    unfold defaultTickCount
    rw [if_neg (by omega)]
  refine ⟨hg, hk, s2, by rw [s1, hdef], by rw [hdef]; exact hpos, fun st nd t0 t1 => ?_⟩
  rw [hk, s2, s1, hdef]
  obtain ⟨c1, sc', s', c2, c3, c4⟩ := passes_agree_on_rows G st h.vNoteRows hrows
    { timing := t0, iTickCount := h.iTickCount, fCurBeat := 0, bDMRequired := false,
      bKIUCompliant := false }
    (RowState.init t1 nd h.iTickCount) rfl rfl rfl
  exact ⟨c1, sc', s', c2, c3, c4⟩

/-- A file with `TICKCOUNT` 4 and the directives `|B150|` and `|T8|` among its
note rows: both passes make the same calls. -/
theorem passes_agree_on_directives_witness :
    ∃ h, readValues (sampleExt [])
        [["TICKCOUNT", "4"], ["BPM", "120"],
          ["STEP", "10000\n|B150|\n01000\n|T8|\n00100\n2222222222222\n"]]
        (KSFHeader.init Steps.fresh false) = .ok h
      ∧ scanCalls (sampleSongExt [] []) h.vNoteRows
          { timing := TimingData.empty, iTickCount := defaultTickCount h.iTickCount,
            fCurBeat := 0, bDMRequired := false, bKIUCompliant := false }
        = decodeCalls (sampleExt []) false .StepsType_pump_single h.vNoteRows
            (RowState.init TimingData.empty (NoteData.empty.SetNumTracks 5)
              (defaultTickCount h.iTickCount)) := by
  obtain ⟨h, hh⟩ : ∃ h, readValues (sampleExt [])
      [["TICKCOUNT", "4"], ["BPM", "120"],
        ["STEP", "10000\n|B150|\n01000\n|T8|\n00100\n2222222222222\n"]]
      (KSFHeader.init Steps.fresh false) = .ok h := ⟨_, by with_unfolding_all rfl⟩
  have hv : h.vNoteRows = ["10000", "|B150|", "01000", "|T8|", "00100", "2222222222222"] := by
    cases hh
    rfl
  obtain ⟨-, k2, k3, k4, -, k6⟩ := passes_agree_on_directives (sampleSongExt [] [])
    [["TICKCOUNT", "4"], ["BPM", "120"],
      ["STEP", "10000\n|B150|\n01000\n|T8|\n00100\n2222222222222\n"]]
    (Song.fresh "Songs/x/") Steps.fresh h (by decide) ⟨["TICKCOUNT", "4"], by simp, by decide⟩
    hh (by rw [hv]; decide)
  have := (k6 .StepsType_pump_single (NoteData.empty.SetNumTracks 5) TimingData.empty
    TimingData.empty).1
  rw [k3, k4, k2] at this
  exact ⟨h, hh, this⟩

/-! ## Decoding of one note row -/

theorem decodeColumn_events_other (row : String) (s : RowState) (t t' : Nat) (hne : t' ≠ t) :
    eventsOf t (decodeColumn row s t').notedata = eventsOf t s.notedata := by
  unfold decodeColumn
  dsimp only
  split_ifs <;>
    simp [eventsOf, NoteData.SetTapNote, NoteData.AddHoldNote, List.filter_append,
      NoteEvent.track, hne]

theorem decodeColumn_events_self (row : String) (s : RowState) (t : Nat) :
    eventsOf t (decodeColumn row s t).notedata
      = eventsOf t s.notedata ++ columnEvents row s t := by
  unfold decodeColumn columnEvents
  dsimp only
  split_ifs <;>
    simp [eventsOf, NoteData.SetTapNote, NoteData.AddHoldNote, List.filter_append,
      NoteEvent.track]

theorem columnEvents_congr (row : String) (s s' : RowState) (t : Nat)
    (h1 : s'.holdStart t = s.holdStart t) (h2 : s'.prevBeat = s.prevBeat)
    (h3 : s'.fCurBeat = s.fCurBeat) : columnEvents row s' t = columnEvents row s t := by
  unfold columnEvents
  rw [h1, h2, h3]

theorem foldl_decodeColumn_events_other (row : String) (t : Nat) (cols : List Nat)
    (hnot : t ∉ cols) (s : RowState) :
    eventsOf t (cols.foldl (decodeColumn row) s).notedata = eventsOf t s.notedata := by
  induction cols generalizing s with
  | nil => rfl
  | cons c cs ih =>
    rw [List.foldl_cons, ih (fun h => hnot (List.mem_cons_of_mem _ h)),
      decodeColumn_events_other row s t c (fun h => hnot (h ▸ List.mem_cons_self _ _))]

theorem foldl_decodeColumn_events (row : String) (t : Nat) (cols : List Nat)
    (hmem : t ∈ cols) (hnd : cols.Nodup) (s : RowState) :
    eventsOf t (cols.foldl (decodeColumn row) s).notedata
      = eventsOf t s.notedata ++ columnEvents row s t := by
  induction cols generalizing s with
  | nil => cases hmem
  | cons c cs ih =>
    rw [List.foldl_cons]
    rw [List.nodup_cons] at hnd
    by_cases hct : c = t
    · subst hct
      rw [foldl_decodeColumn_events_other row c cs hnd.1, decodeColumn_events_self]
    · have hmem' : t ∈ cs := by
        rcases List.mem_cons.1 hmem with h | h
        · exact absurd h.symm hct
        · exact h
      obtain ⟨b1, -, -⟩ := decodeColumn_other row s t c hct
      obtain ⟨-, f2, f3, -, -, -⟩ := decodeColumn_frame row s c
      rw [ih hmem' hnd.2, decodeColumn_events_other row s t c hct,
        columnEvents_congr row s (decodeColumn row s c) t b1 f3 f2]

theorem decodeNoteRow_events (st : StepsType) (s : RowState) (row : String) (t : Nat)
    (ht : t < s.notedata.numTracks) :
    eventsOf t (decodeNoteRow st s row).notedata
      = eventsOf t s.notedata
        ++ columnEvents (if st = .StepsType_pump_halfdouble then erase0 row 2 else row) s t := by
  obtain ⟨s1, e1, e2, e3, e4, e5, heq⟩ := decodeNoteRow_eq st s row
  rw [heq]
  dsimp only
  rw [foldl_decodeColumn_events _ t (List.range s1.notedata.GetNumTracks)
    (by rw [List.mem_range, e2]; exact ht) (List.nodup_range _) s1, e2,
    columnEvents_congr _ s s1 t (by rw [e1]) e5 e4]

theorem columnChar_eq (st : StepsType) (row : String) (t : Nat)
    (hlen : t + layoutOffset st < row.length) :
    row.data[t + layoutOffset st]? = some (columnChar st row t) := by
  have hl : row.length = row.data.length := rfl
  rw [hl] at hlen
  unfold columnChar charAt layoutOffset at *
  by_cases hst : st = .StepsType_pump_halfdouble
  · rw [if_pos hst] at hlen ⊢
    rw [if_pos hst]
    unfold erase0
    rw [List.getD_eq_getElem?_getD, List.getElem?_drop, Nat.add_comm 2 t,
      List.getElem?_eq_getElem hlen]
    rfl
  · rw [if_neg hst, Nat.add_zero] at hlen ⊢
    rw [if_neg hst, List.getD_eq_getElem?_getD, List.getElem?_eq_getElem hlen]
    rfl

/-- C22: decoding of a note row. For a decoded line of at least
`numTracks + off` characters (`off` is 2 for the half-double layout and 0
otherwise) and a column `t < numTracks`, the character read is the character at
index `t + off` of the line, inside the line. When it is not `4`, the last event
recorded for the column is the note at (`t`, current row) given by the
character: `0` empty, `1` tap, `M`/`m` mine, `F`/`f` fake, `L`/`l` lift, any
other character empty, and before it only the end of the hold that was open in
the column is recorded; the row loop goes on with the next line. When it is `4`,
nothing is recorded for the column, and the hold start of the column becomes
the current row only if no hold is open in it. -/
theorem row_decoding (st : StepsType) (s : RowState) (row : String) (t : Nat)
    (ht : t < s.notedata.numTracks) (hlen : t < s.iHoldStartRow.length)
    (hrow : s.notedata.numTracks + layoutOffset st ≤ row.length) :
    row.data[t + layoutOffset st]? = some (columnChar st row t)
    ∧ (columnChar st row t ≠ '4' →
        (eventsOf t (decodeNoteRow st s row).notedata).getLast?
            = some (NoteEvent.tap t (BeatToNoteRow s.fCurBeat) (tapOfChar (columnChar st row t)))
        ∧ eventsOf t (decodeNoteRow st s row).notedata
            = eventsOf t s.notedata
              ++ (if s.holdStart t ≠ -1 then
                    [if s.holdStart t = BeatToNoteRow s.prevBeat then
                       NoteEvent.tap t (s.holdStart t) .TAP_ORIGINAL_TAP
                     else
                       NoteEvent.hold t (s.holdStart t) (BeatToNoteRow s.prevBeat)
                         .TAP_ORIGINAL_HOLD_HEAD]
                  else [])
              ++ [NoteEvent.tap t (BeatToNoteRow s.fCurBeat)
                    (tapOfChar (columnChar st row t))])
    ∧ (columnChar st row t = '4' →
        eventsOf t (decodeNoteRow st s row).notedata = eventsOf t s.notedata
        ∧ (decodeNoteRow st s row).holdStart t
            = (if s.holdStart t = -1 then BeatToNoteRow s.fCurBeat else s.holdStart t))
    ∧ (tapOfChar '0' = .TAP_EMPTY ∧ tapOfChar '1' = .TAP_ORIGINAL_TAP
        ∧ tapOfChar 'M' = .TAP_ORIGINAL_MINE ∧ tapOfChar 'm' = .TAP_ORIGINAL_MINE
        ∧ tapOfChar 'F' = .TAP_ORIGINAL_FAKE ∧ tapOfChar 'f' = .TAP_ORIGINAL_FAKE
        ∧ tapOfChar 'L' = .TAP_ORIGINAL_LIFT ∧ tapOfChar 'l' = .TAP_ORIGINAL_LIFT
        ∧ ∀ c : Char, c ∉ ['0', '1', 'M', 'm', 'F', 'f', 'L', 'l'] → tapOfChar c = .TAP_EMPTY)
    ∧ (∀ (E : Ext) (b : Bool) (l : String), isNoteLine E l → E.StripCrnl l = row →
        rowStep E b st s l = .ok (decodeNoteRow st s row, false)) := by
  have hev := decodeNoteRow_events st s row t ht
  refine ⟨columnChar_eq st row t (by omega), fun hc => ?_, fun hc => ?_, ?_, ?_⟩
  · have hc' : charAt (if st = .StepsType_pump_halfdouble then erase0 row 2 else row) t ≠ '4' :=
      hc
    unfold columnEvents at hev
    rw [if_neg hc', ← List.append_assoc] at hev
    refine ⟨?_, hev⟩
    rw [hev, List.getLast?_append, List.getLast?_singleton]
    rfl
  · have hc' : charAt (if st = .StepsType_pump_halfdouble then erase0 row 2 else row) t = '4' :=
      hc
    unfold columnEvents at hev
    rw [if_pos hc', List.append_nil] at hev
    exact ⟨hev, (decodeNoteRow_hold st s row t ht hlen hc).1⟩
  · refine ⟨rfl, rfl, rfl, rfl, rfl, rfl, rfl, rfl, fun c hc => ?_⟩
    simp only [List.mem_cons, List.mem_singleton, List.not_mem_nil, or_false, not_or] at hc
    unfold tapOfChar
    simp [hc]
  · intro E b l hl hrow'
    rw [← hrow']
    exact rowStep_note E b st s l hl.1 hl.2.1 hl.2.2

/-- The line `00104000` in the half-double layout with six columns: column 2
reads the character `4` at index 4 and column 0 the character `1` at index 2. -/
theorem row_decoding_witness :
    "00104000".data[0 + layoutOffset .StepsType_pump_halfdouble]?
      = some (columnChar .StepsType_pump_halfdouble "00104000" 0) :=
  (row_decoding .StepsType_pump_halfdouble
    (RowState.init TimingData.empty (NoteData.empty.SetNumTracks 6) 4) "00104000" 0
    (by decide) (by decide) (by decide)).1

end KSF
